import Mathlib

/-! gpscorrelate: the coordinate encoder, the tag writer and the command line.

A shallow embedding of

* the decimal-to-fraction routines of `exif-gps.cpp` (`ConvertToRational`,
  `ConvertToLatLongRational`, `ConvertToOldLatLongRational`) and the part of
  `ReadExifData` that decodes a degree/minute/second triple and its hemisphere;
* `WriteGPSData` (position tags, time stamp, entries written, file times) and
  `RemoveGPSExif`;
* `main` of `main-command.c` (option loop, modes, correlation loop, cleanup, exit status)
  and its helpers `RemoveGPSTags`, `CsvEscape`, `XmlCommentSafe` and `FixDatestamp`, with
  `ReadGPSTimestamp` and `WriteFixedDatestamp` of `exif-gps.cpp`;
* the matcher, which is modelled from the specification (its definitions say so);
* the track loader `SelectGPSButtonPress` and the time-zone lines of
  `CorrelateButtonPress` in `gui.c`.

Modelling conventions.

* A C `double` is a rational number (`ℚ`) and every floating-point operation is the
  exact operation on `ℚ`: rounding, infinities and NaN are outside the model. This is the
  reading "arithmetic modelled exactly" of the specification.
* The definitions whose name ends in `_double` are the same lines of code with the result
  of every floating-point operation rounded to the nearest binary64 number
  (`roundDouble`); they evaluate the compiled program on particular doubles, where it
  differs from the exact model.
* A C `int` or `long` that receives a converted `double` holds the exact integer
  (truncation toward zero, as the C conversion does). Whether such a value fits the
  32 bits of an `int` is stated separately, with `INT_MAX_plus_one`.
* `snprintf` into the caller's buffer is modelled by returning the integers that are
  printed; `print` gives the text.
* `mktime` is local time to epoch on a machine with a fixed offset from UTC, `gmtime` the
  UTC breakdown.
* A file is its two `stat` times and its list of metadata entries; whether it can be
  opened and the times it gets when rewritten are given from outside (`WriteEnv`).
* Functions of files that are not part of this development (`ReadGPX`, `ParseLatLong`,
  `CorrelatePhoto`, ...) are given as parameters or as the values they return.
-/

namespace GpsCorrelate

/-! ## C library functions on exact numbers -/

/-- The C function `trunc`: the integer nearest to `x` that is not larger in magnitude. -/
def trunc (x : ℚ) : ℚ :=
  if 0 ≤ x then ((⌊x⌋ : ℤ) : ℚ) else -((⌊-x⌋ : ℤ) : ℚ)

/-- The C function `floor`, as a `double`-valued function. -/
def floor (x : ℚ) : ℚ := ((⌊x⌋ : ℤ) : ℚ)

/-- The C function `fabs`. -/
def fabs (x : ℚ) : ℚ := if 0 ≤ x then x else -x

/-- The C call `pow(10, Decimals)` (and `powl(10, k)`) for an `int` exponent. -/
def pow10 (Decimals : ℤ) : ℚ := (10 : ℚ) ^ Decimals

/-- The conversion `(long)x` or `(int)x` of a `double`: the fraction is discarded. -/
def toLong (x : ℚ) : ℤ := if 0 ≤ x then ⌊x⌋ else -⌊-x⌋

/-- The macro `MAX(a,b)` of `exif-gps.cpp`: `(((a)>(b))?(a):(b))`. -/
def MAX (a b : ℤ) : ℤ := if a > b then a else b

/-- The macro `MIN(a,b)` of `exif-gps.cpp`: `(((a)<(b))?(a):(b))`. -/
def MIN (a b : ℤ) : ℤ := if a < b then a else b

/-- One more than the largest value of a 32-bit `int`. -/
def INT_MAX_plus_one : ℤ := 2 ^ 31

/-! ## `ConvertToRational` -/

/-- The pair `NumTemp`, `DenTemp` of `ConvertToRational`. -/
structure Fraction where
  NumTemp : ℚ
  DenTemp : ℚ
  deriving DecidableEq

/-- The "simple reduction" of `ConvertToRational`: when `NumTemp / DenTemp` is an
integer, both are divided by `DenTemp`. -/
def simpleReduce (f : Fraction) : Fraction :=
  if trunc (f.NumTemp / f.DenTemp) = f.NumTemp / f.DenTemp then
    { NumTemp := f.NumTemp / f.DenTemp, DenTemp := f.DenTemp / f.DenTemp }
  else f

/-- One pass through the body of the `while (1)` loop of `ConvertToRational`:
`none` when one of the two `break`s is taken, the halved pair otherwise. -/
def halveStep (f : Fraction) : Option Fraction :=
  if f.NumTemp / 2 ≠ trunc (f.NumTemp / 2) then none
  else if f.DenTemp / 2 ≠ trunc (f.DenTemp / 2) then none
  else some { NumTemp := f.NumTemp / 2, DenTemp := f.DenTemp / 2 }

/-- The `while (1)` loop of `ConvertToRational`. The first argument bounds the number of
halvings: `none` means that the loop was still running after that many of them. -/
def halveLoop : ℕ → Fraction → Option Fraction
  | 0, f =>
    match halveStep f with
    | none => some f
    | some _ => none
  | n + 1, f =>
    match halveStep f with
    | none => some f
    | some g => halveLoop n g

/-- The two numbers that `ConvertToRational` prints with `"%ld/%ld"`. -/
structure Rational where
  num : ℤ
  den : ℤ
  deriving DecidableEq, Repr

/-- The text printed for a fraction: `"%ld/%ld"`. -/
def Rational.print (r : Rational) : String :=
  toString r.num ++ "/" ++ toString r.den

/-- The function `ConvertToRational(Number, Decimals, Buf, BufSize)`. The first argument
bounds the number of halvings of the loop (see `halveLoop`). -/
def ConvertToRational (fuel : ℕ) (Number : ℚ) (Decimals : ℤ) : Option Rational :=
  let Whole := trunc Number
  let Fractional := Number - Whole
  let Rounder := pow10 Decimals
  let Fractional := trunc (Fractional * Rounder)
  let NumTemp := (Whole * Rounder) + Fractional
  let DenTemp := Rounder
  match halveLoop fuel (simpleReduce { NumTemp := NumTemp, DenTemp := DenTemp }) with
  | none => none
  | some f => some { num := toLong f.NumTemp, den := toLong f.DenTemp }

/-! ## The latitude and longitude encoders -/

/-- The three fractions of a latitude or longitude tag (degrees, minutes, seconds), as
`ConvertToLatLongRational` and `ConvertToOldLatLongRational` print them and as
`ReadExifData` gets them from `toRational(0)`, `toRational(1)`, `toRational(2)`. -/
structure DegMinSec where
  deg : Rational
  min : Rational
  sec : Rational
  deriving DecidableEq, Repr

/-- The text of the three fractions, separated by blanks. -/
def DegMinSec.print (v : DegMinSec) : String :=
  v.deg.print ++ " " ++ v.min.print ++ " " ++ v.sec.print

/-- The function `ConvertToLatLongRational(Number, Decimals, Buf, BufSize)`, which prints
`"%d/1 %d/1 %d/%d"` with `Deg`, `Min`, `Sec`, `Multiplier`. -/
def ConvertToLatLongRational (Number : ℚ) (Decimals : ℤ) : DegMinSec :=
  let Deg : ℤ := toLong (floor (fabs Number))
  let Min : ℤ := toLong (floor ((fabs Number - floor (fabs Number)) * 60))
  let FracPart : ℚ := ((fabs Number - floor (fabs Number)) * 60) - (Min : ℚ)
  let Multiplier : ℤ := toLong (pow10 (MAX 0 (MIN (Decimals - 3) 9)))
  let Sec : ℤ := toLong (floor (FracPart * 60 * (Multiplier : ℚ)))
  { deg := ⟨Deg, 1⟩, min := ⟨Min, 1⟩, sec := ⟨Sec, Multiplier⟩ }

/-- The function `ConvertToOldLatLongRational(Number, Buf, BufSize)`, which prints
`"%d/1 %d/100 0/1"` with `Deg`, `Min`. -/
def ConvertToOldLatLongRational (Number : ℚ) : DegMinSec :=
  let Deg : ℤ := toLong (floor (fabs Number))
  let Min : ℤ := toLong (floor ((fabs Number - floor (fabs Number)) * 6000))
  { deg := ⟨Deg, 1⟩, min := ⟨Min, 100⟩, sec := ⟨0, 1⟩ }

/-- The magnitude that `ReadExifData` computes from the three fractions of a latitude or
longitude tag, before the hemisphere letter is looked at:
`first/second + (first/second)/60 + (first/second)/3600`. -/
def ReadExifData_magnitude (v : DegMinSec) : ℚ :=
  let Lat : ℚ := (v.deg.num : ℚ) / (v.deg.den : ℚ)
  let Lat : ℚ := Lat + (((v.min.num : ℚ) / (v.min.den : ℚ)) / 60)
  Lat + (((v.sec.num : ℚ) / (v.sec.den : ℚ)) / 3600)

/-! ## `WriteGPSData` -/

/-- The fields of `struct GPSPoint` (declared in `gpsstructure.h`) that `WriteGPSData`
reads. -/
structure GPSPoint where
  Lat : ℚ
  LatDecimals : ℤ
  Long : ℚ
  LongDecimals : ℤ
  Elev : ℚ
  ElevDecimals : ℤ
  Time : ℤ

/-- The position tags that `WriteGPSData` adds to the EXIF data: the value given to
`Exif.GPSInfo.GPSAltitudeRef`, `GPSAltitude`, `GPSLatitudeRef`, `GPSLatitude`,
`GPSLongitudeRef` and `GPSLongitude`. -/
structure GPSTags where
  GPSAltitudeRef : ℕ
  GPSAltitude : Rational
  GPSLatitudeRef : String
  GPSLatitude : DegMinSec
  GPSLongitudeRef : String
  GPSLongitude : DegMinSec
  deriving DecidableEq, Repr

/-- The position part of `WriteGPSData(File, Point, Datum, NoChangeMtime, DegMinSecs)`:
the altitude, latitude and longitude tags it builds from `Point`. The first argument
bounds the halvings of `ConvertToRational`; the result is `none` only when that call
does not return within the bound. -/
def WriteGPSData (fuel : ℕ) (Point : GPSPoint) (DegMinSecs : ℤ) : Option GPSTags :=
  let AltitudeRef : ℕ := if Point.Elev > 0 then 0 else 1
  let Decimals : ℤ := MIN Point.ElevDecimals 3
  match ConvertToRational fuel (fabs Point.Elev) Decimals with
  | none => none
  | some Altitude =>
    let LatitudeRef : String := if Point.Lat < 0 then "S" else "N"
    let Latitude : DegMinSec :=
      if DegMinSecs ≠ 0 then ConvertToLatLongRational Point.Lat Point.LatDecimals
      else ConvertToOldLatLongRational Point.Lat
    let LongitudeRef : String := if Point.Long < 0 then "W" else "E"
    let Longitude : DegMinSec :=
      if DegMinSecs ≠ 0 then ConvertToLatLongRational Point.Long Point.LongDecimals
      else ConvertToOldLatLongRational Point.Long
    some { GPSAltitudeRef := AltitudeRef, GPSAltitude := Altitude,
           GPSLatitudeRef := LatitudeRef, GPSLatitude := Latitude,
           GPSLongitudeRef := LongitudeRef, GPSLongitude := Longitude }

/-! ## The sign of a coordinate in `ReadExifData` -/

/-- The latitude that `ReadExifData` stores in `*Lat` for a `GPSLatitude` tag with three
values and the text of the `GPSLatitudeRef` tag: the magnitude, negated when the
reference is `"S"`. -/
def ReadExifData_Lat (GPSLatitude : DegMinSec) (GPSLatitudeRef : String) : ℚ :=
  let Lat : ℚ := ReadExifData_magnitude GPSLatitude
  if GPSLatitudeRef = "S" then -Lat else Lat

/-- The longitude that `ReadExifData` stores in `*Long` for a `GPSLongitude` tag with
three values and the text of the `GPSLongitudeRef` tag: the magnitude, negated when the
reference is `"W"`. -/
def ReadExifData_Long (GPSLongitude : DegMinSec) (GPSLongitudeRef : String) : ℚ :=
  let Long : ℚ := ReadExifData_magnitude GPSLongitude
  if GPSLongitudeRef = "W" then -Long else Long

/-! ## The time stamp of `WriteGPSData` -/

/-- The fields of the C `struct tm` that `WriteGPSData` prints (`tm_isdst` is set to `-1`
by the code, which leaves the choice of daylight saving to `mktime`). -/
structure tm where
  tm_sec : ℤ
  tm_min : ℤ
  tm_hour : ℤ
  tm_mday : ℤ
  tm_mon : ℤ
  tm_year : ℤ
  deriving DecidableEq, Repr

/-- The C function `gmtime`: the UTC calendar breakdown of a number of seconds since
1970-01-01 00:00:00 UTC (proleptic Gregorian calendar, `tm_mon` counted from 0 and
`tm_year` from 1900). -/
def gmtime (t : ℤ) : tm :=
  let days := t / 86400
  let rem := t % 86400
  let z := days + 719468
  let era := z / 146097
  let doe := z - era * 146097
  let yoe := (doe - doe / 1460 + doe / 36524 - doe / 146096) / 365
  let y := yoe + era * 400
  let doy := doe - (365 * yoe + yoe / 4 - yoe / 100)
  let mp := (5 * doy + 2) / 153
  let d := doy - (153 * mp + 2) / 5 + 1
  let m := if mp < 10 then mp + 3 else mp - 9
  let year := if m ≤ 2 then y + 1 else y
  { tm_sec := rem % 60, tm_min := rem % 3600 / 60, tm_hour := rem / 3600,
    tm_mday := d, tm_mon := m - 1, tm_year := year - 1900 }

/-- The function `timegm`, inverse of `gmtime`: the seconds since the epoch of a broken-down
time read as UTC. -/
def timegm (b : tm) : ℤ :=
  let m := b.tm_mon + 1
  let y := if m ≤ 2 then b.tm_year + 1900 - 1 else b.tm_year + 1900
  let era := y / 400
  let yoe := y - era * 400
  let doy := (153 * (if m > 2 then m - 3 else m + 9) + 2) / 5 + b.tm_mday - 1
  let doe := yoe * 365 + yoe / 4 - yoe / 100 + doy
  let days := era * 146097 + doe - 719468
  days * 86400 + b.tm_hour * 3600 + b.tm_min * 60 + b.tm_sec

/-- The C function `mktime` on a machine whose local time is UTC plus a fixed `zone`
seconds: the broken-down time is read as local time. -/
def mktime (zone : ℤ) (b : tm) : ℤ := timegm b - zone

/-- The `struct tm TimeStamp` that `WriteGPSData` prints into the `GPSTimeStamp` and
`GPSDateStamp` tags for `Point->Time`, on a machine whose local time is UTC plus `zone`
seconds. -/
def WriteGPSData_TimeStamp (zone : ℤ) (Time : ℤ) : tm :=
  let TimeStamp := gmtime Time
  if Time ≠ mktime zone TimeStamp then
    let CorrectedTime := Time + (Time - mktime zone TimeStamp)
    gmtime CorrectedTime
  else TimeStamp

/-- The C format `%0wd` for an `int`: decimal digits padded with zeros to width `w`. -/
def printPadded (w : ℕ) (n : ℤ) : String :=
  if n < 0 then
    "-" ++ String.mk (List.replicate (w - 1 - (toString n.natAbs).length) '0') ++
      toString n.natAbs
  else String.mk (List.replicate (w - (toString n.natAbs).length) '0') ++ toString n.natAbs

/-- The text that `WriteGPSData` reads into `GPSTimeStamp`: `"%d/1 %d/1 %d/1"` with
`tm_hour`, `tm_min`, `tm_sec`. -/
def printTimeStamp (b : tm) : String :=
  toString b.tm_hour ++ "/1 " ++ toString b.tm_min ++ "/1 " ++ toString b.tm_sec ++ "/1"

/-- The text that `WriteGPSData` assigns to `GPSDateStamp`: `"%04d:%02d:%02d"` with
`tm_year + 1900`, `tm_mon + 1`, `tm_mday`. -/
def printDateStamp (b : tm) : String :=
  printPadded 4 (b.tm_year + 1900) ++ ":" ++ printPadded 2 (b.tm_mon + 1) ++ ":" ++
    printPadded 2 b.tm_mday

/-! ## Files: metadata entries, times, `RemoveGPSExif` and the whole of `WriteGPSData` -/

/-- One entry of an `Exiv2::ExifData` container: its key and the text of its value. -/
structure Exifdatum where
  key : String
  value : String
  deriving DecidableEq, Repr

/-- What the code sees of an image file: the times reported by `stat` and the entries
that `readMetadata` loads. -/
structure FileState where
  st_mtime : ℤ
  st_atime : ℤ
  exifData : List Exifdatum
  deriving DecidableEq, Repr

/-- What the surroundings decide during one call: whether the image can be opened, and
the times that the file has once `writeMetadata` has rewritten it (those that the second
`stat` reports). -/
structure WriteEnv where
  opens : Bool
  mtimeAfterWrite : ℤ
  atimeAfterWrite : ℤ
  deriving DecidableEq, Repr

/-- The call `Image->writeMetadata()`: the entries are stored and the file gets the times
of the write. -/
def writeMetadata (env : WriteEnv) (exifData : List Exifdatum) : FileState :=
  { st_mtime := env.mtimeAfterWrite, st_atime := env.atimeAfterWrite, exifData := exifData }

/-- The call `utime(File, &utb)` with `utb.actime` and `utb.modtime`. -/
def utime (File : FileState) (actime modtime : ℤ) : FileState :=
  { File with st_atime := actime, st_mtime := modtime }

/-- The call `ExifData::add(ExifKey(key), value)`: a new entry is appended. -/
def exifAdd (exifData : List Exifdatum) (key value : String) : List Exifdatum :=
  exifData ++ [{ key := key, value := value }]

/-- The assignment `ExifData[key] = value`: the first entry with that key gets the value;
when there is none, a new entry is appended. -/
def exifSet : List Exifdatum → String → String → List Exifdatum
  | [], key, value => [{ key := key, value := value }]
  | e :: rest, key, value =>
    if e.key = key then { key := key, value := value } :: rest
    else e :: exifSet rest key value

/-- The C++ call `s.find(pat)` on `std::string`: the position of the first occurrence of
`pat` in `s`, `none` standing for `npos`. -/
def find : List Char → List Char → Option ℕ
  | [], pat => if pat = [] then some 0 else none
  | c :: s, pat =>
    if pat.isPrefixOf (c :: s) then some 0 else (find s pat).map (fun n => n + 1)

/-- The loop of `RemoveGPSExif` over the entries. The iterator `Iter` stands between the
entries already passed (first argument) and those still ahead (second argument): an entry
whose key has `"Exif.GPSInfo"` at position 0 is erased, any other is stepped over. -/
def eraseGPSInfo : List Exifdatum → List Exifdatum → List Exifdatum
  | passed, [] => passed
  | passed, e :: ahead =>
    if find e.key.toList "Exif.GPSInfo".toList = some 0 then eraseGPSInfo passed ahead
    else eraseGPSInfo (passed ++ [e]) ahead

/-- The function `RemoveGPSExif(File, NoChangeMtime)` of `exif-gps.cpp`: the value
returned and the file afterwards. -/
def RemoveGPSExif (env : WriteEnv) (File : FileState) (NoChangeMtime : ℤ) : ℤ × FileState :=
  if env.opens = false then (0, File)
  else
    let ExifInfo := eraseGPSInfo [] File.exifData
    let written := writeMetadata env ExifInfo
    if NoChangeMtime ≠ 0 then (1, utime written written.st_atime File.st_mtime)
    else (1, written)

/-- The function `RemoveGPSTags(File, NoChangeMtime, NoWriteExif)` of `main-command.c`:
the value returned and the file afterwards. Its call of `RemoveGPSExif` passes
`NoWriteExif` as a third argument, for which the definition in `exif-gps.cpp` has no
parameter. -/
def RemoveGPSTags (env : WriteEnv) (File : FileState) (NoChangeMtime : ℤ)
    (_NoWriteExif : ℤ) : ℤ × FileState :=
  let r := RemoveGPSExif env File NoChangeMtime
  if r.1 ≠ 0 then (1, r.2) else (0, r.2)

/-- The entries of `ExifToWrite` when `WriteGPSData` calls `writeMetadata`: those read
from the file, then the additions and assignments made for the tags, in the order of the
code. `t` holds the position tags, `TimeStamp` the broken-down time. -/
def WriteGPSData_entries (exifData : List Exifdatum) (Datum : String) (t : GPSTags)
    (TimeStamp : tm) : List Exifdatum :=
  let ExifToWrite := exifAdd exifData "Exif.GPSInfo.GPSVersionID" "2 0 0 0"
  let ExifToWrite := exifSet ExifToWrite "Exif.GPSInfo.GPSMapDatum" Datum
  let ExifToWrite :=
    exifAdd ExifToWrite "Exif.GPSInfo.GPSAltitudeRef" (toString t.GPSAltitudeRef)
  let ExifToWrite := exifAdd ExifToWrite "Exif.GPSInfo.GPSAltitude" t.GPSAltitude.print
  let ExifToWrite := exifSet ExifToWrite "Exif.GPSInfo.GPSLatitudeRef" t.GPSLatitudeRef
  let ExifToWrite := exifAdd ExifToWrite "Exif.GPSInfo.GPSLatitude" t.GPSLatitude.print
  let ExifToWrite := exifSet ExifToWrite "Exif.GPSInfo.GPSLongitudeRef" t.GPSLongitudeRef
  let ExifToWrite := exifAdd ExifToWrite "Exif.GPSInfo.GPSLongitude" t.GPSLongitude.print
  let ExifToWrite :=
    exifAdd ExifToWrite "Exif.GPSInfo.GPSTimeStamp" (printTimeStamp TimeStamp)
  exifSet ExifToWrite "Exif.GPSInfo.GPSDateStamp" (printDateStamp TimeStamp)

/-- The whole of `WriteGPSData(File, Point, Datum, NoChangeMtime, DegMinSecs)`: the value
returned and the file afterwards, on a machine whose local time is UTC plus `zone`
seconds. The result is `none` only when `ConvertToRational` does not return within
`fuel` halvings. -/
def WriteGPSData_file (env : WriteEnv) (zone : ℤ) (fuel : ℕ) (File : FileState)
    (Point : GPSPoint) (Datum : String) (NoChangeMtime DegMinSecs : ℤ) :
    Option (ℤ × FileState) :=
  if env.opens = false then some (0, File)
  else
    match WriteGPSData fuel Point DegMinSecs with
    | none => none
    | some t =>
      let TimeStamp := WriteGPSData_TimeStamp zone Point.Time
      let written := writeMetadata env (WriteGPSData_entries File.exifData Datum t TimeStamp)
      if NoChangeMtime ≠ 0 then some (1, utime written written.st_atime File.st_mtime)
      else some (1, written)

/-! ## The time-zone option (`-z`, and the time-zone entry of the GUI) -/

/-- The C function `isspace` in the "C" locale: blank, and the control characters 9 to
13. -/
def isspace (c : Char) : Bool := c.toNat = 32 || (9 ≤ c.toNat && c.toNat ≤ 13)

/-- The decimal digits at the head of a text, read as a number that continues `acc`;
the rest of the text is returned with it. -/
def scanDigits : List Char → ℕ → ℕ × List Char
  | [], acc => (acc, [])
  | c :: s, acc =>
    if c.isDigit then scanDigits s (acc * 10 + (c.toNat - 48)) else (acc, c :: s)

/-- The conversion `%d` of `sscanf`, which is also what `atoi` reads: white space is
skipped, then an optional sign and at least one decimal digit are read. `none` when no
number is found; otherwise the number and the rest of the text. -/
def scanInt (s : List Char) : Option (ℤ × List Char) :=
  let s := s.dropWhile isspace
  let signed : Bool × List Char :=
    match s with
    | '-' :: r => (true, r)
    | '+' :: r => (false, r)
    | _ => (false, s)
  match signed.2 with
  | [] => none
  | c :: _ =>
    if c.isDigit then
      let r := scanDigits signed.2 0
      some (if signed.1 then -(r.1 : ℤ) else (r.1 : ℤ), r.2)
    else none

/-- The C function `atoi`: the number at the head of the text, 0 when there is none. -/
def atoi (s : String) : ℤ :=
  match scanInt s.toList with
  | none => 0
  | some r => r.1

/-- The call `sscanf(str, "%d:%d", &a, &b)`: the values of `a` and `b` afterwards, each
keeping its old value when its conversion is not reached or fails. -/
def sscanf_d_colon_d (str : String) (a b : ℤ) : ℤ × ℤ :=
  match scanInt str.toList with
  | none => (a, b)
  | some r =>
    match r.2 with
    | ':' :: rest =>
      match scanInt rest with
      | none => (r.1, b)
      | some r2 => (r.1, r2.1)
    | _ => (r.1, b)

/-- The body of `case 'z'` in `main` (and the same lines of `CorrelateButtonPress`): the
values of `TimeZoneHours` and `TimeZoneMins` after the option text `optarg` has been
read, given their values before. -/
def main_case_z (optarg : String) (TimeZoneHours TimeZoneMins : ℤ) : ℤ × ℤ :=
  if ':' ∈ optarg.toList then
    let r := sscanf_d_colon_d optarg TimeZoneHours TimeZoneMins
    if r.1 < 0 then (r.1, r.2 * -1) else r
  else (atoi optarg, TimeZoneMins)

/-- The time-zone lines of `CorrelateButtonPress`: `Options.TimeZoneHours` and
`Options.TimeZoneMins` are set to 0 and the text of the entry is read as in `main`. -/
def CorrelateButtonPress_TimeZone (TZString : String) : ℤ × ℤ :=
  main_case_z TZString 0 0

/-! ## `main` of `main-command.c` -/

/-- The fields of `struct GPSTrack` (declared in `gpsstructure.h`): the list of points and
the time range. The entry with no points and zero times is the all-zero entry that ends
the array of tracks. -/
structure GPSTrack where
  Points : List GPSPoint
  MinTime : ℤ
  MaxTime : ℤ

/-- The all-zero `struct GPSTrack` left by `calloc` and `memset`. -/
def GPSTrack.zero : GPSTrack := { Points := [], MinTime := 0, MaxTime := 0 }

/-- The values of `Options.Result` that `main` tests (the `CORR_` constants declared in
`correlate.h`). -/
inductive CorrResult where
  | CORR_OK
  | CORR_INTERPOLATED
  | CORR_ROUND
  | CORR_EXIFWRITEFAIL
  | CORR_NOMATCH
  | CORR_TOOFAR
  | CORR_NOEXIFINPUT
  | CORR_GPSDATAEXISTS
  deriving DecidableEq, Repr

/-- The `enum OutputFormat` of `main-command.c`. -/
inductive OutputFormat where
  | TEXT_FORMAT
  | CSV_FORMAT
  | GPX_FORMAT
  deriving DecidableEq, Repr

/-- The exit status `EXIT_SUCCESS`. -/
def EXIT_SUCCESS : ℤ := 0

/-- The exit status `EXIT_FAILURE`. -/
def EXIT_FAILURE : ℤ := 1

/-- The constant `GPS_EXIT_WARNING` of `main-command.c`. -/
def GPS_EXIT_WARNING : ℤ := 2

/-- One value returned by `getopt_long` in `main`, with `optarg` for the options that
take an argument: `unrecognised` is `'?'`, `other` any other code. -/
inductive Opt where
  | g (optarg : String)
  | l (optarg : String)
  | z (optarg : String)
  | O (optarg : String)
  | i
  | v
  | d (optarg : String)
  | n
  | R
  | m (optarg : String)
  | h
  | V
  | f
  | s
  | o
  | x
  | r
  | t
  | M
  | p
  | unrecognised
  | other

/-- The functions of other files that the option loop of `main` calls: `ReadGPX`
(`none` when it returns 0), `ParseLatLong` (`none` when it returns 0) and
`MakeTrackFromLatLong` (`none` when it returns 0). -/
structure Readers where
  ReadGPX : String → Option GPSTrack
  ParseLatLong : String → Option GPSPoint
  MakeTrackFromLatLong : GPSPoint → Option GPSTrack

/-- The local variables of `main` that the option loop sets. -/
structure MainVars where
  Track : List GPSTrack
  NumTracks : ℕ
  HaveTimeAdjustment : ℤ
  TimeZoneHours : ℤ
  TimeZoneMins : ℤ
  Datum : Option String
  Interpolate : ℤ
  NoWriteExif : ℤ
  OverwriteExisting : ℤ
  ShowDetails : ℤ
  FeatherTime : ℤ
  ShowOnlyDetails : ℤ
  ShowFormat : OutputFormat
  RemoveTags : ℤ
  DoBetweenTrackSegs : ℤ
  NoChangeMtime : ℤ
  FixDatestamps : ℤ
  DegMinSecs : ℤ
  PhotoOffset : ℤ

/-- The variables of `main` as initialised, after `calloc` has made the terminating
entry of `Track`. -/
def MainVars.init : MainVars :=
  { Track := [GPSTrack.zero], NumTracks := 0, HaveTimeAdjustment := 0, TimeZoneHours := 0,
    TimeZoneMins := 0, Datum := none, Interpolate := 1, NoWriteExif := 0,
    OverwriteExisting := 0, ShowDetails := 0, FeatherTime := 0, ShowOnlyDetails := 0,
    ShowFormat := OutputFormat.TEXT_FORMAT, RemoveTags := 0, DoBetweenTrackSegs := 0,
    NoChangeMtime := 0, FixDatestamps := 0, DegMinSecs := 1, PhotoOffset := 0 }

/-- The lines "make room for a new end-of-array entry" of `main`, after a track has been
stored in `Track[NumTracks]`: the counter is incremented, the array is extended to
`NumTracks + 1` entries and the new last entry is zeroed. -/
def addTrack (vars : MainVars) (trk : GPSTrack) : MainVars :=
  { vars with Track := (vars.Track.set vars.NumTracks trk).take (vars.NumTracks + 1) ++
                [GPSTrack.zero],
              NumTracks := vars.NumTracks + 1 }

/-- One pass through the `switch (c)` of `main`: the variables afterwards, or the status
given to `exit`. -/
def main_switch (rd : Readers) (vars : MainVars) : Opt → Except ℤ MainVars
  | Opt.g optarg =>
    match rd.ReadGPX optarg with
    | none => Except.error EXIT_FAILURE
    | some trk => Except.ok (addTrack vars trk)
  | Opt.l optarg =>
    match rd.ParseLatLong optarg with
    | none => Except.error EXIT_FAILURE
    | some LatLong =>
      match rd.MakeTrackFromLatLong LatLong with
      | none => Except.error EXIT_FAILURE
      | some trk => Except.ok (addTrack vars trk)
  | Opt.z optarg =>
    let tz := main_case_z optarg vars.TimeZoneHours vars.TimeZoneMins
    Except.ok { vars with TimeZoneHours := tz.1, TimeZoneMins := tz.2,
                          HaveTimeAdjustment := 1 }
  | Opt.O optarg => Except.ok { vars with PhotoOffset := atoi optarg }
  | Opt.i => Except.ok { vars with Interpolate := 0 }
  | Opt.v => Except.ok { vars with ShowDetails := 1 }
  | Opt.d optarg => Except.ok { vars with Datum := some optarg }
  | Opt.n => Except.ok { vars with NoWriteExif := 1 }
  | Opt.R => Except.ok { vars with OverwriteExisting := 1 }
  | Opt.m optarg => Except.ok { vars with FeatherTime := atoi optarg }
  | Opt.h => Except.error EXIT_SUCCESS
  | Opt.V => Except.error EXIT_SUCCESS
  | Opt.f => Except.ok { vars with FixDatestamps := 1 }
  | Opt.s => Except.ok { vars with ShowOnlyDetails := 1,
                                   ShowFormat := OutputFormat.TEXT_FORMAT }
  | Opt.o => Except.ok { vars with ShowOnlyDetails := 1,
                                   ShowFormat := OutputFormat.CSV_FORMAT }
  | Opt.x => Except.ok { vars with ShowOnlyDetails := 1,
                                   ShowFormat := OutputFormat.GPX_FORMAT }
  | Opt.r => Except.ok { vars with RemoveTags := 1 }
  | Opt.t => Except.ok { vars with DoBetweenTrackSegs := 1 }
  | Opt.M => Except.ok { vars with NoChangeMtime := 1 }
  | Opt.p => Except.ok { vars with DegMinSecs := 0 }
  | Opt.unrecognised => Except.error EXIT_FAILURE
  | Opt.other => Except.ok vars

/-- The option loop of `main` (`while (1)` around `getopt_long`), over the options in the
order of the command line. -/
def main_options (rd : Readers) : MainVars → List Opt → Except ℤ MainVars
  | vars, [] => Except.ok vars
  | vars, c :: rest =>
    match main_switch rd vars c with
    | Except.error status => Except.error status
    | Except.ok vars2 => main_options rd vars2 rest

/-- One file named on the command line, with what each routine that `main` may call on it
returns at its turn: `ShowFileDetails`, `RemoveGPSTags`, `FixDatestamp`, and for
`CorrelatePhoto` whether the pointer returned is non-null together with the value left in
`Options.Result`. -/
structure PhotoFile where
  File : String
  ShowFileDetails : ℤ
  RemoveGPSTags : ℤ
  FixDatestamp : ℤ
  Result : Bool
  OptionsResult : CorrResult

/-- The statistics counters of `main`. -/
structure Stats where
  MatchExact : ℕ
  MatchInter : ℕ
  MatchRound : ℕ
  NotMatched : ℕ
  WriteFail : ℕ
  TooFar : ℕ
  NoDate : ℕ
  GPSPresent : ℕ
  deriving DecidableEq, Repr

/-- The counters as initialised, all 0. -/
def Stats.init : Stats :=
  { MatchExact := 0, MatchInter := 0, MatchRound := 0, NotMatched := 0, WriteFail := 0,
    TooFar := 0, NoDate := 0, GPSPresent := 0 }

/-- The body of the correlation loop of `main` for one file, after `CorrelatePhoto` has
returned: the chain of `if`s on `Options.Result` under `if (Result)` and under its
`else`. -/
def countPhoto (st : Stats) (Result : Bool) (OptionsResult : CorrResult) : Stats :=
  if Result then
    let st := if OptionsResult = CorrResult.CORR_OK then
      { st with MatchExact := st.MatchExact + 1 } else st
    let st := if OptionsResult = CorrResult.CORR_INTERPOLATED then
      { st with MatchInter := st.MatchInter + 1 } else st
    let st := if OptionsResult = CorrResult.CORR_ROUND then
      { st with MatchRound := st.MatchRound + 1 } else st
    if OptionsResult = CorrResult.CORR_EXIFWRITEFAIL then
      { st with WriteFail := st.WriteFail + 1 } else st
  else
    let st := if OptionsResult = CorrResult.CORR_NOMATCH then
      { st with NotMatched := st.NotMatched + 1 } else st
    let st := if OptionsResult = CorrResult.CORR_TOOFAR then
      { st with TooFar := st.TooFar + 1 } else st
    let st := if OptionsResult = CorrResult.CORR_NOEXIFINPUT then
      { st with NoDate := st.NoDate + 1 } else st
    if OptionsResult = CorrResult.CORR_GPSDATAEXISTS then
      { st with GPSPresent := st.GPSPresent + 1 } else st

/-- The correlation loop of `main` (`while (optind < argc)`): the counters and the files
passed to `CorrelatePhoto`, in order. -/
def correlateLoop : List PhotoFile → Stats → List String → Stats × List String
  | [], st, done => (st, done)
  | ph :: rest, st, done =>
    correlateLoop rest (countPhoto st ph.Result ph.OptionsResult) (done ++ [ph.File])

/-- The last lines of `main`: the status returned for the counters. -/
def main_status (st : Stats) : ℤ :=
  if st.WriteFail ≠ 0 then EXIT_FAILURE
  else if st.NotMatched + st.TooFar + st.NoDate + st.GPSPresent ≠ 0 then GPS_EXIT_WARNING
  else EXIT_SUCCESS

/-- The loops `result = f(argv[optind++]) && result` of `main`, for the routine whose
return values are given by `ret`: the final `result` and the files passed, in order. -/
def resultLoop (ret : PhotoFile → ℤ) : List PhotoFile → ℤ → List String → ℤ × List String
  | [], result, done => (result, done)
  | ph :: rest, result, done =>
    resultLoop ret rest (if ret ph ≠ 0 ∧ result ≠ 0 then 1 else 0) (done ++ [ph.File])

/-- What a run of `main` shows: the exit status, the files that were passed to a per-file
routine, in order, and the counters of the correlation loop. -/
structure MainResult where
  status : ℤ
  processed : List String
  stats : Stats
  deriving DecidableEq, Repr

/-- The function `main` of `main-command.c`, for the options that `getopt_long` yields
and the files that follow them on the command line. -/
def main (rd : Readers) (options : List Opt) (files : List PhotoFile) : MainResult :=
  if options.isEmpty ∧ files.isEmpty then
    { status := EXIT_SUCCESS, processed := [], stats := Stats.init }
  else
    match main_options rd MainVars.init options with
    | Except.error status => { status := status, processed := [], stats := Stats.init }
    | Except.ok vars =>
      if files.isEmpty then
        { status := EXIT_FAILURE, processed := [], stats := Stats.init }
      else if vars.ShowOnlyDetails ≠ 0 then
        let r := resultLoop (fun ph => ph.ShowFileDetails) files 1 []
        { status := if r.1 ≠ 0 then EXIT_SUCCESS else EXIT_FAILURE, processed := r.2,
          stats := Stats.init }
      else if vars.RemoveTags ≠ 0 then
        let r := resultLoop (fun ph => ph.RemoveGPSTags) files 1 []
        { status := if r.1 ≠ 0 then EXIT_SUCCESS else EXIT_FAILURE, processed := r.2,
          stats := Stats.init }
      else if vars.FixDatestamps ≠ 0 then
        if vars.HaveTimeAdjustment = 0 then
          { status := EXIT_FAILURE, processed := [], stats := Stats.init }
        else
          let r := resultLoop (fun ph => ph.FixDatestamp) files 1 []
          { status := if r.1 ≠ 0 then EXIT_SUCCESS else EXIT_FAILURE, processed := r.2,
            stats := Stats.init }
      else if vars.NumTracks = 0 then
        { status := EXIT_FAILURE, processed := [], stats := Stats.init }
      else
        let r := correlateLoop files Stats.init []
        { status := main_status r.1, processed := r.2, stats := r.1 }

/-! ## The track loader of the GUI (`SelectGPSButtonPress`) -/

/-- The globals `GPSData` and `NumTracks` of `gui.c`. -/
structure GuiTracks where
  GPSData : List GPSTrack
  NumTracks : ℕ

/-- The loops `while (NumTracks > 0) { --NumTracks; FreeTrack(&GPSData[NumTracks]); }` of
`gui.c`, `FreeTrack` (of another file) being given as what it leaves in an entry. -/
def freeTracks (FreeTrack : GPSTrack → GPSTrack) : ℕ → List GPSTrack → List GPSTrack
  | 0, GPSData => GPSData
  | n + 1, GPSData => freeTracks FreeTrack n (GPSData.modify FreeTrack n)

/-- The state of the `for` loop over the selected files in `SelectGPSButtonPress`: the
globals, the flag `ReadOk` and the files passed to `ReadGPX` so far. -/
structure LoadState where
  tracks : GuiTracks
  ReadOk : Bool
  read : List String

/-- One pass through the body of the `for` loop over the selected files. -/
def loadStep (ReadGPX : String → Option GPSTrack) (st : LoadState) (Run : String) :
    LoadState :=
  if st.ReadOk then
    match ReadGPX Run with
    | some trk =>
      { tracks :=
          { GPSData := (st.tracks.GPSData.set st.tracks.NumTracks trk).take
                          (st.tracks.NumTracks + 1) ++ [GPSTrack.zero],
            NumTracks := st.tracks.NumTracks + 1 },
        ReadOk := true, read := st.read ++ [Run] }
    | none => { st with ReadOk := false, read := st.read ++ [Run] }
  else st

/-- The part of `SelectGPSButtonPress` run when the dialog is accepted: the tracks held
are freed, the selected files are read in order, and when one could not be read the
tracks read so far are freed again. -/
def SelectGPSButtonPress (ReadGPX : String → Option GPSTrack)
    (FreeTrack : GPSTrack → GPSTrack) (g : GuiTracks) (FileNames : List String) :
    LoadState :=
  let cleared : GuiTracks :=
    { GPSData := freeTracks FreeTrack g.NumTracks g.GPSData, NumTracks := 0 }
  let st := FileNames.foldl (loadStep ReadGPX)
    { tracks := cleared, ReadOk := true, read := [] }
  if st.ReadOk then st
  else { st with tracks := { GPSData := freeTracks FreeTrack st.tracks.NumTracks
                                           st.tracks.GPSData,
                             NumTracks := 0 } }

/-! ## Sample inputs -/

/-- Sample readers: every track file can be read except `bad.gpx`, and gives a track of
one point; `-l` arguments are never accepted. -/
def sampleReaders : Readers :=
  { ReadGPX := fun name =>
      if name = "bad.gpx" then none
      else some { Points := [{ Lat := 1, LatDecimals := 0, Long := 2, LongDecimals := 0,
                               Elev := 0, ElevDecimals := 0, Time := 1000 }],
                  MinTime := 1000, MaxTime := 1000 },
    ParseLatLong := fun _ => none,
    MakeTrackFromLatLong := fun _ => none }

/-- Sample files: one matched exactly, one too far from the track. -/
def samplePhotos : List PhotoFile :=
  [{ File := "a.jpg", ShowFileDetails := 1, RemoveGPSTags := 1, FixDatestamp := 1,
     Result := true, OptionsResult := CorrResult.CORR_OK },
   { File := "b.jpg", ShowFileDetails := 1, RemoveGPSTags := 1, FixDatestamp := 1,
     Result := false, OptionsResult := CorrResult.CORR_TOOFAR }]

/-! ## `CsvEscape` and `XmlCommentSafe` -/

/-- The quotation mark, character 34. -/
def quotationMark : Char := Char.ofNat 34

/-- The function `CsvEscape(str)` of `main-command.c`, on the characters of the C string
`str` (its terminating NUL left out): the characters written to `newstr` before the
terminating NUL. Each pass of the `do ... while (*str++)` loop copies one character and
writes a second quotation mark after a quotation mark; the last pass copies the NUL. -/
def CsvEscape : List Char → List Char
  | [] => []
  | c :: str =>
    if c = quotationMark then c :: quotationMark :: CsvEscape str else c :: CsvEscape str

/-- Collapsing doubled quotation marks: each pair of adjacent quotation marks, read from
the left, becomes one. -/
def collapseQuotes : List Char → List Char
  | [] => []
  | [a] => [a]
  | a :: b :: rest =>
    if a = quotationMark ∧ b = quotationMark then quotationMark :: collapseQuotes rest
    else a :: collapseQuotes (b :: rest)

/-- The C function `strstr(s, pat)`: the offset of the first occurrence of `pat` in `s`,
`none` standing for `NULL`. -/
def strstr (s pat : List Char) : Option ℕ := find s pat

/-- The `while (1)` loop of `XmlCommentSafe`. The pointer `SafeFile` stands between the
characters before it (second argument) and those from it on (third argument). The first
argument bounds the number of replacements: `none` means that the loop was still running
after that many of them. -/
def XmlCommentSafe_loop : ℕ → List Char → List Char → Option (List Char)
  | 0, before, s =>
    match strstr s ['-', '-'] with
    | none => some (before ++ s)
    | some _ => none
  | n + 1, before, s =>
    match strstr s ['-', '-'] with
    | none => some (before ++ s)
    | some at_ => XmlCommentSafe_loop n (before ++ s.take at_) ((s.drop at_).set 1 '?')

/-- The function `XmlCommentSafe(SafeFile)` of `main-command.c`, on the characters of the
C string: the string afterwards. The first argument bounds the number of replacements
(see `XmlCommentSafe_loop`). -/
def XmlCommentSafe (fuel : ℕ) (SafeFile : List Char) : Option (List Char) :=
  XmlCommentSafe_loop fuel [] SafeFile

/-- The replacement that `XmlCommentSafe` is meant to make, read from the left: a dash
that follows a dash is replaced by a question mark, and the search goes on after it. -/
def replaceSecondDash : List Char → List Char
  | [] => []
  | [a] => [a]
  | a :: b :: rest =>
    if a = '-' ∧ b = '-' then '-' :: '?' :: replaceSecondDash rest
    else a :: replaceSecondDash (b :: rest)

/-- The eight counters of `main`, in the order of their declaration. -/
def Stats.counters (st : Stats) : List ℕ :=
  [st.MatchExact, st.MatchInter, st.MatchRound, st.NotMatched, st.WriteFail, st.TooFar,
   st.NoDate, st.GPSPresent]

/-- The sum of the eight counters of `main`. -/
def Stats.total (st : Stats) : ℕ :=
  st.MatchExact + st.MatchInter + st.MatchRound + st.NotMatched + st.WriteFail + st.TooFar +
    st.NoDate + st.GPSPresent

/-- Whether an option is one of `-g` and `-l`, the two that store a track. -/
def Opt.isTrack : Opt → Bool
  | Opt.g _ => true
  | Opt.l _ => true
  | _ => false

/-- The loop `while (NumTracks > 0) { --NumTracks; FreeTrack(&Track[NumTracks]); }` at the
end of `main`: the indices of the entries passed to `FreeTrack`, in order. -/
def main_cleanup : ℕ → List ℕ
  | 0 => []
  | NumTracks + 1 => NumTracks :: main_cleanup NumTracks

/-- The variables of `main` after the command line `-g a.gpx -v -g b.gpx` has been read
with the sample readers. -/
def sampleVars : MainVars :=
  addTrack { addTrack MainVars.init
      { Points := [{ Lat := 1, LatDecimals := 0, Long := 2, LongDecimals := 0,
                     Elev := 0, ElevDecimals := 0, Time := 1000 }],
        MinTime := 1000, MaxTime := 1000 } with ShowDetails := 1 }
    { Points := [{ Lat := 1, LatDecimals := 0, Long := 2, LongDecimals := 0,
                   Elev := 0, ElevDecimals := 0, Time := 1000 }],
      MinTime := 1000, MaxTime := 1000 }

/-! ## `FixDatestamp`, `ReadGPSTimestamp` and `WriteFixedDatestamp` -/

/-- What `ReadGPSTimestamp` looks up in the metadata of a file: the text of
`Exif.Photo.DateTimeOriginal` and of `Exif.GPSInfo.GPSVersionID` (empty when the tag is
absent), and the values of `Exif.GPSInfo.GPSTimeStamp` and `Exif.GPSInfo.GPSDateStamp` as
`toRational` gives them (`count()` is the length of the list). -/
structure GPSMetadata where
  DateTimeOriginal : String
  GPSVersionID : String
  GPSTimeStamp : List Rational
  GPSDateStamp : List Rational
  deriving DecidableEq, Repr

/-- What `ReadGPSTimestamp` hands back: the pointer returned (`none` for `NULL`), the flag
`*IncludesGPS` and the two buffers. -/
structure GPSTimestampRead where
  OriginalDateStamp : Option String
  IncludesGPS : ℤ
  DateStamp : String
  TimeStamp : String
  deriving DecidableEq, Repr

/-- The `first` of the `n`-th value of a tag, as `toRational(n).first` (0 when there is no
such value). -/
def firstOf (values : List Rational) (n : ℕ) : ℤ :=
  match values[n]? with
  | some r => r.num
  | none => 0

/-- The function `ReadGPSTimestamp(File, DateStamp, TimeStamp, IncludesGPS)` of
`exif-gps.cpp`, called with `*IncludesGPS = 0` and empty buffers as `FixDatestamp` does. -/
def ReadGPSTimestamp (env : WriteEnv) (tags : GPSMetadata) : GPSTimestampRead :=
  if env.opens = false then
    { OriginalDateStamp := none, IncludesGPS := 0, DateStamp := "", TimeStamp := "" }
  else if tags.DateTimeOriginal.length = 0 then
    { OriginalDateStamp := none, IncludesGPS := 0, DateStamp := "", TimeStamp := "" }
  else if tags.GPSVersionID.length = 0 then
    { OriginalDateStamp := some tags.DateTimeOriginal, IncludesGPS := 0, DateStamp := "",
      TimeStamp := "" }
  else if tags.GPSTimeStamp.length < 3 then
    { OriginalDateStamp := some tags.DateTimeOriginal, IncludesGPS := 0, DateStamp := "",
      TimeStamp := "" }
  else
    let TimeStamp := printPadded 2 (firstOf tags.GPSTimeStamp 0) ++ ":" ++
      printPadded 2 (firstOf tags.GPSTimeStamp 1) ++ ":" ++
      printPadded 2 (firstOf tags.GPSTimeStamp 2)
    if tags.GPSDateStamp.length < 3 then
      { OriginalDateStamp := some tags.DateTimeOriginal, IncludesGPS := 0, DateStamp := "",
        TimeStamp := TimeStamp }
    else
      { OriginalDateStamp := some tags.DateTimeOriginal, IncludesGPS := 1,
        DateStamp := printPadded 4 (firstOf tags.GPSDateStamp 0) ++ ":" ++
          printPadded 2 (firstOf tags.GPSDateStamp 1) ++ ":" ++
          printPadded 2 (firstOf tags.GPSDateStamp 2),
        TimeStamp := TimeStamp }

/-- The call `ExifData::erase(ExifData::findKey(ExifKey(key)))`: the first entry with that
key is removed. -/
def exifEraseKey : List Exifdatum → String → List Exifdatum
  | [], _ => []
  | e :: rest, key => if e.key = key then rest else e :: exifEraseKey rest key

/-- The text that `WriteFixedDatestamp` reads into `GPSDateStamp`: `"%d/1 %d/1 %d/1"` with
`tm_year + 1900`, `tm_mon + 1`, `tm_mday`. -/
def printFixedDateStamp (b : tm) : String :=
  toString (b.tm_year + 1900) ++ "/1 " ++ toString (b.tm_mon + 1) ++ "/1 " ++
    toString b.tm_mday ++ "/1"

/-- The function `WriteFixedDatestamp(File, Time)` of `exif-gps.cpp`: the value returned
and the file afterwards, on a machine whose local time is UTC plus `zone` seconds. -/
def WriteFixedDatestamp (env : WriteEnv) (zone : ℤ) (File : FileState) (Time : ℤ) :
    ℤ × FileState :=
  if env.opens = false then (0, File)
  else
    let TimeStamp := WriteGPSData_TimeStamp zone Time
    let ExifToWrite := exifEraseKey File.exifData "Exif.GPSInfo.GPSDateStamp"
    let ExifToWrite :=
      exifAdd ExifToWrite "Exif.GPSInfo.GPSDateStamp" (printFixedDateStamp TimeStamp)
    let ExifToWrite := exifEraseKey ExifToWrite "Exif.GPSInfo.GPSTimeStamp"
    let ExifToWrite :=
      exifAdd ExifToWrite "Exif.GPSInfo.GPSTimeStamp" (printTimeStamp TimeStamp)
    let written := writeMetadata env ExifToWrite
    (1, utime written written.st_atime File.st_mtime)

/-- The message that `FixDatestamp` prints. -/
inductive FixMessage where
  | NoExifData
  | NoGPSData
  | WrongTimestamp
  | TimestampIsOK
  deriving DecidableEq, Repr

/-- What a call of `FixDatestamp` shows: the value returned, the file afterwards, whether
`WriteFixedDatestamp` was called, and the message printed. -/
structure FixResult where
  rc : ℤ
  File : FileState
  invoked : Bool
  message : FixMessage
  deriving DecidableEq, Repr

/-- The function `FixDatestamp(File, AdjustmentHours, AdjustmentMinutes, NoWriteExif)` of
`main-command.c`. `ConvertToUnixTime` (of `unixtime.c`, called with `EXIF_DATE_FORMAT`)
is given as a function of the text and the two adjustments; `tags` is what the metadata
of `File` holds. -/
def FixDatestamp (env : WriteEnv) (zone : ℤ) (ConvertToUnixTime : String → ℤ → ℤ → ℤ)
    (File : FileState) (tags : GPSMetadata)
    (AdjustmentHours AdjustmentMinutes NoWriteExif : ℤ) : FixResult :=
  let rd := ReadGPSTimestamp env tags
  match rd.OriginalDateStamp with
  | none => { rc := 0, File := File, invoked := false, message := FixMessage.NoExifData }
  | some OriginalDateStamp =>
    if rd.IncludesGPS = 0 then
      { rc := 0, File := File, invoked := false, message := FixMessage.NoGPSData }
    else
      let PhotoTime := ConvertToUnixTime OriginalDateStamp AdjustmentHours AdjustmentMinutes
      let CombinedTime := rd.DateStamp ++ " " ++ rd.TimeStamp
      let GPSTime := ConvertToUnixTime CombinedTime 0 0
      if PhotoTime ≠ GPSTime then
        if NoWriteExif = 0 then
          let w := WriteFixedDatestamp env zone File PhotoTime
          { rc := w.1, File := w.2, invoked := true, message := FixMessage.WrongTimestamp }
        else
          { rc := 1, File := File, invoked := false, message := FixMessage.WrongTimestamp }
      else
        { rc := 1, File := File, invoked := false, message := FixMessage.TimestampIsOK }

/-- A sample `ConvertToUnixTime` for texts of the form `YYYY:MM:DD HH:MM:SS`: the six
numbers are read as a UTC date and time, and the adjustment is subtracted. -/
def sampleConvertToUnixTime (StringTime : String) (TZOffsetHours TZOffsetMinutes : ℤ) : ℤ :=
  let nums := (StringTime.toList.map (fun c => if c = ':' then ' ' else c)).splitOn ' '
  let n := fun (i : ℕ) => atoi (String.mk (nums.getD i []))
  timegm { tm_sec := n 5, tm_min := n 4, tm_hour := n 3, tm_mday := n 2, tm_mon := n 1 - 1,
           tm_year := n 0 - 1900 } - TZOffsetHours * 3600 - TZOffsetMinutes * 60


/-- A sample file for `FixDatestamp`: an image that opens, whose write would leave the
times 500 and 600. -/
def sampleWriteEnv : WriteEnv := { opens := true, mtimeAfterWrite := 500, atimeAfterWrite := 600 }

/-- A sample file that carries a date stamp and a time stamp of an earlier version. -/
def sampleFixFile : FileState :=
  { st_mtime := 100, st_atime := 110,
    exifData := [{ key := "Exif.GPSInfo.GPSDateStamp", value := "2005/1 2/1 1/1" },
                 { key := "Exif.GPSInfo.GPSTimeStamp", value := "10/1 0/1 0/1" }] }

/-- The metadata of a photo taken at 10:00:00 on 2005-02-01 whose GPS stamps read
10:00:00 on 2005-02-01, with the given text of `GPSVersionID`. -/
def sampleFixTags (GPSVersionID : String) : GPSMetadata :=
  { DateTimeOriginal := "2005:02:01 10:00:00", GPSVersionID := GPSVersionID,
    GPSTimeStamp := [⟨10, 1⟩, ⟨0, 1⟩, ⟨0, 1⟩],
    GPSDateStamp := [⟨2005, 1⟩, ⟨2, 1⟩, ⟨1, 1⟩] }


/-! ## The matcher

The matcher of the repository (`correlate.c`) is not among the source files at hand; the
definitions of this section follow sections 3, 4.1 and 4.3 of the specification. -/

/-- Modelled from the spec: a `TrackPoint` has a latitude, a longitude, an altitude (which
may be absent in recorded data), a timestamp in seconds and a segment-start marker. -/
structure TrackPoint where
  lat : ℚ
  long : ℚ
  alt : Option ℚ
  time : ℤ
  segmentStart : Bool
  deriving DecidableEq, Repr

/-- Modelled from the spec: a `GeoFix` is the matcher's output: latitude, longitude,
nullable altitude and the instant used. The digit counts of the specification, which the
matcher only passes on, are left out. -/
structure GeoFix where
  lat : ℚ
  long : ℚ
  alt : Option ℚ
  time : ℤ
  deriving DecidableEq, Repr

/-- Modelled from the spec: the `CorrelationOptions` that the matcher reads: interpolation
enabled, matching across segment boundaries allowed, and the feather gap in seconds. -/
structure CorrelationOptions where
  interpolate : Bool
  crossSegments : Bool
  FeatherTime : ℤ
  deriving DecidableEq, Repr

/-- Modelled from the spec: the `CorrelationOutcome` of one photo. -/
inductive CorrelationOutcome where
  | Exact
  | Interpolated
  | Rounded
  | Unmatched
  | TooFar
  | NoInputTimestamp
  | AlreadyTagged
  | WriteFailed
  deriving DecidableEq, Repr

/-- Modelled from the spec: the answers of `findBracket`. -/
inductive Bracket where
  | noData
  | beforeAll (first : TrackPoint)
  | afterAll (last : TrackPoint)
  | exact (point : TrackPoint)
  | between (prevPoint nextPoint : TrackPoint)
  deriving DecidableEq, Repr

/-- Modelled from the spec: the track store holds the merged view of all loaded tracks,
sorted ascending by timestamp. -/
def TimeOrdered (store : List TrackPoint) : Prop :=
  store.Pairwise (fun a b => a.time ≤ b.time)

instance (store : List TrackPoint) : Decidable (TimeOrdered store) := by
  unfold TimeOrdered
  infer_instance

/-- Modelled from the spec: the search of `findBracket` after the point `prevPoint`, whose
timestamp is before `time`: the first later point with timestamp `time` is an exact match,
the first with a later timestamp closes the bracket, and past the last point the answer is
after-all. -/
def findBracket_scan (time : ℤ) : TrackPoint → List TrackPoint → Bracket
  | prevPoint, [] => Bracket.afterAll prevPoint
  | prevPoint, nextPoint :: rest =>
    if time = nextPoint.time then Bracket.exact nextPoint
    else if time < nextPoint.time then Bracket.between prevPoint nextPoint
    else findBracket_scan time nextPoint rest

/-- Modelled from the spec: `findBracket(time)` of section 4.1 over the merged,
time-ordered view: the point with that timestamp, or the two points immediately
surrounding `time`, or before-all, after-all, no data. -/
def findBracket (store : List TrackPoint) (time : ℤ) : Bracket :=
  match store with
  | [] => Bracket.noData
  | first :: rest =>
    if time < first.time then Bracket.beforeAll first
    else if time = first.time then Bracket.exact first
    else findBracket_scan time first rest

/-- Modelled from the spec: the fix copied directly from a track point. -/
def GeoFix.ofPoint (p : TrackPoint) : GeoFix :=
  { lat := p.lat, long := p.long, alt := p.alt, time := p.time }

/-- Modelled from the spec: `value = prev.value + fraction * (next.value - prev.value)`. -/
def blend (fraction prevValue nextValue : ℚ) : ℚ :=
  prevValue + fraction * (nextValue - prevValue)

/-- Modelled from the spec: linear interpolation in time, each axis independently, with
`fraction = (time - prev.time) / (next.time - prev.time)`; the altitude is absent when it
is absent on either side. -/
def interpolate (prevPoint nextPoint : TrackPoint) (time : ℤ) : GeoFix :=
  let fraction : ℚ := ((time - prevPoint.time : ℤ) : ℚ) / ((nextPoint.time - prevPoint.time : ℤ) : ℚ)
  { lat := blend fraction prevPoint.lat nextPoint.lat,
    long := blend fraction prevPoint.long nextPoint.long,
    alt := match prevPoint.alt, nextPoint.alt with
      | some a, some b => some (blend fraction a b)
      | _, _ => none,
    time := time }

/-- Modelled from the spec: whichever of the two points is temporally closer to `time`. -/
def closer (prevPoint nextPoint : TrackPoint) (time : ℤ) : TrackPoint :=
  if time - prevPoint.time ≤ nextPoint.time - time then prevPoint else nextPoint

/-- Modelled from the spec: the feather test on one point: `Rounded` to the point when it
is no more than `FeatherTime` seconds from `time`, else `TooFar`. -/
def featherTest (options : CorrelationOptions) (p : TrackPoint) (time : ℤ) :
    CorrelationOutcome × Option GeoFix :=
  if options.FeatherTime < |time - p.time| then (CorrelationOutcome.TooFar, none)
  else (CorrelationOutcome.Rounded, some (GeoFix.ofPoint p))

/-- Modelled from the spec: the decision procedure of section 4.3, in its order: no data;
outside the span by more than `FeatherTime`; outside within `FeatherTime`; exact point;
bracketing pair (interpolation disabled; segment boundary without cross-segment
interpolation; linear interpolation). A pair straddles a segment boundary when its later
point carries the segment-start marker. -/
def Matcher (options : CorrelationOptions) (store : List TrackPoint) (time : ℤ) :
    CorrelationOutcome × Option GeoFix :=
  match findBracket store time with
  | Bracket.noData => (CorrelationOutcome.Unmatched, none)
  | Bracket.beforeAll first => featherTest options first time
  | Bracket.afterAll last => featherTest options last time
  | Bracket.exact point => (CorrelationOutcome.Exact, some (GeoFix.ofPoint point))
  | Bracket.between prevPoint nextPoint =>
    if options.interpolate = false then
      (CorrelationOutcome.Rounded, some (GeoFix.ofPoint (closer prevPoint nextPoint time)))
    else if nextPoint.segmentStart = true ∧ options.crossSegments = false then
      featherTest options (closer prevPoint nextPoint time) time
    else (CorrelationOutcome.Interpolated, some (interpolate prevPoint nextPoint time))

/-- A sample store of two points of one segment, at times 0 and 100. -/
def sampleStore : List TrackPoint :=
  [{ lat := 10, long := 30, alt := some 200, time := 0, segmentStart := true },
   { lat := 20, long := 50, alt := some 300, time := 100, segmentStart := false }]

/-- A sample store whose last point is at time 1000. -/
def sampleStoreLate : List TrackPoint :=
  [{ lat := 10, long := 30, alt := some 200, time := 900, segmentStart := true },
   { lat := 20, long := 50, alt := none, time := 1000, segmentStart := false }]

/-- Sample options: interpolation enabled, no matching across segments, feather time 60. -/
def sampleOptions : CorrelationOptions :=
  { interpolate := true, crossSegments := false, FeatherTime := 60 }

/-! ## The encoders on IEEE doubles

The definitions above compute on exact numbers. The definitions of this section are the
same lines of `exif-gps.cpp` with the result of every floating-point operation rounded to
the nearest `double`, as the compiled program computes it (each operation rounded once to
binary64; `trunc`, `floor`, `fabs` and the halving of an even integer are exact). They
serve to evaluate the program on particular doubles. -/

/-- Rounding to the nearest integer, a tie going to the even one. -/
def roundHalfEven (q : ℚ) : ℤ :=
  if q - ((⌊q⌋ : ℤ) : ℚ) < 1 / 2 then ⌊q⌋
  else if 1 / 2 < q - ((⌊q⌋ : ℤ) : ℚ) then ⌊q⌋ + 1
  else if ⌊q⌋ % 2 = 0 then ⌊q⌋ else ⌊q⌋ + 1

/-- The number `k` with `2 ^ k ≤ n < 2 ^ (k + 1)`, for `0 < n ≤ fuel`, by repeated
halving. -/
def log2Floor : ℕ → ℕ → ℕ
  | 0, _ => 0
  | fuel + 1, n => if n < 2 then 0 else log2Floor fuel (n / 2) + 1

/-- The binary exponent of `q ≠ 0`: the integer `e` with `2 ^ e ≤ |q| < 2 ^ (e + 1)`. -/
def exponentOf (q : ℚ) : ℤ :=
  if q.den ≤ q.num.natAbs then
    ((log2Floor (q.num.natAbs / q.den) (q.num.natAbs / q.den) : ℕ) : ℤ)
  else Int.negSucc (log2Floor ((q.den - 1) / q.num.natAbs) ((q.den - 1) / q.num.natAbs))

/-- The exponent of the last bit of the `double` nearest to `q`: a `double` has 53
significant bits, and no bit below `2 ^ (-1074)`. -/
def ulpExponent (q : ℚ) : ℤ := max (exponentOf q - 52) (-1074)

/-- The `double` nearest to `q` (IEEE 754 binary64, round to nearest, ties to even): what
a floating-point operation of the program returns when its exact result is `q`, and what
a decimal text reads as. Results beyond the largest `double` are outside the model. -/
def roundDouble (q : ℚ) : ℚ :=
  (roundHalfEven (q / (2 : ℚ) ^ ulpExponent q) : ℚ) * (2 : ℚ) ^ ulpExponent q

/-- The magnitude that `ReadExifData` computes (see `ReadExifData_magnitude`) on doubles:
the three quotients `first/second`, the divisions by 60 and 3600 and the two sums are
rounded. -/
def ReadExifData_magnitude_double (v : DegMinSec) : ℚ :=
  let Lat : ℚ := roundDouble ((v.deg.num : ℚ) / (v.deg.den : ℚ))
  let Lat : ℚ :=
    roundDouble (Lat + roundDouble (roundDouble ((v.min.num : ℚ) / (v.min.den : ℚ)) / 60))
  roundDouble (Lat + roundDouble (roundDouble ((v.sec.num : ℚ) / (v.sec.den : ℚ)) / 3600))

/-- The latitude that `ReadExifData` stores in `*Lat` (see `ReadExifData_Lat`), on
doubles; the negation is exact. -/
def ReadExifData_Lat_double (GPSLatitude : DegMinSec) (GPSLatitudeRef : String) : ℚ :=
  let Lat : ℚ := ReadExifData_magnitude_double GPSLatitude
  if GPSLatitudeRef = "S" then -Lat else Lat

/-- The longitude that `ReadExifData` stores in `*Long` (see `ReadExifData_Long`), on
doubles; the negation is exact. -/
def ReadExifData_Long_double (GPSLongitude : DegMinSec) (GPSLongitudeRef : String) : ℚ :=
  let Long : ℚ := ReadExifData_magnitude_double GPSLongitude
  if GPSLongitudeRef = "W" then -Long else Long

theorem trunc_intCast (z : ℤ) : trunc (z : ℚ) = (z : ℚ) := by
  unfold trunc
  split
  · simp
  · have hz : -(z : ℚ) = ((-z : ℤ) : ℚ) := by simp
    rw [hz, Int.floor_intCast]; simp

theorem trunc_of_nonneg {x : ℚ} (h : 0 ≤ x) : trunc x = ((⌊x⌋ : ℤ) : ℚ) := by
  unfold trunc; rw [if_pos h]

theorem trunc_eq_self_iff (x : ℚ) : trunc x = x ↔ ∃ z : ℤ, x = (z : ℚ) := by
  constructor
  · intro h
    unfold trunc at h
    split at h
    · exact ⟨_, h.symm⟩
    · exact ⟨-⌊-x⌋, by rw [← h]; simp⟩
  · rintro ⟨z, rfl⟩
    exact trunc_intCast z

theorem toLong_intCast (z : ℤ) : toLong (z : ℚ) = z := by
  unfold toLong
  split
  · simp
  · have hz : -(z : ℚ) = ((-z : ℤ) : ℚ) := by simp
    rw [hz, Int.floor_intCast]; simp

theorem half_eq_trunc_iff (a : ℤ) : (a : ℚ) / 2 = trunc ((a : ℚ) / 2) ↔ 2 ∣ a := by
  rw [eq_comm, trunc_eq_self_iff]
  constructor
  · rintro ⟨z, hz⟩
    refine ⟨z, ?_⟩
    have h2 : (a : ℚ) = ((2 * z : ℤ) : ℚ) := by push_cast; linarith
    exact_mod_cast h2
  · rintro ⟨z, rfl⟩
    exact ⟨z, by push_cast; ring⟩

theorem intCast_half {a : ℤ} (h : 2 ∣ a) : (a : ℚ) / 2 = ((a / 2 : ℤ) : ℚ) := by
  obtain ⟨z, rfl⟩ := h
  rw [Int.mul_ediv_cancel_left z (by norm_num)]
  push_cast; ring

/-- On a pair of integers the loop body halves both exactly when both are even. -/
theorem halveStep_int (a b : ℤ) :
    halveStep ⟨(a : ℚ), (b : ℚ)⟩ =
      if 2 ∣ a ∧ 2 ∣ b then some ⟨((a / 2 : ℤ) : ℚ), ((b / 2 : ℤ) : ℚ)⟩ else none := by
  unfold halveStep
  by_cases ha : 2 ∣ a
  · by_cases hb : 2 ∣ b
    · have h1 := (half_eq_trunc_iff a).2 ha
      have h2 := (half_eq_trunc_iff b).2 hb
      simp only [ne_eq]
      rw [if_neg (not_not.2 h1), if_neg (not_not.2 h2), if_pos ⟨ha, hb⟩,
        intCast_half ha, intCast_half hb]
    · have h2 : ¬ ((b : ℚ) / 2 = trunc ((b : ℚ) / 2)) := fun h => hb ((half_eq_trunc_iff b).1 h)
      have h1 := (half_eq_trunc_iff a).2 ha
      simp only [ne_eq]
      rw [if_neg (not_not.2 h1), if_pos h2, if_neg (fun h => hb h.2)]
  · have h1 : ¬ ((a : ℚ) / 2 = trunc ((a : ℚ) / 2)) := fun h => ha ((half_eq_trunc_iff a).1 h)
    simp only [ne_eq]
    rw [if_pos h1, if_neg (fun h => ha h.1)]

theorem halveLoop_of_break {f : Fraction} (h : halveStep f = none) (fuel : ℕ) :
    halveLoop fuel f = some f := by
  cases fuel <;> simp [halveLoop, h]

/-- The loop on a pair of integers whose denominator is `2 ^ j * m` with `m` odd: it
stops after `k ≤ j` halvings, having divided both numbers by `2 ^ k`, and the two
numbers it stops at are not both even. -/
theorem halveLoop_int (j : ℕ) : ∀ (fuel : ℕ) (a m : ℤ), ¬ 2 ∣ m → j ≤ fuel →
    ∃ k, k ≤ j ∧ (2 : ℤ) ^ k ∣ a ∧ ¬ (2 ∣ a / 2 ^ k ∧ 2 ∣ 2 ^ (j - k) * m) ∧
      halveLoop fuel ⟨(a : ℚ), ((2 ^ j * m : ℤ) : ℚ)⟩ =
        some ⟨((a / 2 ^ k : ℤ) : ℚ), ((2 ^ (j - k) * m : ℤ) : ℚ)⟩ := by
  induction j with
  | zero =>
    intro fuel a m hm _
    refine ⟨0, le_refl _, by simp, by simpa using fun _ => hm, ?_⟩
    have hs : halveStep ⟨(a : ℚ), ((2 ^ 0 * m : ℤ) : ℚ)⟩ = none := by
      rw [halveStep_int, if_neg]
      simpa using fun _ => hm
    rw [halveLoop_of_break hs]
    simp
  | succ j ih =>
    intro fuel a m hm hfuel
    by_cases ha : 2 ∣ a
    · obtain ⟨f, rfl⟩ : ∃ f, fuel = f + 1 := ⟨fuel - 1, by omega⟩
      have hden : (2 : ℤ) ∣ 2 ^ (j + 1) * m := ⟨2 ^ j * m, by ring⟩
      have hden2 : (2 ^ (j + 1) * m : ℤ) / 2 = 2 ^ j * m := by
        rw [show (2 ^ (j + 1) * m : ℤ) = 2 * (2 ^ j * m) by ring]
        exact Int.mul_ediv_cancel_left _ (by norm_num)
      obtain ⟨k, hk, hdvd, hodd, hloop⟩ := ih f (a / 2) m hm (by omega)
      have hdiv : a / 2 / 2 ^ k = a / 2 ^ (k + 1) := by
        obtain ⟨e, he⟩ := hdvd
        obtain ⟨c, rfl⟩ := ha
        rw [Int.mul_ediv_cancel_left c (by norm_num)] at he ⊢
        subst he
        rw [Int.mul_ediv_cancel_left e (by positivity),
          show (2 : ℤ) * (2 ^ k * e) = 2 ^ (k + 1) * e by ring,
          Int.mul_ediv_cancel_left e (by positivity)]
      refine ⟨k + 1, by omega, ?_, ?_, ?_⟩
      · obtain ⟨c, rfl⟩ := ha
        rw [Int.mul_ediv_cancel_left c (by norm_num)] at hdvd
        rw [pow_succ']
        exact mul_dvd_mul_left 2 hdvd
      · rw [← hdiv, show j + 1 - (k + 1) = j - k by omega]
        exact hodd
      · rw [halveLoop, halveStep_int, if_pos ⟨ha, hden⟩]
        simp only
        rw [hden2, hloop, hdiv, show j + 1 - (k + 1) = j - k by omega]
    · refine ⟨0, Nat.zero_le _, by simp, by simpa using fun h => absurd h ha, ?_⟩
      have hs : halveStep ⟨(a : ℚ), ((2 ^ (j + 1) * m : ℤ) : ℚ)⟩ = none := by
        rw [halveStep_int, if_neg (fun h => ha h.1)]
      rw [halveLoop_of_break hs]
      simp

/-! ## `ConvertToRational` on a non-negative number with `Decimals ≥ 0` -/

theorem pow10_natCast (d : ℕ) : pow10 (d : ℤ) = (((10 : ℤ) ^ d : ℤ) : ℚ) := by
  unfold pow10
  rw [zpow_natCast]
  push_cast
  rfl

/-- The numerator that `ConvertToRational` starts from is the truncated decimal
`trunc (Number * 10 ^ d)`. -/
theorem numTemp_eq (Number : ℚ) (hN : 0 ≤ Number) (d : ℕ) :
    trunc Number * pow10 (d : ℤ) + trunc ((Number - trunc Number) * pow10 (d : ℤ)) =
      ((⌊Number * (10 : ℚ) ^ d⌋ : ℤ) : ℚ) := by
  have hp : pow10 (d : ℤ) = (10 : ℚ) ^ d := by unfold pow10; rw [zpow_natCast]
  have hpos : (0 : ℚ) ≤ (10 : ℚ) ^ d := by positivity
  rw [trunc_of_nonneg hN, hp]
  have hfr : 0 ≤ (Number - ((⌊Number⌋ : ℤ) : ℚ)) * (10 : ℚ) ^ d :=
    mul_nonneg (sub_nonneg.2 (Int.floor_le Number)) hpos
  rw [trunc_of_nonneg hfr]
  have hsplit : (Number - ((⌊Number⌋ : ℤ) : ℚ)) * (10 : ℚ) ^ d =
      Number * (10 : ℚ) ^ d - ((⌊Number⌋ * 10 ^ d : ℤ) : ℚ) := by
    push_cast; ring
  rw [hsplit, Int.floor_sub_int]
  push_cast
  ring

theorem simpleReduce_int (N R : ℤ) (hR : 0 < R) :
    simpleReduce ⟨(N : ℚ), (R : ℚ)⟩ =
      if R ∣ N then ⟨((N / R : ℤ) : ℚ), ((1 : ℤ) : ℚ)⟩ else ⟨(N : ℚ), (R : ℚ)⟩ := by
  have hRq : (R : ℚ) ≠ 0 := by exact_mod_cast hR.ne'
  unfold simpleReduce
  by_cases h : R ∣ N
  · obtain ⟨c, rfl⟩ := h
    have hq : ((R * c : ℤ) : ℚ) / (R : ℚ) = (c : ℚ) := by
      push_cast; field_simp
    simp only [hq, trunc_intCast, if_true, dvd_mul_right]
    rw [Int.mul_ediv_cancel_left c hR.ne', div_self hRq]
    simp
  · have hne : ¬ trunc ((N : ℚ) / (R : ℚ)) = (N : ℚ) / (R : ℚ) := by
      intro heq
      obtain ⟨z, hz⟩ := (trunc_eq_self_iff _).1 heq
      apply h
      refine ⟨z, ?_⟩
      have h2 : (N : ℚ) = ((R * z : ℤ) : ℚ) := by
        push_cast; field_simp at hz; linarith
      exact_mod_cast h2
    simp only [hne, h, if_false]

/-- For `Number ≥ 0` and `Decimals = d ≥ 0` the loop of `ConvertToRational` is entered
with the pair `N`, `10 ^ d` (`N = trunc (Number * 10 ^ d)`), or with `N / 10 ^ d`, `1` when
`10 ^ d` divides `N`. -/
theorem ConvertToRational_start (Number : ℚ) (hN : 0 ≤ Number) (d fuel : ℕ) :
    ConvertToRational fuel Number (d : ℤ) =
      match halveLoop fuel
        (if (10 : ℤ) ^ d ∣ ⌊Number * (10 : ℚ) ^ d⌋ then
          ⟨((⌊Number * (10 : ℚ) ^ d⌋ / (10 : ℤ) ^ d : ℤ) : ℚ), ((1 : ℤ) : ℚ)⟩
        else ⟨((⌊Number * (10 : ℚ) ^ d⌋ : ℤ) : ℚ), (((10 : ℤ) ^ d : ℤ) : ℚ)⟩) with
      | none => none
      | some f => some { num := toLong f.NumTemp, den := toLong f.DenTemp } := by
  have hR : (0 : ℤ) < (10 : ℤ) ^ d := by positivity
  rw [← simpleReduce_int _ _ hR]
  unfold ConvertToRational
  simp only [numTemp_eq Number hN d]
  rw [pow10_natCast]

/-- When `10 ^ d` divides `N = trunc (Number * 10 ^ d)`, `ConvertToRational` prints
`N / 10 ^ d` over `1`, whatever bound is put on the loop. -/
theorem ConvertToRational_of_dvd (Number : ℚ) (hN : 0 ≤ Number) (d fuel : ℕ)
    (hdvd : (10 : ℤ) ^ d ∣ ⌊Number * (10 : ℚ) ^ d⌋) :
    ConvertToRational fuel Number (d : ℤ) =
      some ⟨⌊Number * (10 : ℚ) ^ d⌋ / (10 : ℤ) ^ d, 1⟩ := by
  rw [ConvertToRational_start Number hN d fuel, if_pos hdvd]
  obtain ⟨k, hk, -, -, hloop⟩ :=
    halveLoop_int 0 fuel (⌊Number * (10 : ℚ) ^ d⌋ / (10 : ℤ) ^ d) 1 (by norm_num)
      (Nat.zero_le _)
  obtain rfl : k = 0 := by omega
  simp only [pow_zero, one_mul, Nat.sub_zero, Int.ediv_one] at hloop
  rw [hloop]
  simp only [toLong_intCast]

/-- When `10 ^ d` does not divide `N = trunc (Number * 10 ^ d)`, `ConvertToRational`
prints `N / 2 ^ k` over `10 ^ d / 2 ^ k`, where `k ≤ d` is the number of halvings made
and the two printed numbers are not both even. Allowing `d` halvings suffices. -/
theorem ConvertToRational_of_not_dvd (Number : ℚ) (hN : 0 ≤ Number) (d fuel : ℕ)
    (hf : d ≤ fuel) (hdvd : ¬ (10 : ℤ) ^ d ∣ ⌊Number * (10 : ℚ) ^ d⌋) :
    ∃ k, k ≤ d ∧ (2 : ℤ) ^ k ∣ ⌊Number * (10 : ℚ) ^ d⌋ ∧ (2 : ℤ) ^ k ∣ (10 : ℤ) ^ d ∧
      ¬ (2 ∣ ⌊Number * (10 : ℚ) ^ d⌋ / (2 : ℤ) ^ k ∧ 2 ∣ (10 : ℤ) ^ d / (2 : ℤ) ^ k) ∧
      ConvertToRational fuel Number (d : ℤ) =
        some ⟨⌊Number * (10 : ℚ) ^ d⌋ / (2 : ℤ) ^ k, (10 : ℤ) ^ d / (2 : ℤ) ^ k⟩ := by
  rw [ConvertToRational_start Number hN d fuel, if_neg hdvd]
  have h5 : ¬ (2 : ℤ) ∣ (5 : ℤ) ^ d := by
    intro h
    have h' := Int.Prime.dvd_pow' Nat.prime_two h
    norm_num at h'
  have h10 : (10 : ℤ) ^ d = 2 ^ d * 5 ^ d := by rw [← mul_pow]; norm_num
  obtain ⟨k, hk, hdk, hodd, hloop⟩ :=
    halveLoop_int d fuel ⌊Number * (10 : ℚ) ^ d⌋ ((5 : ℤ) ^ d) h5 hf
  have hsplit : (10 : ℤ) ^ d = 2 ^ k * (2 ^ (d - k) * 5 ^ d) := by
    rw [h10, ← mul_assoc, ← pow_add]; congr 2; omega
  have hden : (10 : ℤ) ^ d / (2 : ℤ) ^ k = 2 ^ (d - k) * 5 ^ d := by
    rw [hsplit]
    exact Int.mul_ediv_cancel_left _ (by positivity)
  refine ⟨k, hk, hdk, ⟨_, hsplit⟩, ?_, ?_⟩
  · rw [hden]; exact hodd
  · rw [hden, h10, hloop]
    simp only [toLong_intCast]

theorem trunc_mul_pow10 (Number : ℚ) (hN : 0 ≤ Number) (d : ℕ) :
    trunc (Number * pow10 (d : ℤ)) = ((⌊Number * (10 : ℚ) ^ d⌋ : ℤ) : ℚ) := by
  have hp : pow10 (d : ℤ) = (10 : ℚ) ^ d := by unfold pow10; rw [zpow_natCast]
  rw [hp, trunc_of_nonneg (mul_nonneg hN (by positivity))]

theorem pow10_pos (D : ℤ) : 0 < pow10 D := by
  unfold pow10; positivity

/-! ## Claims about `ConvertToRational` -/

/-- C1: for every `Number ≥ 0` and every integer `Decimals ≥ 0`, `ConvertToRational`
returns (its loop needs at most `Decimals` halvings) and the printed fraction `n/d` has
`d > 0` and `n/d = trunc (Number * 10 ^ Decimals) / 10 ^ Decimals`: the reduction steps
never change the value of the truncated decimal. -/
theorem ConvertToRational_value (fuel : ℕ) (Number : ℚ) (Decimals : ℤ)
    (hN : 0 ≤ Number) (hD : 0 ≤ Decimals) (hf : Decimals.toNat ≤ fuel) :
    ∃ r : Rational, ConvertToRational fuel Number Decimals = some r ∧ 0 < r.den ∧
      (r.num : ℚ) / (r.den : ℚ) = trunc (Number * pow10 Decimals) / pow10 Decimals := by
  obtain ⟨d, rfl⟩ := Int.eq_ofNat_of_zero_le hD
  rw [Int.toNat_ofNat] at hf
  rw [trunc_mul_pow10 Number hN d, pow10_natCast]
  have hR : (0 : ℤ) < (10 : ℤ) ^ d := by positivity
  have hRq : ((((10 : ℤ) ^ d : ℤ)) : ℚ) ≠ 0 := by exact_mod_cast hR.ne'
  by_cases hdvd : (10 : ℤ) ^ d ∣ ⌊Number * (10 : ℚ) ^ d⌋
  · refine ⟨_, ConvertToRational_of_dvd Number hN d fuel hdvd, by norm_num, ?_⟩
    obtain ⟨c, hc⟩ := hdvd
    simp only [hc]
    rw [Int.mul_ediv_cancel_left c hR.ne']
    push_cast
    field_simp
  · obtain ⟨k, -, ⟨a, ha⟩, ⟨b, hb⟩, -, hres⟩ :=
      ConvertToRational_of_not_dvd Number hN d fuel hf hdvd
    have h2 : (2 : ℤ) ^ k ≠ 0 := by positivity
    have hbpos : 0 < b := by
      have h2pos : (0 : ℤ) < 2 ^ k := by positivity
      rw [hb] at hR
      exact pos_of_mul_pos_right hR h2pos.le
    refine ⟨_, hres, ?_, ?_⟩
    · simp only [hb]
      rw [Int.mul_ediv_cancel_left b h2]
      exact hbpos
    · simp only [ha, hb]
      rw [Int.mul_ediv_cancel_left a h2, Int.mul_ediv_cancel_left b h2]
      have hbq : (b : ℚ) ≠ 0 := by exact_mod_cast hbpos.ne'
      have h2q : ((2 : ℚ)) ^ k ≠ 0 := by positivity
      push_cast
      field_simp
      ring

/-- Witness of C1, from the comment in the code: `Number = 25.12345`, `Decimals = 4`. -/
theorem ConvertToRational_value_witness :
    ∃ r : Rational, ConvertToRational 4 (2512345 / 100000) 4 = some r ∧ 0 < r.den ∧
      (r.num : ℚ) / (r.den : ℚ) =
        trunc ((2512345 / 100000 : ℚ) * pow10 4) / pow10 4 :=
  ConvertToRational_value 4 (2512345 / 100000) 4 (by norm_num) (by norm_num) (by decide)

/-- The example of the comment in the code: `25.12345` with four decimals starts from
`251234/10000` and is printed as `125617/5000`. -/
theorem ConvertToRational_example :
    trunc ((2512345 / 100000 : ℚ) * pow10 4) = 251234 ∧ pow10 4 = 10000 ∧
      ConvertToRational 4 (2512345 / 100000) 4 = some ⟨125617, 5000⟩ ∧
      (⟨125617, 5000⟩ : Rational).print = "125617/5000" := by
  refine ⟨?_, ?_, ?_, by decide⟩
  · norm_num [trunc, pow10]
  · norm_num [pow10]
  · norm_num [ConvertToRational, trunc, pow10, simpleReduce, halveLoop, halveStep, toLong]

theorem print_den_one (k : ℤ) : (⟨k, 1⟩ : Rational).print = toString k ++ "/1" := by
  unfold Rational.print
  rw [String.append_assoc]
  rfl

theorem halveStep_den_one (a : ℚ) : halveStep ⟨a, 1⟩ = none := by
  have h1 : ¬ ((1 : ℚ) / 2 = trunc ((1 : ℚ) / 2)) := by norm_num [trunc]
  unfold halveStep
  by_cases h : a / 2 ≠ trunc (a / 2)
  · rw [if_pos h]
  · rw [if_neg h, if_pos h1]

/-- C7: for every `Number ≥ 0` and `Decimals ≥ 0` such that `trunc (Number * 10 ^ Decimals)`
is a multiple of `10 ^ Decimals`, the printed fraction is exactly `k/1` with
`k = trunc Number`, whatever bound is put on the loop; and the halving loop never
changes a denominator of 1. -/
theorem ConvertToRational_integer (fuel : ℕ) (Number : ℚ) (Decimals : ℤ)
    (hN : 0 ≤ Number) (hD : 0 ≤ Decimals)
    (hmul : ∃ z : ℤ, trunc (Number * pow10 Decimals) = (z : ℚ) * pow10 Decimals) :
    (∃ k : ℤ, (k : ℚ) = trunc Number ∧
      ConvertToRational fuel Number Decimals = some ⟨k, 1⟩ ∧
      (⟨k, 1⟩ : Rational).print = toString k ++ "/1") ∧
    ∀ (n : ℕ) (a : ℚ), halveLoop n ⟨a, 1⟩ = some ⟨a, 1⟩ := by
  refine ⟨?_, fun n a => halveLoop_of_break (halveStep_den_one a) n⟩
  obtain ⟨d, rfl⟩ := Int.eq_ofNat_of_zero_le hD
  obtain ⟨z, hz⟩ := hmul
  rw [trunc_mul_pow10 Number hN d, pow10_natCast] at hz
  have hR : (0 : ℤ) < (10 : ℤ) ^ d := by positivity
  have hfl : ⌊Number * (10 : ℚ) ^ d⌋ = (10 : ℤ) ^ d * z := by
    have : ((⌊Number * (10 : ℚ) ^ d⌋ : ℤ) : ℚ) = (((10 : ℤ) ^ d * z : ℤ) : ℚ) := by
      rw [hz]; push_cast; ring
    exact_mod_cast this
  have hzfloor : ⌊Number⌋ = z := by
    rw [Int.floor_eq_iff]
    have hq : (1 : ℚ) ≤ (10 : ℚ) ^ d := one_le_pow₀ (by norm_num)
    have hle := Int.floor_le (Number * (10 : ℚ) ^ d)
    have hlt := Int.lt_floor_add_one (Number * (10 : ℚ) ^ d)
    rw [hfl] at hle hlt
    push_cast at hle hlt
    constructor
    · by_contra hcon
      push_neg at hcon
      nlinarith
    · by_contra hcon
      push_neg at hcon
      nlinarith
  refine ⟨z, ?_, ?_, print_den_one z⟩
  · rw [trunc_of_nonneg hN, hzfloor]
  · rw [ConvertToRational_of_dvd Number hN d fuel ⟨z, hfl⟩, hfl,
      Int.mul_ediv_cancel_left z hR.ne']

/-- Witness of C7: `Number = 3`, `Decimals = 2`, printed as `3/1`. -/
theorem ConvertToRational_integer_witness :
    (∃ k : ℤ, (k : ℚ) = trunc 3 ∧
      ConvertToRational 0 3 2 = some ⟨k, 1⟩ ∧
      (⟨k, 1⟩ : Rational).print = toString k ++ "/1") ∧
    ∀ (n : ℕ) (a : ℚ), halveLoop n ⟨a, 1⟩ = some ⟨a, 1⟩ :=
  ConvertToRational_integer 0 3 2 (by norm_num) (by norm_num)
    ⟨3, by norm_num [trunc, pow10]⟩

/-- C9: `ConvertToRational` does not produce lowest terms in general: `Number = 0.5`
with `Decimals = 1` is printed as `5/10`, whatever bound is put on the loop, and 5 and 10
have the common factor 5. -/
theorem ConvertToRational_not_lowest_terms :
    ∀ fuel : ℕ, ∃ r : Rational, ConvertToRational fuel (1 / 2) 1 = some r ∧
      r.print = "5/10" ∧ 1 < Int.gcd r.num r.den := by
  intro fuel
  have hs : halveStep ⟨5, 10⟩ = none := by
    norm_num [halveStep, trunc]
  refine ⟨⟨5, 10⟩, ?_, by decide, by decide⟩
  have h := halveLoop_of_break hs fuel
  norm_num [ConvertToRational, trunc, pow10, simpleReduce, toLong, h]

/-! ## Claims about the latitude and longitude encoders -/

theorem fabs_eq_abs (x : ℚ) : fabs x = |x| := by
  unfold fabs
  split
  · rw [abs_of_nonneg ‹_›]
  · rw [abs_of_neg (lt_of_not_ge ‹_›)]

theorem toLong_floor (x : ℚ) : toLong (floor x) = ⌊x⌋ := by
  unfold floor
  exact toLong_intCast _

theorem MAX_MIN_eq (D : ℤ) : MAX 0 (MIN (D - 3) 9) = max 0 (min (D - 3) 9) := by
  unfold MAX MIN
  split_ifs <;> omega

/-- The value of `Multiplier` in `ConvertToLatLongRational`. -/
theorem multiplier_eq (D : ℤ) :
    toLong (pow10 (MAX 0 (MIN (D - 3) 9))) = (10 : ℤ) ^ (max 0 (min (D - 3) 9)).toNat := by
  rw [MAX_MIN_eq]
  have h0 : (0 : ℤ) ≤ max 0 (min (D - 3) 9) := le_max_left _ _
  have hcast : max 0 (min (D - 3) 9) = (((max 0 (min (D - 3) 9)).toNat : ℕ) : ℤ) :=
    (Int.toNat_of_nonneg h0).symm
  rw [hcast, pow10_natCast, toLong_intCast, ← hcast]

theorem ConvertToLatLongRational_eq (Number : ℚ) (Decimals : ℤ) :
    ConvertToLatLongRational Number Decimals =
      { deg := ⟨⌊|Number|⌋, 1⟩,
        min := ⟨⌊(|Number| - ((⌊|Number|⌋ : ℤ) : ℚ)) * 60⌋, 1⟩,
        sec := ⟨⌊((|Number| - ((⌊|Number|⌋ : ℤ) : ℚ)) * 60 -
                  ((⌊(|Number| - ((⌊|Number|⌋ : ℤ) : ℚ)) * 60⌋ : ℤ) : ℚ)) * 60 *
                  (10 : ℚ) ^ (max 0 (min (Decimals - 3) 9)).toNat⌋,
                (10 : ℤ) ^ (max 0 (min (Decimals - 3) 9)).toNat⟩ } := by
  unfold ConvertToLatLongRational
  simp only [toLong_floor, multiplier_eq, fabs_eq_abs]
  simp only [floor, Int.cast_pow, Int.cast_ofNat]

/-- C2: for every `Number` and integer `Decimals`, `ConvertToLatLongRational` prints
`"Deg/1 Min/1 Sec/M"` where `Deg = floor |Number|`, `Min = floor ((|Number| - Deg) * 60)`,
`M = 10 ^ clamp (Decimals - 3, 0, 9)` and
`Sec = floor (((|Number| - Deg) * 60 - Min) * 60 * M)`. -/
theorem ConvertToLatLongRational_spec (Number : ℚ) (Decimals : ℤ) :
    ConvertToLatLongRational Number Decimals =
      { deg := ⟨⌊|Number|⌋, 1⟩,
        min := ⟨⌊(|Number| - ((⌊|Number|⌋ : ℤ) : ℚ)) * 60⌋, 1⟩,
        sec := ⟨⌊((|Number| - ((⌊|Number|⌋ : ℤ) : ℚ)) * 60 -
                  ((⌊(|Number| - ((⌊|Number|⌋ : ℤ) : ℚ)) * 60⌋ : ℤ) : ℚ)) * 60 *
                  (10 : ℚ) ^ (max 0 (min (Decimals - 3) 9)).toNat⌋,
                (10 : ℤ) ^ (max 0 (min (Decimals - 3) 9)).toNat⟩ } ∧
    (ConvertToLatLongRational Number Decimals).print =
      toString ⌊|Number|⌋ ++ "/1 " ++
        toString ⌊(|Number| - ((⌊|Number|⌋ : ℤ) : ℚ)) * 60⌋ ++ "/1 " ++
        toString ⌊((|Number| - ((⌊|Number|⌋ : ℤ) : ℚ)) * 60 -
                  ((⌊(|Number| - ((⌊|Number|⌋ : ℤ) : ℚ)) * 60⌋ : ℤ) : ℚ)) * 60 *
                  (10 : ℚ) ^ (max 0 (min (Decimals - 3) 9)).toNat⌋ ++ "/" ++
        toString ((10 : ℤ) ^ (max 0 (min (Decimals - 3) 9)).toNat) := by
  have h := ConvertToLatLongRational_eq Number Decimals
  refine ⟨h, ?_⟩
  rw [h]
  simp only [DegMinSec.print, Rational.print, String.append_assoc]
  rfl

theorem ConvertToOldLatLongRational_eq (Number : ℚ) :
    ConvertToOldLatLongRational Number =
      { deg := ⟨⌊|Number|⌋, 1⟩,
        min := ⟨⌊(|Number| - ((⌊|Number|⌋ : ℤ) : ℚ)) * 6000⌋, 100⟩,
        sec := ⟨0, 1⟩ } := by
  unfold ConvertToOldLatLongRational
  simp only [toLong_floor, fabs_eq_abs]
  simp only [floor]

/-- C3: for every `Number`, `ConvertToOldLatLongRational` prints `"Deg/1 Min/100 0/1"`
with `Deg = floor |Number|` and `Min = floor ((|Number| - Deg) * 6000)`; the minutes
denominator is always 100, the seconds field is always `0/1`, and `0 ≤ Min ≤ 5999`. -/
theorem ConvertToOldLatLongRational_spec (Number : ℚ) :
    ConvertToOldLatLongRational Number =
      { deg := ⟨⌊|Number|⌋, 1⟩,
        min := ⟨⌊(|Number| - ((⌊|Number|⌋ : ℤ) : ℚ)) * 6000⌋, 100⟩,
        sec := ⟨0, 1⟩ } ∧
    (ConvertToOldLatLongRational Number).print =
      toString ⌊|Number|⌋ ++ "/1 " ++
        toString ⌊(|Number| - ((⌊|Number|⌋ : ℤ) : ℚ)) * 6000⌋ ++ "/100 0/1" ∧
    0 ≤ (ConvertToOldLatLongRational Number).min.num ∧
    (ConvertToOldLatLongRational Number).min.num ≤ 5999 := by
  have h := ConvertToOldLatLongRational_eq Number
  have hlo : (0 : ℚ) ≤ |Number| - ((⌊|Number|⌋ : ℤ) : ℚ) :=
    sub_nonneg.2 (Int.floor_le _)
  have hhi : |Number| - ((⌊|Number|⌋ : ℤ) : ℚ) < 1 := by
    have := Int.lt_floor_add_one |Number|
    linarith
  refine ⟨h, ?_, ?_, ?_⟩
  · rw [h]
    simp only [DegMinSec.print, Rational.print, String.append_assoc]
    rfl
  · rw [h]
    exact Int.floor_nonneg.2 (mul_nonneg hlo (by norm_num))
  · rw [h]
    have hlt : ⌊(|Number| - ((⌊|Number|⌋ : ℤ) : ℚ)) * 6000⌋ < 6000 := by
      rw [Int.floor_lt]
      push_cast
      linarith
    show ⌊(|Number| - ((⌊|Number|⌋ : ℤ) : ℚ)) * 6000⌋ ≤ 5999
    omega

/-- The example of the specification: `25.123456` in legacy style has degrees 25 and
minutes `740/100`, within 0.01 of `0.123456 * 60 = 7.40736`. -/
theorem legacy_example :
    ConvertToOldLatLongRational (25123456 / 1000000) =
      { deg := ⟨25, 1⟩, min := ⟨740, 100⟩, sec := ⟨0, 1⟩ } ∧
    |(123456 / 1000000 : ℚ) * 60 - 740 / 100| < 1 / 100 := by
  constructor
  · rw [ConvertToOldLatLongRational_eq]
    have h1 : |(25123456 / 1000000 : ℚ)| = 25123456 / 1000000 := abs_of_nonneg (by norm_num)
    rw [h1]
    norm_num
  · rw [abs_lt]; constructor <;> norm_num

/-- The decoding of a modern encoding falls short of `|Number|` by less than
`1 / (3600 * M)`, `M` being the multiplier. -/
theorem modern_error (Number : ℚ) (Decimals : ℤ) :
    0 ≤ |Number| - ReadExifData_magnitude (ConvertToLatLongRational Number Decimals) ∧
    |Number| - ReadExifData_magnitude (ConvertToLatLongRational Number Decimals) <
      1 / (3600 * (10 : ℚ) ^ (max 0 (min (Decimals - 3) 9)).toNat) := by
  rw [ConvertToLatLongRational_eq Number Decimals]
  simp only [ReadExifData_magnitude]
  have hM : (0 : ℚ) < (10 : ℚ) ^ (max 0 (min (Decimals - 3) 9)).toNat := by positivity
  have hlo := Int.floor_le (((|Number| - ((⌊|Number|⌋ : ℤ) : ℚ)) * 60 -
    ((⌊(|Number| - ((⌊|Number|⌋ : ℤ) : ℚ)) * 60⌋ : ℤ) : ℚ)) * 60 *
      (10 : ℚ) ^ (max 0 (min (Decimals - 3) 9)).toNat)
  have hhi := Int.lt_floor_add_one (((|Number| - ((⌊|Number|⌋ : ℤ) : ℚ)) * 60 -
    ((⌊(|Number| - ((⌊|Number|⌋ : ℤ) : ℚ)) * 60⌋ : ℤ) : ℚ)) * 60 *
      (10 : ℚ) ^ (max 0 (min (Decimals - 3) 9)).toNat)
  push_cast at hlo hhi ⊢
  generalize (10 : ℚ) ^ (max 0 (min (Decimals - 3) 9)).toNat = M at hM hlo hhi ⊢
  generalize ((⌊((|Number| - ((⌊|Number|⌋ : ℤ) : ℚ)) * 60 -
    ((⌊(|Number| - ((⌊|Number|⌋ : ℤ) : ℚ)) * 60⌋ : ℤ) : ℚ)) * 60 * M⌋ : ℤ) : ℚ) = s
    at hlo hhi ⊢
  generalize ((⌊(|Number| - ((⌊|Number|⌋ : ℤ) : ℚ)) * 60⌋ : ℤ) : ℚ) = m at hlo hhi ⊢
  generalize ((⌊|Number|⌋ : ℤ) : ℚ) = D at hlo hhi ⊢
  generalize |Number| = A at hlo hhi ⊢
  have key : A - (D / 1 + m / 1 / 60 + s / M / 3600) =
      (((A - D) * 60 - m) * 60 * M - s) / (3600 * M) := by
    field_simp
    ring
  rw [key]
  constructor
  · exact div_nonneg (by linarith) (by positivity)
  · exact div_lt_div_of_pos_right (by linarith) (by positivity)

theorem modern_bound (Decimals : ℤ) (h0 : 0 ≤ Decimals) (h9 : Decimals ≤ 9) :
    1 / (3600 * (10 : ℚ) ^ (max 0 (min (Decimals - 3) 9)).toNat) < pow10 (-Decimals) := by
  unfold pow10
  interval_cases Decimals <;> norm_num [Int.toNat]

/-- C5: for every coordinate `x` and every `Decimals` with `0 ≤ Decimals ≤ 9`, decoding
`ConvertToLatLongRational x Decimals` as `deg + min/60 + sec/(3600 * M)` (the formula of
`ReadExifData`) gives a value `v` with `0 ≤ |x| - v < 10 ^ (-Decimals)` degrees. -/
theorem modern_round_trip (x : ℚ) (Decimals : ℤ) (h0 : 0 ≤ Decimals) (h9 : Decimals ≤ 9) :
    0 ≤ |x| - ReadExifData_magnitude (ConvertToLatLongRational x Decimals) ∧
    |x| - ReadExifData_magnitude (ConvertToLatLongRational x Decimals) <
      pow10 (-Decimals) :=
  ⟨(modern_error x Decimals).1,
    lt_trans (modern_error x Decimals).2 (modern_bound Decimals h0 h9)⟩

/-- Witness of C5: `x = -25.123456` with six decimals. -/
theorem modern_round_trip_witness :
    0 ≤ |(-25123456 / 1000000 : ℚ)| -
        ReadExifData_magnitude (ConvertToLatLongRational (-25123456 / 1000000) 6) ∧
    |(-25123456 / 1000000 : ℚ)| -
        ReadExifData_magnitude (ConvertToLatLongRational (-25123456 / 1000000) 6) <
      pow10 (-6) :=
  modern_round_trip (-25123456 / 1000000) 6 (by decide) (by decide)

/-- C6, evaluated where it fails: for the coordinate `0.01` (so `|x| ≤ 180`) with
`Decimals = 12` the multiplier is `10 ^ 9`, below `2 ^ 31`, but the seconds numerator is
`36000000000`, which is not below `2 ^ 31` (nor below `2 ^ 32`). -/
theorem ConvertToLatLongRational_sec_overflow :
    |(1 / 100 : ℚ)| ≤ 180 ∧
    ConvertToLatLongRational (1 / 100) 12 =
      { deg := ⟨0, 1⟩, min := ⟨0, 1⟩, sec := ⟨36000000000, 1000000000⟩ } ∧
    (ConvertToLatLongRational (1 / 100) 12).sec.den < INT_MAX_plus_one ∧
    ¬ (ConvertToLatLongRational (1 / 100) 12).sec.num < INT_MAX_plus_one ∧
    ¬ (ConvertToLatLongRational (1 / 100) 12).sec.num < 2 ^ 32 := by
  have h : ConvertToLatLongRational (1 / 100) 12 =
      { deg := ⟨0, 1⟩, min := ⟨0, 1⟩, sec := ⟨36000000000, 1000000000⟩ } := by
    rw [ConvertToLatLongRational_eq]
    have h1 : |(1 / 100 : ℚ)| = 1 / 100 := abs_of_nonneg (by norm_num)
    rw [h1]
    norm_num [Int.toNat]
  refine ⟨?_, h, ?_, ?_, ?_⟩
  · rw [abs_of_nonneg (by norm_num)]; norm_num
  · rw [h]; norm_num [INT_MAX_plus_one]
  · rw [h]; norm_num [INT_MAX_plus_one]
  · rw [h]; norm_num

/-- The multiplier of `ConvertToLatLongRational` is at most `10 ^ 9`, hence below
`2 ^ 31`, for every `Number` and `Decimals`. -/
theorem multiplier_lt_INT_MAX (Number : ℚ) (Decimals : ℤ) :
    (ConvertToLatLongRational Number Decimals).sec.den < INT_MAX_plus_one := by
  rw [ConvertToLatLongRational_eq]
  show (10 : ℤ) ^ (max 0 (min (Decimals - 3) 9)).toNat < INT_MAX_plus_one
  have hle : (max 0 (min (Decimals - 3) 9)).toNat ≤ 9 := by
    rw [Int.toNat_le]
    exact max_le (by norm_num) (min_le_right _ _)
  calc (10 : ℤ) ^ (max 0 (min (Decimals - 3) 9)).toNat
      ≤ (10 : ℤ) ^ 9 := pow_le_pow_right₀ (by norm_num) hle
    _ < INT_MAX_plus_one := by norm_num [INT_MAX_plus_one]

/-- C10, evaluated where it fails: for a point whose altitude is `0`, which is not
negative, `WriteGPSData` writes the altitude reference byte `1` (below sea level); the
altitude itself is written as `0/1`. -/
theorem WriteGPSData_altitudeRef_zero :
    ∀ (fuel : ℕ) (DegMinSecs : ℤ),
      ¬ ((0 : ℚ) < 0) ∧
      (WriteGPSData fuel
        { Lat := 0, LatDecimals := 0, Long := 0, LongDecimals := 0,
          Elev := 0, ElevDecimals := 0, Time := 0 } DegMinSecs).map
          (fun t => (t.GPSAltitudeRef, t.GPSAltitude)) = some (1, ⟨0, 1⟩) := by
  intro fuel DegMinSecs
  refine ⟨lt_irrefl 0, ?_⟩
  have hc : ConvertToRational fuel (fabs 0) (MIN 0 3) = some ⟨0, 1⟩ := by
    have h := ConvertToRational_of_dvd 0 (le_refl 0) 0 fuel (by simp)
    have hf : fabs 0 = 0 := by simp [fabs]
    have hm : MIN 0 3 = ((0 : ℕ) : ℤ) := by decide
    rw [hf, hm, h]
    simp
  simp only [WriteGPSData, hc]
  simp

/-! ## The altitude written by `WriteGPSData` -/

/-- For `Number ≥ 0` and a negative `Decimals`, `ConvertToRational` prints
`trunc Number` over `1`, whatever bound is put on the loop. -/
theorem ConvertToRational_of_negSucc (Number : ℚ) (hN : 0 ≤ Number) (k fuel : ℕ) :
    ConvertToRational fuel Number (Int.negSucc k) = some ⟨⌊Number⌋, 1⟩ := by
  have hR : pow10 (Int.negSucc k) = ((10 : ℚ) ^ (k + 1))⁻¹ := by
    unfold pow10; rw [zpow_negSucc]
  have hpos : (0 : ℚ) < ((10 : ℚ) ^ (k + 1))⁻¹ := by positivity
  have hlt : ((10 : ℚ) ^ (k + 1))⁻¹ < 1 := by
    apply inv_lt_one_of_one_lt₀
    exact one_lt_pow₀ (by norm_num) (by omega)
  have hfr0 : 0 ≤ Number - ((⌊Number⌋ : ℤ) : ℚ) := sub_nonneg.2 (Int.floor_le Number)
  have hfr1 : Number - ((⌊Number⌋ : ℤ) : ℚ) < 1 := by
    have := Int.lt_floor_add_one Number
    linarith
  have hprod0 : 0 ≤ (Number - ((⌊Number⌋ : ℤ) : ℚ)) * ((10 : ℚ) ^ (k + 1))⁻¹ :=
    mul_nonneg hfr0 hpos.le
  have hprod1 : (Number - ((⌊Number⌋ : ℤ) : ℚ)) * ((10 : ℚ) ^ (k + 1))⁻¹ < 1 := by
    nlinarith
  have hfloor : ⌊(Number - ((⌊Number⌋ : ℤ) : ℚ)) * ((10 : ℚ) ^ (k + 1))⁻¹⌋ = 0 :=
    Int.floor_eq_zero_iff.2 ⟨hprod0, hprod1⟩
  have hquot : ((⌊Number⌋ : ℤ) : ℚ) * ((10 : ℚ) ^ (k + 1))⁻¹ / ((10 : ℚ) ^ (k + 1))⁻¹ =
      ((⌊Number⌋ : ℤ) : ℚ) := by
    field_simp
  unfold ConvertToRational
  simp only [hR, trunc_of_nonneg hN, trunc_of_nonneg hprod0, hfloor, Int.cast_zero, add_zero]
  unfold simpleReduce
  simp only [hquot, trunc_intCast, if_true, div_self hpos.ne']
  rw [halveLoop_of_break (halveStep_den_one _) fuel]
  simp only [toLong_intCast]
  have h1 : toLong 1 = 1 := by
    have := toLong_intCast 1
    simpa using this
  rw [h1]

/-- For `Number ≥ 0` and `Decimals = d ≥ 0`, `ConvertToRational` returns within `d`
halvings a fraction with a non-negative numerator and a positive denominator that divides
`10 ^ d`, whose value is `trunc (Number * 10 ^ d) / 10 ^ d`. -/
theorem ConvertToRational_natCast (Number : ℚ) (hN : 0 ≤ Number) (d fuel : ℕ)
    (hf : d ≤ fuel) :
    ∃ r : Rational, ConvertToRational fuel Number (d : ℤ) = some r ∧ 0 ≤ r.num ∧
      0 < r.den ∧ r.den ∣ (10 : ℤ) ^ d ∧
      (r.num : ℚ) / (r.den : ℚ) = ((⌊Number * (10 : ℚ) ^ d⌋ : ℤ) : ℚ) / (10 : ℚ) ^ d := by
  have hR : (0 : ℤ) < (10 : ℤ) ^ d := by positivity
  have hfl : 0 ≤ ⌊Number * (10 : ℚ) ^ d⌋ := Int.floor_nonneg.2 (mul_nonneg hN (by positivity))
  by_cases hdvd : (10 : ℤ) ^ d ∣ ⌊Number * (10 : ℚ) ^ d⌋
  · refine ⟨_, ConvertToRational_of_dvd Number hN d fuel hdvd, ?_, by norm_num,
      one_dvd _, ?_⟩
    · exact Int.ediv_nonneg hfl hR.le
    · obtain ⟨c, hc⟩ := hdvd
      simp only [hc]
      rw [Int.mul_ediv_cancel_left c hR.ne']
      have hRq : ((10 : ℚ)) ^ d ≠ 0 := by positivity
      push_cast
      field_simp
  · obtain ⟨k, -, ⟨a, ha⟩, ⟨b, hb⟩, -, hres⟩ :=
      ConvertToRational_of_not_dvd Number hN d fuel hf hdvd
    have h2 : (2 : ℤ) ^ k ≠ 0 := by positivity
    have h2pos : (0 : ℤ) < 2 ^ k := by positivity
    have hbpos : 0 < b := by
      rw [hb] at hR
      exact pos_of_mul_pos_right hR h2pos.le
    have hapos : 0 ≤ a := by
      rw [ha] at hfl
      by_contra hcon
      push_neg at hcon
      have := mul_neg_of_pos_of_neg h2pos hcon
      omega
    refine ⟨_, hres, ?_, ?_, ?_, ?_⟩
    · simp only [ha]
      rw [Int.mul_ediv_cancel_left a h2]
      exact hapos
    · simp only [hb]
      rw [Int.mul_ediv_cancel_left b h2]
      exact hbpos
    · show (10 : ℤ) ^ d / 2 ^ k ∣ (10 : ℤ) ^ d
      rw [hb, Int.mul_ediv_cancel_left b h2]
      exact dvd_mul_left b _
    · simp only [ha]
      rw [Int.mul_ediv_cancel_left a h2]
      show (a : ℚ) / (((10 : ℤ) ^ d / 2 ^ k : ℤ) : ℚ) = _
      rw [hb, Int.mul_ediv_cancel_left b h2]
      have hbq : (b : ℚ) ≠ 0 := by exact_mod_cast hbpos.ne'
      have h2q : ((2 : ℚ)) ^ k ≠ 0 := by positivity
      have h10 : ((10 : ℚ)) ^ d = (2 : ℚ) ^ k * (b : ℚ) := by exact_mod_cast hb
      rw [h10]
      push_cast
      field_simp
      ring

/-- For `Number ≥ 0` and any `Decimals`, `ConvertToRational` returns once the loop is
allowed `Decimals` halvings (none when `Decimals` is negative), and the printed numerator
is not negative and the printed denominator is positive. -/
theorem ConvertToRational_returns (Number : ℚ) (hN : 0 ≤ Number) (Decimals : ℤ) (fuel : ℕ)
    (hf : Decimals.toNat ≤ fuel) :
    ∃ r : Rational, ConvertToRational fuel Number Decimals = some r ∧ 0 ≤ r.num ∧
      0 < r.den := by
  cases Decimals with
  | ofNat d =>
    obtain ⟨r, hr, hn, hd, -, -⟩ := ConvertToRational_natCast Number hN d fuel (by simpa using hf)
    exact ⟨r, hr, hn, hd⟩
  | negSucc k =>
    exact ⟨_, ConvertToRational_of_negSucc Number hN k fuel, Int.floor_nonneg.2 hN,
      by norm_num⟩

theorem fabs_nonneg (x : ℚ) : 0 ≤ fabs x := by
  rw [fabs_eq_abs]; exact abs_nonneg x

theorem MIN_eq_min (a b : ℤ) : MIN a b = min a b := by
  unfold MIN
  split_ifs <;> omega

theorem fract_mul_floor_nonneg (a : ℚ) (c : ℚ) (hc : 0 ≤ c) :
    0 ≤ ⌊(a - ((⌊a⌋ : ℤ) : ℚ)) * c⌋ :=
  Int.floor_nonneg.2 (mul_nonneg (sub_nonneg.2 (Int.floor_le a)) hc)

/-- The numerators printed by `ConvertToLatLongRational` are not negative and the
denominators are positive. -/
theorem ConvertToLatLongRational_nonneg (Number : ℚ) (Decimals : ℤ) :
    0 ≤ (ConvertToLatLongRational Number Decimals).deg.num ∧
    0 ≤ (ConvertToLatLongRational Number Decimals).min.num ∧
    0 ≤ (ConvertToLatLongRational Number Decimals).sec.num ∧
    (ConvertToLatLongRational Number Decimals).deg.den = 1 ∧
    (ConvertToLatLongRational Number Decimals).min.den = 1 ∧
    0 < (ConvertToLatLongRational Number Decimals).sec.den := by
  rw [ConvertToLatLongRational_eq]
  refine ⟨Int.floor_nonneg.2 (abs_nonneg _), fract_mul_floor_nonneg _ 60 (by norm_num),
    ?_, rfl, rfl, by positivity⟩
  apply Int.floor_nonneg.2
  have h := Int.floor_le ((|Number| - ((⌊|Number|⌋ : ℤ) : ℚ)) * 60)
  have hM : (0 : ℚ) ≤ (10 : ℚ) ^ (max 0 (min (Decimals - 3) 9)).toNat := by positivity
  exact mul_nonneg (mul_nonneg (sub_nonneg.2 h) (by norm_num)) hM

/-- The numerators printed by `ConvertToOldLatLongRational` are not negative. -/
theorem ConvertToOldLatLongRational_nonneg (Number : ℚ) :
    0 ≤ (ConvertToOldLatLongRational Number).deg.num ∧
    0 ≤ (ConvertToOldLatLongRational Number).min.num ∧
    0 ≤ (ConvertToOldLatLongRational Number).sec.num := by
  rw [ConvertToOldLatLongRational_eq]
  exact ⟨Int.floor_nonneg.2 (abs_nonneg _), fract_mul_floor_nonneg _ 6000 (by norm_num),
    le_refl 0⟩

/-- On exact numbers, without the limit of a 32-bit `int`: the two encoders give the same
output for `x` and `-x`, and no numerator is negative. -/
theorem encoders_ignore_sign_exact (x : ℚ) (Decimals : ℤ) :
    ConvertToLatLongRational x Decimals = ConvertToLatLongRational (-x) Decimals ∧
    ConvertToOldLatLongRational x = ConvertToOldLatLongRational (-x) ∧
    (0 ≤ (ConvertToLatLongRational x Decimals).deg.num ∧
     0 ≤ (ConvertToLatLongRational x Decimals).min.num ∧
     0 ≤ (ConvertToLatLongRational x Decimals).sec.num) ∧
    (0 ≤ (ConvertToOldLatLongRational x).deg.num ∧
     0 ≤ (ConvertToOldLatLongRational x).min.num ∧
     0 ≤ (ConvertToOldLatLongRational x).sec.num) := by
  refine ⟨?_, ?_, ?_, ConvertToOldLatLongRational_nonneg x⟩
  · rw [ConvertToLatLongRational_eq, ConvertToLatLongRational_eq, abs_neg]
  · rw [ConvertToOldLatLongRational_eq, ConvertToOldLatLongRational_eq, abs_neg]
  · obtain ⟨h1, h2, h3, -⟩ := ConvertToLatLongRational_nonneg x Decimals
    exact ⟨h1, h2, h3⟩

/-- The magnitude decoded from either encoding of `x` lies between `0` and `|x|`. -/
theorem written_magnitude_bounds (DegMinSecs : ℤ) (x : ℚ) (Decimals : ℤ) :
    0 ≤ ReadExifData_magnitude
      (if DegMinSecs ≠ 0 then ConvertToLatLongRational x Decimals
       else ConvertToOldLatLongRational x) ∧
    ReadExifData_magnitude
      (if DegMinSecs ≠ 0 then ConvertToLatLongRational x Decimals
       else ConvertToOldLatLongRational x) ≤ |x| := by
  by_cases h : DegMinSecs ≠ 0
  · rw [if_pos h]
    refine ⟨?_, by linarith [(modern_error x Decimals).1]⟩
    obtain ⟨h1, h2, h3, h4, h5, h6⟩ := ConvertToLatLongRational_nonneg x Decimals
    simp only [ReadExifData_magnitude]
    have q1 : (0 : ℚ) ≤ ((ConvertToLatLongRational x Decimals).deg.num : ℚ) := by
      exact_mod_cast h1
    have q2 : (0 : ℚ) ≤ ((ConvertToLatLongRational x Decimals).min.num : ℚ) := by
      exact_mod_cast h2
    have q3 : (0 : ℚ) ≤ ((ConvertToLatLongRational x Decimals).sec.num : ℚ) := by
      exact_mod_cast h3
    have q6 : (0 : ℚ) < ((ConvertToLatLongRational x Decimals).sec.den : ℚ) := by
      exact_mod_cast h6
    rw [h4, h5]
    have t3 := div_nonneg (div_nonneg q3 q6.le) (by norm_num : (0 : ℚ) ≤ 3600)
    have t2 : (0 : ℚ) ≤ ((ConvertToLatLongRational x Decimals).min.num : ℚ) / ((1 : ℤ) : ℚ) / 60 := by
      simp only [Int.cast_one, div_one]
      exact div_nonneg q2 (by norm_num)
    have t1 : (0 : ℚ) ≤ ((ConvertToLatLongRational x Decimals).deg.num : ℚ) / ((1 : ℤ) : ℚ) := by
      simp only [Int.cast_one, div_one]
      exact q1
    linarith
  · rw [if_neg h, ConvertToOldLatLongRational_eq]
    simp only [ReadExifData_magnitude]
    have h1 : (0 : ℚ) ≤ ((⌊|x|⌋ : ℤ) : ℚ) := by
      exact_mod_cast Int.floor_nonneg.2 (abs_nonneg x)
    have h2 : (0 : ℚ) ≤ ((⌊(|x| - ((⌊|x|⌋ : ℤ) : ℚ)) * 6000⌋ : ℤ) : ℚ) := by
      exact_mod_cast fract_mul_floor_nonneg |x| 6000 (by norm_num)
    have hlo := Int.floor_le ((|x| - ((⌊|x|⌋ : ℤ) : ℚ)) * 6000)
    push_cast
    constructor
    · have t2 := div_nonneg (div_nonneg h2 (by norm_num : (0 : ℚ) ≤ 100))
        (by norm_num : (0 : ℚ) ≤ 60)
      linarith
    · linarith

/-- What `ReadExifData_Lat` and `ReadExifData_Long` give for a triple written for `x`
with the reference letter that `WriteGPSData` chooses (`neg` when `x < 0`, `pos`
otherwise, the reader negating on `neg`). -/
theorem read_back_sign (DegMinSecs : ℤ) (x : ℚ) (Decimals : ℤ) (m : ℚ)
    (hm : m = ReadExifData_magnitude
      (if DegMinSecs ≠ 0 then ConvertToLatLongRational x Decimals
       else ConvertToOldLatLongRational x)) :
    (if x < 0 then -m else m) = ((SignType.sign x : SignType) : ℚ) * m ∧
    0 ≤ x * (if x < 0 then -m else m) := by
  obtain ⟨h0, hle⟩ := written_magnitude_bounds DegMinSecs x Decimals
  rw [← hm] at h0 hle
  rcases lt_trichotomy x 0 with hx | hx | hx
  · rw [if_pos hx, sign_neg hx]
    refine ⟨by simp, ?_⟩
    nlinarith
  · subst hx
    have hm0 : m = 0 := le_antisymm (by simpa using hle) h0
    simp [hm0]
  · rw [if_neg (not_lt.2 hx.le), sign_pos hx]
    exact ⟨by simp, mul_nonneg hx.le h0⟩

/-- For any point, `WriteGPSData` returns once the loop of `ConvertToRational` is allowed
three halvings, with the tags spelled out. -/
theorem WriteGPSData_returns (fuel : ℕ) (Point : GPSPoint) (DegMinSecs : ℤ) (hf : 3 ≤ fuel) :
    ∃ r : Rational, ConvertToRational fuel (fabs Point.Elev) (MIN Point.ElevDecimals 3) = some r ∧
      WriteGPSData fuel Point DegMinSecs =
        some { GPSAltitudeRef := if Point.Elev > 0 then 0 else 1, GPSAltitude := r,
               GPSLatitudeRef := if Point.Lat < 0 then "S" else "N",
               GPSLatitude :=
                 if DegMinSecs ≠ 0 then ConvertToLatLongRational Point.Lat Point.LatDecimals
                 else ConvertToOldLatLongRational Point.Lat,
               GPSLongitudeRef := if Point.Long < 0 then "W" else "E",
               GPSLongitude :=
                 if DegMinSecs ≠ 0 then
                   ConvertToLatLongRational Point.Long Point.LongDecimals
                 else ConvertToOldLatLongRational Point.Long } := by
  have hle : (MIN Point.ElevDecimals 3).toNat ≤ fuel := by
    have : MIN Point.ElevDecimals 3 ≤ 3 := by
      rw [MIN_eq_min]; exact min_le_right _ _
    omega
  obtain ⟨r, hr, -, -⟩ :=
    ConvertToRational_returns (fabs Point.Elev) (fabs_nonneg _) (MIN Point.ElevDecimals 3) fuel hle
  refine ⟨r, hr, ?_⟩
  unfold WriteGPSData
  simp only [hr]

/-- The reference letters that `WriteGPSData` writes and what `ReadExifData_Lat` and
`ReadExifData_Long` make of the written tags, in terms of `ReadExifData_magnitude`. -/
theorem WriteGPSData_read_back (fuel : ℕ) (Point : GPSPoint) (DegMinSecs : ℤ) (hf : 3 ≤ fuel) :
    ∃ t : GPSTags, WriteGPSData fuel Point DegMinSecs = some t ∧
      ((t.GPSLatitudeRef = "S" ↔ Point.Lat < 0) ∧
        (t.GPSLatitudeRef = "N" ↔ ¬ Point.Lat < 0)) ∧
      ((t.GPSLongitudeRef = "W" ↔ Point.Long < 0) ∧
        (t.GPSLongitudeRef = "E" ↔ ¬ Point.Long < 0)) ∧
      (∀ (v : DegMinSec) (ref : String),
        ReadExifData_Lat v ref =
          (if ref = "S" then -ReadExifData_magnitude v else ReadExifData_magnitude v) ∧
        ReadExifData_Long v ref =
          (if ref = "W" then -ReadExifData_magnitude v else ReadExifData_magnitude v)) ∧
      (ReadExifData_Lat t.GPSLatitude t.GPSLatitudeRef =
          ((SignType.sign Point.Lat : SignType) : ℚ) * ReadExifData_magnitude t.GPSLatitude ∧
        0 ≤ Point.Lat * ReadExifData_Lat t.GPSLatitude t.GPSLatitudeRef) ∧
      (ReadExifData_Long t.GPSLongitude t.GPSLongitudeRef =
          ((SignType.sign Point.Long : SignType) : ℚ) *
            ReadExifData_magnitude t.GPSLongitude ∧
        0 ≤ Point.Long * ReadExifData_Long t.GPSLongitude t.GPSLongitudeRef) := by
  obtain ⟨r, -, hw⟩ := WriteGPSData_returns fuel Point DegMinSecs hf
  have hLat := read_back_sign DegMinSecs Point.Lat Point.LatDecimals _ rfl
  have hLong := read_back_sign DegMinSecs Point.Long Point.LongDecimals _ rfl
  refine ⟨_, hw, ?_, ?_, fun v ref => ⟨rfl, rfl⟩, ?_, ?_⟩
  · by_cases h : Point.Lat < 0 <;> simp [h]
  · by_cases h : Point.Long < 0 <;> simp [h]
  · have hread : ReadExifData_Lat
        (if DegMinSecs ≠ 0 then ConvertToLatLongRational Point.Lat Point.LatDecimals
         else ConvertToOldLatLongRational Point.Lat)
        (if Point.Lat < 0 then "S" else "N") =
        (if Point.Lat < 0 then
          -ReadExifData_magnitude
            (if DegMinSecs ≠ 0 then ConvertToLatLongRational Point.Lat Point.LatDecimals
             else ConvertToOldLatLongRational Point.Lat)
         else ReadExifData_magnitude
            (if DegMinSecs ≠ 0 then ConvertToLatLongRational Point.Lat Point.LatDecimals
             else ConvertToOldLatLongRational Point.Lat)) := by
      unfold ReadExifData_Lat
      by_cases h : Point.Lat < 0 <;> simp [h]
    show ReadExifData_Lat _ _ = _ ∧ 0 ≤ Point.Lat * ReadExifData_Lat _ _
    rw [hread]
    exact hLat
  · have hread : ReadExifData_Long
        (if DegMinSecs ≠ 0 then ConvertToLatLongRational Point.Long Point.LongDecimals
         else ConvertToOldLatLongRational Point.Long)
        (if Point.Long < 0 then "W" else "E") =
        (if Point.Long < 0 then
          -ReadExifData_magnitude
            (if DegMinSecs ≠ 0 then ConvertToLatLongRational Point.Long Point.LongDecimals
             else ConvertToOldLatLongRational Point.Long)
         else ReadExifData_magnitude
            (if DegMinSecs ≠ 0 then ConvertToLatLongRational Point.Long Point.LongDecimals
             else ConvertToOldLatLongRational Point.Long)) := by
      unfold ReadExifData_Long
      by_cases h : Point.Long < 0 <;> simp [h]
    show ReadExifData_Long _ _ = _ ∧ 0 ≤ Point.Long * ReadExifData_Long _ _
    rw [hread]
    exact hLong

/-! ## The time stamp written by `WriteGPSData` -/

/-- Whenever `timegm` inverts `gmtime` at `Time`, the time stamp of `WriteGPSData` is the
UTC breakdown of `Time + zone`, that is the local wall-clock time: the UTC breakdown of
`Time` only when `zone = 0`. -/
theorem WriteGPSData_TimeStamp_eq (zone Time : ℤ) (h : timegm (gmtime Time) = Time) :
    WriteGPSData_TimeStamp zone Time = gmtime (Time + zone) := by
  unfold WriteGPSData_TimeStamp mktime
  simp only [h]
  by_cases hz : zone = 0
  · subst hz
    simp
  · have hne : Time ≠ Time - zone := by omega
    rw [if_pos hne]
    congr 1
    ring

/-- C14, evaluated where it fails: on a machine one hour east of UTC, for `Time = 0`
(1970-01-01 00:00:00 UTC) `WriteGPSData` writes the time stamp `1/1 0/1 0/1`, the UTC
breakdown being `0/1 0/1 0/1`; and on a machine ten hours east of UTC, for `Time = 50400`
(1970-01-01 14:00:00 UTC) it writes the date stamp `1970:01:02`, the UTC date being
`1970:01:01`. With a zone offset of 0 both are the UTC breakdown. -/
theorem WriteGPSData_TimeStamp_local :
    printTimeStamp (WriteGPSData_TimeStamp 3600 0) = "1/1 0/1 0/1" ∧
    printTimeStamp (gmtime 0) = "0/1 0/1 0/1" ∧
    printDateStamp (WriteGPSData_TimeStamp 36000 50400) = "1970:01:02" ∧
    printDateStamp (gmtime 50400) = "1970:01:01" ∧
    WriteGPSData_TimeStamp 0 0 = gmtime 0 ∧
    WriteGPSData_TimeStamp 0 50400 = gmtime 50400 := by
  refine ⟨by decide, by decide, by decide, by decide, by decide, by decide⟩

/-! ## Modification time, tag removal -/

/-- C15: over the file state (`st_mtime`, `st_atime`, entries), `WriteGPSData` (which
returns once three halvings are allowed) and `RemoveGPSExif` leave the file untouched
when it cannot be opened; otherwise, with `NoChangeMtime` set the modification time after
the call is the one before the call and the access time is the one observed after the
metadata write, and with `NoChangeMtime` clear both times are those of the metadata
write (nothing is restored). -/
theorem mtime_preservation (env : WriteEnv) (zone : ℤ) (fuel : ℕ) (File : FileState)
    (Point : GPSPoint) (Datum : String) (NoChangeMtime DegMinSecs : ℤ) (hf : 3 ≤ fuel) :
    (∃ r : ℤ × FileState,
      WriteGPSData_file env zone fuel File Point Datum NoChangeMtime DegMinSecs = some r ∧
      r.2.st_mtime =
        (if env.opens = false then File.st_mtime
         else if NoChangeMtime ≠ 0 then File.st_mtime else env.mtimeAfterWrite) ∧
      r.2.st_atime =
        (if env.opens = false then File.st_atime else env.atimeAfterWrite)) ∧
    (RemoveGPSExif env File NoChangeMtime).2.st_mtime =
      (if env.opens = false then File.st_mtime
       else if NoChangeMtime ≠ 0 then File.st_mtime else env.mtimeAfterWrite) ∧
    (RemoveGPSExif env File NoChangeMtime).2.st_atime =
      (if env.opens = false then File.st_atime else env.atimeAfterWrite) := by
  obtain ⟨t, hw⟩ : ∃ t, WriteGPSData fuel Point DegMinSecs = some t := by
    obtain ⟨a, -, h⟩ := WriteGPSData_returns fuel Point DegMinSecs hf
    exact ⟨_, h⟩
  refine ⟨?_, ?_, ?_⟩
  · by_cases ho : env.opens = false
    · refine ⟨(0, File), ?_, by simp [ho], by simp [ho]⟩
      simp only [WriteGPSData_file, ho, if_true]
    · have ho2 : env.opens = true := by simpa using ho
      by_cases hm : NoChangeMtime ≠ 0
      · refine ⟨(1, utime (writeMetadata env (WriteGPSData_entries File.exifData Datum t
            (WriteGPSData_TimeStamp zone Point.Time))) env.atimeAfterWrite File.st_mtime),
          ?_, ?_, ?_⟩
        · simp only [WriteGPSData_file, hw, ho2, hm, if_false, if_true, ne_eq,
            not_false_eq_true, Bool.true_eq_false]
          rfl
        · simp [ho, hm, utime]
        · simp [ho, utime]
      · refine ⟨(1, writeMetadata env (WriteGPSData_entries File.exifData Datum t
            (WriteGPSData_TimeStamp zone Point.Time))), ?_, ?_, ?_⟩
        · simp only [WriteGPSData_file, hw, ho2, hm, if_false, Bool.true_eq_false]
        · simp [ho, hm, writeMetadata]
        · simp [ho, writeMetadata]
  · unfold RemoveGPSExif
    by_cases ho : env.opens = false
    · simp [ho]
    · by_cases hm : NoChangeMtime ≠ 0
      · simp [ho, hm, utime]
      · simp [ho, hm, writeMetadata]
  · unfold RemoveGPSExif
    by_cases ho : env.opens = false
    · simp [ho]
    · by_cases hm : NoChangeMtime ≠ 0
      · simp [ho, hm, utime, writeMetadata]
      · simp [ho, hm, writeMetadata]

/-- Witness of C15: a file with times 100 and 110, rewritten at times 500 and 600 with
`NoChangeMtime` set. -/
theorem mtime_preservation_witness :
    (∃ r : ℤ × FileState,
      WriteGPSData_file ⟨true, 500, 600⟩ 0 3
        ⟨100, 110, [⟨"Exif.Photo.DateTimeOriginal", "2005:02:01 10:00:00"⟩]⟩
        { Lat := -411234567 / 10000000, LatDecimals := 7,
          Long := 11512345 / 100000, LongDecimals := 5,
          Elev := 2512345 / 100000, ElevDecimals := 5, Time := 123456 }
        "WGS-84" 1 1 = some r ∧
      r.2.st_mtime =
        (if (⟨true, 500, 600⟩ : WriteEnv).opens = false then (100 : ℤ)
         else if (1 : ℤ) ≠ 0 then 100 else 500) ∧
      r.2.st_atime =
        (if (⟨true, 500, 600⟩ : WriteEnv).opens = false then (110 : ℤ) else 600)) ∧
    (RemoveGPSExif ⟨true, 500, 600⟩
        ⟨100, 110, [⟨"Exif.Photo.DateTimeOriginal", "2005:02:01 10:00:00"⟩]⟩ 1).2.st_mtime =
      (if (⟨true, 500, 600⟩ : WriteEnv).opens = false then (100 : ℤ)
       else if (1 : ℤ) ≠ 0 then 100 else 500) ∧
    (RemoveGPSExif ⟨true, 500, 600⟩
        ⟨100, 110, [⟨"Exif.Photo.DateTimeOriginal", "2005:02:01 10:00:00"⟩]⟩ 1).2.st_atime =
      (if (⟨true, 500, 600⟩ : WriteEnv).opens = false then (110 : ℤ) else 600) :=
  mtime_preservation ⟨true, 500, 600⟩ 0 3
    ⟨100, 110, [⟨"Exif.Photo.DateTimeOriginal", "2005:02:01 10:00:00"⟩]⟩
    { Lat := -411234567 / 10000000, LatDecimals := 7,
      Long := 11512345 / 100000, LongDecimals := 5,
      Elev := 2512345 / 100000, ElevDecimals := 5, Time := 123456 }
    "WGS-84" 1 1 (le_refl 3)

/-- The position returned by `find` is 0 exactly when the pattern is a prefix. -/
theorem find_eq_zero_iff (s pat : List Char) : find s pat = some 0 ↔ pat <+: s := by
  cases s with
  | nil =>
    unfold find
    by_cases h : pat = []
    · simp [h]
    · simp [h]
  | cons c s =>
    unfold find
    by_cases h : pat.isPrefixOf (c :: s) = true
    · rw [if_pos h]
      simpa using List.isPrefixOf_iff_prefix.1 h
    · rw [if_neg h]
      have hn : ¬ pat <+: c :: s := fun hp => h (List.isPrefixOf_iff_prefix.2 hp)
      constructor
      · intro hf
        cases hfind : find s pat with
        | none => rw [hfind] at hf; simp at hf
        | some n => rw [hfind] at hf; simp at hf
      · intro hp
        exact absurd hp hn

/-- The loop of `RemoveGPSExif` keeps what it has passed and, of what lies ahead, the
entries whose key does not start with `"Exif.GPSInfo"`, in their order. -/
theorem eraseGPSInfo_eq (ahead : List Exifdatum) : ∀ passed : List Exifdatum,
    eraseGPSInfo passed ahead =
      passed ++ ahead.filter (fun e => decide (¬ "Exif.GPSInfo".toList <+: e.key.toList)) := by
  induction ahead with
  | nil => intro passed; simp [eraseGPSInfo]
  | cons e ahead ih =>
    intro passed
    unfold eraseGPSInfo
    by_cases h : "Exif.GPSInfo".toList <+: e.key.toList
    · rw [if_pos ((find_eq_zero_iff _ _).2 h), ih, List.filter_cons_of_neg (by simpa using h)]
    · rw [if_neg (fun hf => h ((find_eq_zero_iff _ _).1 hf)), ih,
        List.filter_cons_of_pos (by simpa using h)]
      simp

/-- C18, evaluated where it fails: with the no-write option set (`NoWriteExif = 1`),
`RemoveGPSTags` on a file that can be opened and holds a GPS tag rewrites the file
without that tag (at the times 500 and 600 of the write); the value of `NoWriteExif`
never changes the outcome. -/
theorem RemoveGPSTags_ignores_NoWriteExif :
    RemoveGPSTags ⟨true, 500, 600⟩
        ⟨100, 110, [⟨"Exif.Photo.DateTimeOriginal", "2005:02:01 10:00:00"⟩,
                    ⟨"Exif.GPSInfo.GPSLatitudeRef", "S"⟩]⟩ 0 1 =
      (1, ⟨500, 600, [⟨"Exif.Photo.DateTimeOriginal", "2005:02:01 10:00:00"⟩]⟩) ∧
    ∀ (env : WriteEnv) (File : FileState) (NoChangeMtime NoWriteExif : ℤ),
      RemoveGPSTags env File NoChangeMtime NoWriteExif =
        RemoveGPSTags env File NoChangeMtime 0 :=
  ⟨by decide, fun _ _ _ _ => rfl⟩

/-- C19: when the file can be opened, the entries that `RemoveGPSExif` writes back are
the original entries filtered to those whose key does not start with `"Exif.GPSInfo"`,
every other entry unchanged and in its original order; afterwards no key starting with
`"Exif.GPSInfo"` remains. -/
theorem RemoveGPSExif_strips_GPS (env : WriteEnv) (File : FileState) (NoChangeMtime : ℤ)
    (ho : env.opens = true) :
    (RemoveGPSExif env File NoChangeMtime).1 = 1 ∧
    (RemoveGPSExif env File NoChangeMtime).2.exifData =
      File.exifData.filter (fun e => decide (¬ "Exif.GPSInfo".toList <+: e.key.toList)) ∧
    ∀ e ∈ (RemoveGPSExif env File NoChangeMtime).2.exifData,
      ¬ "Exif.GPSInfo".toList <+: e.key.toList := by
  have hdata : (RemoveGPSExif env File NoChangeMtime).2.exifData =
      File.exifData.filter
        (fun e => decide (¬ "Exif.GPSInfo".toList <+: e.key.toList)) := by
    unfold RemoveGPSExif
    by_cases hm : NoChangeMtime ≠ 0
    · simp [ho, hm, utime, writeMetadata, eraseGPSInfo_eq]
    · simp [ho, hm, writeMetadata, eraseGPSInfo_eq]
  refine ⟨?_, hdata, ?_⟩
  · unfold RemoveGPSExif
    by_cases hm : NoChangeMtime ≠ 0
    · simp [ho, hm]
    · simp [ho, hm]
  · intro e he
    rw [hdata, List.mem_filter] at he
    simpa using he.2

/-- Witness of C19: a file with two GPS entries among four. -/
theorem RemoveGPSExif_strips_GPS_witness :
    (RemoveGPSExif ⟨true, 500, 600⟩
      ⟨100, 110, [⟨"Exif.Photo.DateTimeOriginal", "2005"⟩, ⟨"Exif.GPSInfo.GPSLatitudeRef", "S"⟩,
                  ⟨"Exif.Image.Make", "x"⟩, ⟨"Exif.GPSInfo.GPSAltitude", "1/1"⟩]⟩ 1).1 = 1 ∧
    (RemoveGPSExif ⟨true, 500, 600⟩
      ⟨100, 110, [⟨"Exif.Photo.DateTimeOriginal", "2005"⟩, ⟨"Exif.GPSInfo.GPSLatitudeRef", "S"⟩,
                  ⟨"Exif.Image.Make", "x"⟩, ⟨"Exif.GPSInfo.GPSAltitude", "1/1"⟩]⟩
        1).2.exifData =
      (⟨100, 110, [⟨"Exif.Photo.DateTimeOriginal", "2005"⟩, ⟨"Exif.GPSInfo.GPSLatitudeRef", "S"⟩,
                  ⟨"Exif.Image.Make", "x"⟩, ⟨"Exif.GPSInfo.GPSAltitude", "1/1"⟩]⟩
        : FileState).exifData.filter
        (fun e => decide (¬ "Exif.GPSInfo".toList <+: e.key.toList)) ∧
    ∀ e ∈ (RemoveGPSExif ⟨true, 500, 600⟩
      ⟨100, 110, [⟨"Exif.Photo.DateTimeOriginal", "2005"⟩, ⟨"Exif.GPSInfo.GPSLatitudeRef", "S"⟩,
                  ⟨"Exif.Image.Make", "x"⟩, ⟨"Exif.GPSInfo.GPSAltitude", "1/1"⟩]⟩
        1).2.exifData,
      ¬ "Exif.GPSInfo".toList <+: e.key.toList :=
  RemoveGPSExif_strips_GPS ⟨true, 500, 600⟩
    ⟨100, 110, [⟨"Exif.Photo.DateTimeOriginal", "2005"⟩, ⟨"Exif.GPSInfo.GPSLatitudeRef", "S"⟩,
                ⟨"Exif.Image.Make", "x"⟩, ⟨"Exif.GPSInfo.GPSAltitude", "1/1"⟩]⟩ 1 rfl

/-- A file with two GPS entries among four, evaluated: the two entries that are not GPS
tags remain, in their order, and the modification time is kept. -/
theorem RemoveGPSExif_example :
    RemoveGPSExif ⟨true, 500, 600⟩
      ⟨100, 110, [⟨"Exif.Photo.DateTimeOriginal", "2005"⟩, ⟨"Exif.GPSInfo.GPSLatitudeRef", "S"⟩,
                  ⟨"Exif.Image.Make", "x"⟩, ⟨"Exif.GPSInfo.GPSAltitude", "1/1"⟩]⟩ 1 =
      (1, ⟨100, 600, [⟨"Exif.Photo.DateTimeOriginal", "2005"⟩, ⟨"Exif.Image.Make", "x"⟩]⟩) := by
  decide

/-! ## The time-zone option -/

/-- C20, evaluated where it fails: the offset `-0:30` (sign `-`, hours 0, minutes 30) is
stored as hours 0 and minutes `+30`, in `main` and in the GUI alike, so that
`TimeZoneHours * 60 + TimeZoneMins` is 30 and not `-(0 * 60 + 30)`. With non-zero hours
the minutes get the sign of the offset: `-5:30` gives `-5` and `-30`, `+5:30` gives 5 and
30, and `-5` gives `-5` and 0. -/
theorem main_case_z_negative_zero_hours :
    main_case_z "-0:30" 0 0 = (0, 30) ∧
    CorrelateButtonPress_TimeZone "-0:30" = (0, 30) ∧
    (main_case_z "-0:30" 0 0).1 * 60 + (main_case_z "-0:30" 0 0).2 ≠ -1 * (0 * 60 + 30) ∧
    main_case_z "-5:30" 0 0 = (-5, -30) ∧
    main_case_z "+5:30" 0 0 = (5, 30) ∧
    main_case_z "-5" 0 0 = (-5, 0) := by
  refine ⟨by decide, by decide, by decide, by decide, by decide, by decide⟩

/-! ## The exit status of a correlation run -/

/-- The status returned by `main` as a function of the counters. -/
theorem main_status_counts (st : Stats) :
    (main_status st = EXIT_FAILURE ↔ 0 < st.WriteFail) ∧
    (main_status st = GPS_EXIT_WARNING ↔
      st.WriteFail = 0 ∧ 0 < st.NotMatched + st.TooFar + st.NoDate + st.GPSPresent) ∧
    (main_status st = EXIT_SUCCESS ↔
      st.WriteFail = 0 ∧ st.NotMatched = 0 ∧ st.TooFar = 0 ∧ st.NoDate = 0 ∧
        st.GPSPresent = 0) := by
  unfold main_status EXIT_FAILURE GPS_EXIT_WARNING EXIT_SUCCESS
  by_cases hw : st.WriteFail = 0
  · by_cases hs : st.NotMatched + st.TooFar + st.NoDate + st.GPSPresent = 0
    · simp [hw, hs]
      omega
    · simp [hw, hs]
      omega
  · simp [hw]
    omega

/-- The files passed to `CorrelatePhoto` by the correlation loop: all of them, in
order. -/
theorem correlateLoop_processed (files : List PhotoFile) :
    ∀ (st : Stats) (done : List String),
      (correlateLoop files st done).2 = done ++ files.map (fun ph => ph.File) := by
  induction files with
  | nil => intro st done; simp [correlateLoop]
  | cons ph rest ih =>
    intro st done
    rw [correlateLoop, ih]
    simp

/-- When `CorrelatePhoto` returns a point exactly for the four results `CORR_OK`,
`CORR_INTERPOLATED`, `CORR_ROUND` and `CORR_EXIFWRITEFAIL`, the correlation loop adds to
each counter the number of files with the corresponding result. -/
theorem correlateLoop_counts (files : List PhotoFile) :
    ∀ (st : Stats) (done : List String),
      (∀ ph ∈ files, ph.Result = decide (ph.OptionsResult ∈
        [CorrResult.CORR_OK, CorrResult.CORR_INTERPOLATED, CorrResult.CORR_ROUND,
         CorrResult.CORR_EXIFWRITEFAIL])) →
      (correlateLoop files st done).1 =
        { MatchExact := st.MatchExact +
            files.countP (fun ph => ph.OptionsResult = CorrResult.CORR_OK),
          MatchInter := st.MatchInter +
            files.countP (fun ph => ph.OptionsResult = CorrResult.CORR_INTERPOLATED),
          MatchRound := st.MatchRound +
            files.countP (fun ph => ph.OptionsResult = CorrResult.CORR_ROUND),
          NotMatched := st.NotMatched +
            files.countP (fun ph => ph.OptionsResult = CorrResult.CORR_NOMATCH),
          WriteFail := st.WriteFail +
            files.countP (fun ph => ph.OptionsResult = CorrResult.CORR_EXIFWRITEFAIL),
          TooFar := st.TooFar +
            files.countP (fun ph => ph.OptionsResult = CorrResult.CORR_TOOFAR),
          NoDate := st.NoDate +
            files.countP (fun ph => ph.OptionsResult = CorrResult.CORR_NOEXIFINPUT),
          GPSPresent := st.GPSPresent +
            files.countP (fun ph => ph.OptionsResult = CorrResult.CORR_GPSDATAEXISTS) } := by
  induction files with
  | nil => intro st done _; simp [correlateLoop]
  | cons ph rest ih =>
    intro st done hwf
    have hph := hwf ph (List.mem_cons_self _ _)
    have hrest : ∀ q ∈ rest, q.Result = decide (q.OptionsResult ∈
        [CorrResult.CORR_OK, CorrResult.CORR_INTERPOLATED, CorrResult.CORR_ROUND,
         CorrResult.CORR_EXIFWRITEFAIL]) :=
      fun q hq => hwf q (List.mem_cons_of_mem _ hq)
    rw [correlateLoop, ih _ _ hrest]
    cases hres : ph.OptionsResult <;>
      simp [hres] at hph <;>
      simp [countPhoto, hph, hres, List.countP_cons] <;>
      omega

/-- A run of `main` that reaches the correlation loop (the options are read without an
`exit`, at least one file is named, none of the show, remove and fix modes is chosen and
a track was read): the status is the one computed from the counters of the loop, and all
files are passed to `CorrelatePhoto`. -/
theorem main_correlation_run (rd : Readers) (options : List Opt) (files : List PhotoFile)
    (vars : MainVars) (hopt : main_options rd MainVars.init options = Except.ok vars)
    (hfiles : files ≠ []) (hshow : vars.ShowOnlyDetails = 0) (hrem : vars.RemoveTags = 0)
    (hfix : vars.FixDatestamps = 0) (htracks : vars.NumTracks ≠ 0) :
    main rd options files =
      { status := main_status (correlateLoop files Stats.init []).1,
        processed := files.map (fun ph => ph.File),
        stats := (correlateLoop files Stats.init []).1 } := by
  have hne : files.isEmpty = false := by
    cases files with
    | nil => exact absurd rfl hfiles
    | cons a l => rfl
  unfold main
  simp only [hopt, hne, hshow, hrem, hfix, htracks, correlateLoop_processed]
  simp

/-- C16: in a correlation run where `CorrelatePhoto` returns a point exactly for the
results `CORR_OK`, `CORR_INTERPOLATED`, `CORR_ROUND` and `CORR_EXIFWRITEFAIL`, `main`
returns `EXIT_FAILURE` (1) iff at least one photo had a write failure; otherwise
`GPS_EXIT_WARNING` (2) iff at least one photo was not matched, too far, had no date or
was already tagged; otherwise `EXIT_SUCCESS` (0). Hence the status is 0 exactly when
every photo's result is exact, interpolated or rounded. -/
theorem exit_code (rd : Readers) (options : List Opt) (files : List PhotoFile)
    (vars : MainVars) (hopt : main_options rd MainVars.init options = Except.ok vars)
    (hfiles : files ≠ []) (hshow : vars.ShowOnlyDetails = 0) (hrem : vars.RemoveTags = 0)
    (hfix : vars.FixDatestamps = 0) (htracks : vars.NumTracks ≠ 0)
    (hwf : ∀ ph ∈ files, ph.Result = decide (ph.OptionsResult ∈
      [CorrResult.CORR_OK, CorrResult.CORR_INTERPOLATED, CorrResult.CORR_ROUND,
       CorrResult.CORR_EXIFWRITEFAIL])) :
    ((main rd options files).status = 1 ↔
      ∃ ph ∈ files, ph.OptionsResult = CorrResult.CORR_EXIFWRITEFAIL) ∧
    ((main rd options files).status = 2 ↔
      (¬ ∃ ph ∈ files, ph.OptionsResult = CorrResult.CORR_EXIFWRITEFAIL) ∧
      ∃ ph ∈ files, ph.OptionsResult ∈
        [CorrResult.CORR_NOMATCH, CorrResult.CORR_TOOFAR, CorrResult.CORR_NOEXIFINPUT,
         CorrResult.CORR_GPSDATAEXISTS]) ∧
    ((main rd options files).status = 0 ↔
      ∀ ph ∈ files, ph.OptionsResult ∈
        [CorrResult.CORR_OK, CorrResult.CORR_INTERPOLATED, CorrResult.CORR_ROUND]) ∧
    ((main rd options files).status = 0 ∨ (main rd options files).status = 1 ∨
      (main rd options files).status = 2) := by
  rw [main_correlation_run rd options files vars hopt hfiles hshow hrem hfix htracks]
  simp only
  obtain ⟨h1, h2, h0⟩ := main_status_counts (correlateLoop files Stats.init []).1
  rw [correlateLoop_counts files Stats.init [] hwf] at h1 h2 h0 ⊢
  simp only [Stats.init, Nat.zero_add, EXIT_FAILURE, GPS_EXIT_WARNING, EXIT_SUCCESS]
    at h1 h2 h0 ⊢
  have hW : 0 < files.countP (fun ph => ph.OptionsResult = CorrResult.CORR_EXIFWRITEFAIL) ↔
      ∃ ph ∈ files, ph.OptionsResult = CorrResult.CORR_EXIFWRITEFAIL := by
    rw [List.countP_pos_iff]; simp
  have hN : ∀ r : CorrResult, files.countP (fun ph => ph.OptionsResult = r) = 0 ↔
      ∀ ph ∈ files, ph.OptionsResult ≠ r := by
    intro r
    rw [List.countP_eq_zero]; simp
  refine ⟨?_, ?_, ?_, ?_⟩
  · rw [h1, hW]
  · rw [h2]
    constructor
    · rintro ⟨hw0, hpos⟩
      refine ⟨fun hex => ?_, ?_⟩
      · have := hW.2 hex
        omega
      · by_contra hcon
        push_neg at hcon
        have a1 := (hN CorrResult.CORR_NOMATCH).2 (fun ph hph h => hcon ph hph (by simp [h]))
        have a2 := (hN CorrResult.CORR_TOOFAR).2 (fun ph hph h => hcon ph hph (by simp [h]))
        have a3 := (hN CorrResult.CORR_NOEXIFINPUT).2
          (fun ph hph h => hcon ph hph (by simp [h]))
        have a4 := (hN CorrResult.CORR_GPSDATAEXISTS).2
          (fun ph hph h => hcon ph hph (by simp [h]))
        omega
    · rintro ⟨hno, ph, hph, hmem⟩
      refine ⟨?_, ?_⟩
      · by_contra hcon
        exact hno (hW.1 (Nat.pos_of_ne_zero hcon))
      · simp only [List.mem_cons, List.mem_singleton, List.not_mem_nil, or_false] at hmem
        rcases hmem with h | h | h | h
        · have : 0 < files.countP (fun ph => ph.OptionsResult = CorrResult.CORR_NOMATCH) :=
            List.countP_pos_iff.2 ⟨ph, hph, by simp [h]⟩
          omega
        · have : 0 < files.countP (fun ph => ph.OptionsResult = CorrResult.CORR_TOOFAR) :=
            List.countP_pos_iff.2 ⟨ph, hph, by simp [h]⟩
          omega
        · have : 0 < files.countP (fun ph => ph.OptionsResult = CorrResult.CORR_NOEXIFINPUT) :=
            List.countP_pos_iff.2 ⟨ph, hph, by simp [h]⟩
          omega
        · have : 0 < files.countP
              (fun ph => ph.OptionsResult = CorrResult.CORR_GPSDATAEXISTS) :=
            List.countP_pos_iff.2 ⟨ph, hph, by simp [h]⟩
          omega
  · rw [h0]
    constructor
    · rintro ⟨hw0, a1, a2, a3, a4⟩ ph hph
      have b0 := (hN _).1 hw0 ph hph
      have b1 := (hN _).1 a1 ph hph
      have b2 := (hN _).1 a2 ph hph
      have b3 := (hN _).1 a3 ph hph
      have b4 := (hN _).1 a4 ph hph
      cases hres : ph.OptionsResult <;> simp_all
    · intro hall
      refine ⟨?_, ?_, ?_, ?_, ?_⟩ <;>
        · rw [hN]
          intro ph hph h
          have := hall ph hph
          simp [h] at this
  · rcases Nat.eq_zero_or_pos
      (files.countP (fun ph => ph.OptionsResult = CorrResult.CORR_EXIFWRITEFAIL)) with hz | hp
    · by_cases hs : files.countP (fun ph => ph.OptionsResult = CorrResult.CORR_NOMATCH) +
          files.countP (fun ph => ph.OptionsResult = CorrResult.CORR_TOOFAR) +
          files.countP (fun ph => ph.OptionsResult = CorrResult.CORR_NOEXIFINPUT) +
          files.countP (fun ph => ph.OptionsResult = CorrResult.CORR_GPSDATAEXISTS) = 0
      · left
        exact h0.2 ⟨hz, by omega, by omega, by omega, by omega⟩
      · right; right
        exact h2.2 ⟨hz, by omega⟩
    · right; left
      exact h1.2 hp

/-- Witness of C16: a run with one track file and the two sample files, of which one is
too far from the track: the status is 2. -/
theorem exit_code_witness :
    ((main sampleReaders [Opt.g "track.gpx"] samplePhotos).status = 1 ↔
      ∃ ph ∈ samplePhotos, ph.OptionsResult = CorrResult.CORR_EXIFWRITEFAIL) ∧
    ((main sampleReaders [Opt.g "track.gpx"] samplePhotos).status = 2 ↔
      (¬ ∃ ph ∈ samplePhotos, ph.OptionsResult = CorrResult.CORR_EXIFWRITEFAIL) ∧
      ∃ ph ∈ samplePhotos, ph.OptionsResult ∈
        [CorrResult.CORR_NOMATCH, CorrResult.CORR_TOOFAR, CorrResult.CORR_NOEXIFINPUT,
         CorrResult.CORR_GPSDATAEXISTS]) ∧
    ((main sampleReaders [Opt.g "track.gpx"] samplePhotos).status = 0 ↔
      ∀ ph ∈ samplePhotos, ph.OptionsResult ∈
        [CorrResult.CORR_OK, CorrResult.CORR_INTERPOLATED, CorrResult.CORR_ROUND]) ∧
    ((main sampleReaders [Opt.g "track.gpx"] samplePhotos).status = 0 ∨
      (main sampleReaders [Opt.g "track.gpx"] samplePhotos).status = 1 ∨
      (main sampleReaders [Opt.g "track.gpx"] samplePhotos).status = 2) :=
  exit_code sampleReaders [Opt.g "track.gpx"] samplePhotos
    (addTrack MainVars.init
      { Points := [{ Lat := 1, LatDecimals := 0, Long := 2, LongDecimals := 0,
                     Elev := 0, ElevDecimals := 0, Time := 1000 }],
        MinTime := 1000, MaxTime := 1000 })
    rfl (List.cons_ne_nil _ _) rfl rfl rfl (by decide) (by decide)

/-- The sample run with one track file and the two sample files, evaluated: status 2,
both files processed, one exact match and one file too far. -/
theorem exit_code_example :
    main sampleReaders [Opt.g "track.gpx"] samplePhotos =
      { status := 2, processed := ["a.jpg", "b.jpg"],
        stats := { MatchExact := 1, MatchInter := 0, MatchRound := 0, NotMatched := 0,
                   WriteFail := 0, TooFar := 1, NoDate := 0, GPSPresent := 0 } } := by
  decide

/-! ## Track files that cannot be read -/

/-- Once `ReadOk` is clear, the loop over the selected files changes nothing. -/
theorem foldl_loadStep_of_not_ReadOk (ReadGPX : String → Option GPSTrack)
    (fs : List String) : ∀ st : LoadState, st.ReadOk = false →
      fs.foldl (loadStep ReadGPX) st = st := by
  induction fs with
  | nil => intro st _; rfl
  | cons f rest ih =>
    intro st h
    have hstep : loadStep ReadGPX st f = st := by
      unfold loadStep
      simp [h]
    rw [List.foldl_cons, hstep, ih st h]

/-- The loop over the selected files, entered with `ReadOk` set: the files read are those
up to and including the first that cannot be read, `ReadOk` tells whether all could be
read, and `NumTracks` has grown by the number of files read successfully. -/
theorem foldl_loadStep (ReadGPX : String → Option GPSTrack) (fs : List String) :
    ∀ st : LoadState, st.ReadOk = true →
      (fs.foldl (loadStep ReadGPX) st).read =
        st.read ++ (fs.takeWhile (fun f => (ReadGPX f).isSome) ++
          (fs.dropWhile (fun f => (ReadGPX f).isSome)).take 1) ∧
      (fs.foldl (loadStep ReadGPX) st).ReadOk = fs.all (fun f => (ReadGPX f).isSome) ∧
      (fs.foldl (loadStep ReadGPX) st).tracks.NumTracks =
        st.tracks.NumTracks + (fs.takeWhile (fun f => (ReadGPX f).isSome)).length := by
  induction fs with
  | nil => intro st h; simp [h]
  | cons f rest ih =>
    intro st h
    rw [List.foldl_cons]
    cases hf : ReadGPX f with
    | none =>
      have hstep : loadStep ReadGPX st f =
          { st with ReadOk := false, read := st.read ++ [f] } := by
        unfold loadStep
        simp [h, hf]
      rw [hstep, foldl_loadStep_of_not_ReadOk ReadGPX rest _ rfl]
      simp [hf]
    | some trk =>
      have hstep : loadStep ReadGPX st f =
          { tracks :=
              { GPSData := (st.tracks.GPSData.set st.tracks.NumTracks trk).take
                              (st.tracks.NumTracks + 1) ++ [GPSTrack.zero],
                NumTracks := st.tracks.NumTracks + 1 },
            ReadOk := true, read := st.read ++ [f] } := by
        unfold loadStep
        simp [h, hf]
      rw [hstep]
      obtain ⟨h1, h2, h3⟩ := ih
        { tracks :=
            { GPSData := (st.tracks.GPSData.set st.tracks.NumTracks trk).take
                            (st.tracks.NumTracks + 1) ++ [GPSTrack.zero],
              NumTracks := st.tracks.NumTracks + 1 },
          ReadOk := true, read := st.read ++ [f] } rfl
      rw [h1, h2, h3]
      simp [hf]
      omega

/-- The option loop on a command line in two parts: the second part is read with the
variables left by the first, unless the first ended in an `exit`. -/
theorem main_options_append (rd : Readers) (a b : List Opt) : ∀ vars : MainVars,
    main_options rd vars (a ++ b) =
      match main_options rd vars a with
      | Except.error status => Except.error status
      | Except.ok vars2 => main_options rd vars2 b := by
  induction a with
  | nil => intro vars; rfl
  | cons c rest ih =>
    intro vars
    rw [List.cons_append, main_options, main_options]
    cases hc : main_switch rd vars c with
    | error status => rfl
    | ok vars2 => exact ih vars2

/-- C17: in the GUI loader, for every list of selected files, the files read are those up
to and including the first one that fails to parse (no file after it is read), and the
loader finishes with `NumTracks = 0` when some file fails and with `NumTracks` equal to
the number of files when all parse; in the command-line program a `-g` file that fails
to parse ends the run with `EXIT_FAILURE` before any photo is processed. -/
theorem track_parse_failure (rd : Readers) (FreeTrack : GPSTrack → GPSTrack)
    (g : GuiTracks) (FileNames : List String) (pre post : List Opt) (vars : MainVars)
    (optarg : String) (files : List PhotoFile)
    (hpre : main_options rd MainVars.init pre = Except.ok vars)
    (hbad : rd.ReadGPX optarg = none) :
    (SelectGPSButtonPress rd.ReadGPX FreeTrack g FileNames).read =
      FileNames.takeWhile (fun f => (rd.ReadGPX f).isSome) ++
        (FileNames.dropWhile (fun f => (rd.ReadGPX f).isSome)).take 1 ∧
    (SelectGPSButtonPress rd.ReadGPX FreeTrack g FileNames).ReadOk =
      FileNames.all (fun f => (rd.ReadGPX f).isSome) ∧
    (SelectGPSButtonPress rd.ReadGPX FreeTrack g FileNames).tracks.NumTracks =
      (if FileNames.all (fun f => (rd.ReadGPX f).isSome) then FileNames.length else 0) ∧
    main rd (pre ++ Opt.g optarg :: post) files =
      { status := EXIT_FAILURE, processed := [], stats := Stats.init } := by
  obtain ⟨h1, h2, h3⟩ := foldl_loadStep rd.ReadGPX FileNames
    { tracks := { GPSData := freeTracks FreeTrack g.NumTracks g.GPSData, NumTracks := 0 },
      ReadOk := true, read := [] } rfl
  simp only [List.nil_append, Nat.zero_add] at h1 h3
  refine ⟨?_, ?_, ?_, ?_⟩
  · unfold SelectGPSButtonPress
    simp only
    split_ifs <;> exact h1
  · unfold SelectGPSButtonPress
    simp only
    split_ifs with hok
    · exact h2
    · exact h2
  · unfold SelectGPSButtonPress
    simp only
    by_cases hall : FileNames.all (fun f => (rd.ReadGPX f).isSome) = true
    · rw [if_pos (by rw [h2]; exact hall), h3, if_pos hall]
      congr 1
      rw [List.takeWhile_eq_self_iff]
      intro f hf
      exact List.all_eq_true.1 hall f hf
    · rw [if_neg (by rw [h2]; exact hall), if_neg hall]
  · unfold main
    have hne : (pre ++ Opt.g optarg :: post).isEmpty = false := by
      cases pre <;> rfl
    have hsw : main_switch rd vars (Opt.g optarg) = Except.error EXIT_FAILURE := by
      simp only [main_switch, hbad]
    simp only [hne, main_options_append, hpre, main_options, hsw]
    simp

/-- Witness of C17: three selected files of which the second cannot be read, and a command
line `-v -g bad.gpx -n` followed by the two sample files. -/
theorem track_parse_failure_witness :
    (SelectGPSButtonPress sampleReaders.ReadGPX (fun t => t) ⟨[GPSTrack.zero], 0⟩
        ["a.gpx", "bad.gpx", "c.gpx"]).read =
      ["a.gpx", "bad.gpx", "c.gpx"].takeWhile (fun f => (sampleReaders.ReadGPX f).isSome) ++
        (["a.gpx", "bad.gpx", "c.gpx"].dropWhile
          (fun f => (sampleReaders.ReadGPX f).isSome)).take 1 ∧
    (SelectGPSButtonPress sampleReaders.ReadGPX (fun t => t) ⟨[GPSTrack.zero], 0⟩
        ["a.gpx", "bad.gpx", "c.gpx"]).ReadOk =
      ["a.gpx", "bad.gpx", "c.gpx"].all (fun f => (sampleReaders.ReadGPX f).isSome) ∧
    (SelectGPSButtonPress sampleReaders.ReadGPX (fun t => t) ⟨[GPSTrack.zero], 0⟩
        ["a.gpx", "bad.gpx", "c.gpx"]).tracks.NumTracks =
      (if ["a.gpx", "bad.gpx", "c.gpx"].all (fun f => (sampleReaders.ReadGPX f).isSome)
       then ["a.gpx", "bad.gpx", "c.gpx"].length else 0) ∧
    main sampleReaders ([Opt.v] ++ Opt.g "bad.gpx" :: [Opt.n]) samplePhotos =
      { status := EXIT_FAILURE, processed := [], stats := Stats.init } :=
  track_parse_failure sampleReaders (fun t => t) ⟨[GPSTrack.zero], 0⟩
    ["a.gpx", "bad.gpx", "c.gpx"] [Opt.v] [Opt.n] { MainVars.init with ShowDetails := 1 }
    "bad.gpx" samplePhotos rfl rfl

/-- The GUI loader on three selected files, evaluated: when the second cannot be read it
reads `a.gpx` and `bad.gpx` only and ends with no track; with three readable files it
ends with three tracks. -/
theorem track_parse_failure_example :
    (SelectGPSButtonPress sampleReaders.ReadGPX (fun t => t) ⟨[GPSTrack.zero], 0⟩
        ["a.gpx", "bad.gpx", "c.gpx"]).read = ["a.gpx", "bad.gpx"] ∧
    (SelectGPSButtonPress sampleReaders.ReadGPX (fun t => t) ⟨[GPSTrack.zero], 0⟩
        ["a.gpx", "bad.gpx", "c.gpx"]).tracks.NumTracks = 0 ∧
    (SelectGPSButtonPress sampleReaders.ReadGPX (fun t => t) ⟨[GPSTrack.zero], 0⟩
        ["a.gpx", "b.gpx", "c.gpx"]).read = ["a.gpx", "b.gpx", "c.gpx"] ∧
    (SelectGPSButtonPress sampleReaders.ReadGPX (fun t => t) ⟨[GPSTrack.zero], 0⟩
        ["a.gpx", "b.gpx", "c.gpx"]).tracks.NumTracks = 3 := by
  refine ⟨by decide, by decide, by decide, by decide⟩

/-! ## `CsvEscape` -/

theorem CsvEscape_eq_flatMap (s : List Char) :
    CsvEscape s =
      s.flatMap (fun c => if c = quotationMark then [quotationMark, quotationMark] else [c]) := by
  induction s with
  | nil => rfl
  | cons c s ih =>
    unfold CsvEscape
    by_cases h : c = quotationMark
    · simp [h, ih]
    · simp [h, ih]

theorem CsvEscape_length (s : List Char) :
    (CsvEscape s).length = s.length + s.count quotationMark := by
  induction s with
  | nil => rfl
  | cons c s ih =>
    unfold CsvEscape
    by_cases h : c = quotationMark
    · subst h
      simp [ih]
      omega
    · have hne : ¬ (c == quotationMark) = true := by simpa using h
      simp [h, ih, List.count_cons, hne]
      omega

theorem collapseQuotes_cons_of_ne (c : Char) (l : List Char) (h : c ≠ quotationMark) :
    collapseQuotes (c :: l) = c :: collapseQuotes l := by
  cases l with
  | nil => simp [collapseQuotes]
  | cons b rest => simp [collapseQuotes, h]

theorem collapseQuotes_CsvEscape (s : List Char) : collapseQuotes (CsvEscape s) = s := by
  induction s with
  | nil => rfl
  | cons c s ih =>
    unfold CsvEscape
    by_cases h : c = quotationMark
    · subst h
      simp [collapseQuotes, ih]
    · rw [if_neg h, collapseQuotes_cons_of_ne c _ h, ih]

/-- C21: for every string `s`, `CsvEscape s` is `s` with each quotation mark replaced by
two quotation marks and every other character kept, in order; its length is the length
of `s` plus the number of quotation marks in `s`, at most twice the length of `s`, so
that with the terminating NUL it fits the `2 * strlen(str) + 1` bytes allocated; and
collapsing each doubled quotation mark gives back `s`. -/
theorem CsvEscape_spec (s : List Char) :
    CsvEscape s =
      s.flatMap (fun c => if c = quotationMark then [quotationMark, quotationMark] else [c]) ∧
    (CsvEscape s).length = s.length + s.count quotationMark ∧
    (CsvEscape s).length ≤ 2 * s.length ∧
    (CsvEscape s).length + 1 ≤ s.length * 2 + 1 ∧
    collapseQuotes (CsvEscape s) = s := by
  have hlen := CsvEscape_length s
  have hcount : s.count quotationMark ≤ s.length := List.count_le_length _ _
  exact ⟨CsvEscape_eq_flatMap s, hlen, by omega, by omega, collapseQuotes_CsvEscape s⟩

/-- A string with one quotation mark, escaped. -/
theorem CsvEscape_example :
    CsvEscape ['a', quotationMark, 'b'] = ['a', quotationMark, quotationMark, 'b'] := by
  decide

/-! ## `XmlCommentSafe` -/

theorem dd_prefix_iff (l : List Char) :
    ['-', '-'] <+: l ↔ ∃ rest, l = '-' :: '-' :: rest := by
  constructor
  · rintro ⟨t, ht⟩
    exact ⟨t, by rw [← ht]; rfl⟩
  · rintro ⟨rest, rfl⟩
    exact ⟨rest, rfl⟩

theorem strstr_dd_of_not_prefix (c : Char) (t : List Char) (h : ¬ ['-', '-'] <+: c :: t) :
    strstr (c :: t) ['-', '-'] = (strstr t ['-', '-']).map (fun n => n + 1) := by
  unfold strstr
  rw [find]
  have hn : ¬ (['-', '-'].isPrefixOf (c :: t) = true) :=
    fun hp => h (List.isPrefixOf_iff_prefix.1 hp)
  rw [if_neg hn]

theorem strstr_nil_dd : strstr [] ['-', '-'] = none := by
  decide

/-- The loop of `XmlCommentSafe` steps over a character at which no `--` starts. -/
theorem XmlCommentSafe_loop_shift (c : Char) (t : List Char)
    (h : ¬ ['-', '-'] <+: c :: t) (n : ℕ) (before : List Char) :
    XmlCommentSafe_loop n before (c :: t) = XmlCommentSafe_loop n (before ++ [c]) t := by
  cases n with
  | zero =>
    rw [XmlCommentSafe_loop, XmlCommentSafe_loop, strstr_dd_of_not_prefix c t h]
    cases strstr t ['-', '-'] with
    | none => simp
    | some k => simp
  | succ n =>
    rw [XmlCommentSafe_loop, XmlCommentSafe_loop, strstr_dd_of_not_prefix c t h]
    cases strstr t ['-', '-'] with
    | none => simp
    | some k => simp

/-- The loop of `XmlCommentSafe` makes the replacements of `replaceSecondDash`, and half
the length of the string bounds their number. -/
theorem XmlCommentSafe_loop_eq (s : List Char) : ∀ (n : ℕ) (before : List Char),
    s.length / 2 ≤ n →
      XmlCommentSafe_loop n before s = some (before ++ replaceSecondDash s) := by
  induction s using replaceSecondDash.induct with
  | case1 =>
    intro n before _
    cases n <;> simp [XmlCommentSafe_loop, strstr_nil_dd, replaceSecondDash]
  | case2 a =>
    intro n before _
    have h : ¬ ['-', '-'] <+: [a] := by
      rw [dd_prefix_iff]; rintro ⟨rest, hr⟩; simp at hr
    rw [XmlCommentSafe_loop_shift a [] h]
    cases n <;> simp [XmlCommentSafe_loop, strstr_nil_dd, replaceSecondDash]
  | case3 a b rest hab ih =>
    intro n before hn
    obtain ⟨rfl, rfl⟩ := hab
    obtain ⟨m, rfl⟩ : ∃ m, n = m + 1 := ⟨n - 1, by simp at hn; omega⟩
    have h0 : strstr ('-' :: '-' :: rest) ['-', '-'] = some 0 :=
      (find_eq_zero_iff _ _).2 ((dd_prefix_iff _).2 ⟨rest, rfl⟩)
    rw [XmlCommentSafe_loop, h0]
    simp only [List.take_zero, List.append_nil, List.drop_zero]
    have hset : ('-' :: '-' :: rest).set 1 '?' = '-' :: '?' :: rest := rfl
    rw [hset]
    have h1 : ¬ ['-', '-'] <+: '-' :: '?' :: rest := by
      rw [dd_prefix_iff]; rintro ⟨r, hr⟩; simp at hr
    have h2 : ¬ ['-', '-'] <+: '?' :: rest := by
      rw [dd_prefix_iff]; rintro ⟨r, hr⟩; simp at hr
    rw [XmlCommentSafe_loop_shift _ _ h1, XmlCommentSafe_loop_shift _ _ h2,
      ih m _ (by simp at hn; omega)]
    simp [replaceSecondDash]
  | case4 a b rest hab ih =>
    intro n before hn
    have h : ¬ ['-', '-'] <+: a :: b :: rest := by
      rw [dd_prefix_iff]
      rintro ⟨r, hr⟩
      simp at hr
      exact hab ⟨hr.1, hr.2.1⟩
    rw [XmlCommentSafe_loop_shift _ _ h, ih n _ (by simp at hn ⊢; omega)]
    simp [replaceSecondDash, hab]

theorem replaceSecondDash_length (s : List Char) :
    (replaceSecondDash s).length = s.length := by
  induction s using replaceSecondDash.induct with
  | case1 => rfl
  | case2 a => rfl
  | case3 a b rest hab ih => simp [replaceSecondDash, hab, ih]
  | case4 a b rest hab ih =>
    rw [replaceSecondDash, if_neg hab]
    simp only [List.length_cons] at ih ⊢
    omega

theorem replaceSecondDash_head (s : List Char) :
    (replaceSecondDash s).head? = s.head? := by
  induction s using replaceSecondDash.induct with
  | case1 => rfl
  | case2 a => rfl
  | case3 a b rest hab ih => simp [replaceSecondDash, hab]
  | case4 a b rest hab ih => simp [replaceSecondDash, hab]

/-- No `--` is left by `replaceSecondDash`. -/
theorem replaceSecondDash_no_dd (s : List Char) :
    ¬ ['-', '-'] <:+: replaceSecondDash s := by
  induction s using replaceSecondDash.induct with
  | case1 => simp [replaceSecondDash]
  | case2 a =>
    simp only [replaceSecondDash]
    intro h
    have := h.length_le
    simp at this
  | case3 a b rest hab ih =>
    rw [replaceSecondDash, if_pos hab, List.infix_cons_iff, List.infix_cons_iff]
    rintro (h | h | h)
    · rw [dd_prefix_iff] at h
      obtain ⟨r, hr⟩ := h
      simp at hr
    · rw [dd_prefix_iff] at h
      obtain ⟨r, hr⟩ := h
      simp at hr
    · exact ih h
  | case4 a b rest hab ih =>
    rw [replaceSecondDash, if_neg hab, List.infix_cons_iff]
    rintro (h | h)
    · rw [dd_prefix_iff] at h
      obtain ⟨r, hr⟩ := h
      have hhead := replaceSecondDash_head (b :: rest)
      simp only [List.cons.injEq] at hr
      rw [hr.2] at hhead
      simp at hhead
      exact hab ⟨hr.1, hhead.symm⟩
    · exact ih h

/-- A string without `--` is left as it is by `replaceSecondDash`. -/
theorem replaceSecondDash_of_no_dd (s : List Char) :
    ¬ ['-', '-'] <:+: s → replaceSecondDash s = s := by
  induction s using replaceSecondDash.induct with
  | case1 => intro _; rfl
  | case2 a => intro _; rfl
  | case3 a b rest hab ih =>
    intro h
    exfalso
    apply h
    obtain ⟨rfl, rfl⟩ := hab
    exact ((dd_prefix_iff _).2 ⟨rest, rfl⟩).isInfix
  | case4 a b rest hab ih =>
    intro h
    rw [replaceSecondDash, if_neg hab, ih (fun hi => h (List.infix_cons hi))]

/-- Where `replaceSecondDash` changes a character, that character was a dash
immediately preceded by a dash, and it becomes a question mark. -/
theorem replaceSecondDash_changes (s : List Char) : ∀ i : ℕ,
    (replaceSecondDash s)[i]? ≠ s[i]? →
      ∃ j, i = j + 1 ∧ s[j]? = some '-' ∧ s[i]? = some '-' ∧
        (replaceSecondDash s)[i]? = some '?' := by
  induction s using replaceSecondDash.induct with
  | case1 => intro i h; exact absurd rfl h
  | case2 a => intro i h; exact absurd rfl h
  | case3 a b rest hab ih =>
    obtain ⟨rfl, rfl⟩ := hab
    intro i h
    rw [replaceSecondDash, if_pos ⟨rfl, rfl⟩] at h ⊢
    match i with
    | 0 => simp at h
    | 1 => exact ⟨0, rfl, by simp, by simp, by simp⟩
    | k + 2 =>
      simp only [List.getElem?_cons_succ] at h ⊢
      obtain ⟨j, hj, h1, h2, h3⟩ := ih k h
      exact ⟨j + 2, by omega, by simpa using h1, h2, h3⟩
  | case4 a b rest hab ih =>
    intro i h
    rw [replaceSecondDash, if_neg hab] at h ⊢
    match i with
    | 0 => simp at h
    | k + 1 =>
      simp only [List.getElem?_cons_succ] at h ⊢
      obtain ⟨j, hj, h1, h2, h3⟩ := ih k h
      exact ⟨j + 1, by omega, by simpa using h1, h2, h3⟩

/-- C22: for every string `s`, `XmlCommentSafe` returns (half the length of `s` bounds the
number of replacements) a string that contains no occurrence of `--`, has the same length
as `s`, and differs from `s` only at positions where `s` had a dash immediately preceded
by a dash, each changed character becoming a question mark; applying it again gives the
same string. -/
theorem XmlCommentSafe_spec (fuel : ℕ) (s : List Char) (hf : s.length / 2 ≤ fuel) :
    ∃ r : List Char, XmlCommentSafe fuel s = some r ∧
      ¬ ['-', '-'] <:+: r ∧
      r.length = s.length ∧
      (∀ i : ℕ, r[i]? ≠ s[i]? →
        ∃ j, i = j + 1 ∧ s[j]? = some '-' ∧ s[i]? = some '-' ∧ r[i]? = some '?') ∧
      XmlCommentSafe fuel r = some r := by
  refine ⟨replaceSecondDash s, ?_, replaceSecondDash_no_dd s, replaceSecondDash_length s,
    replaceSecondDash_changes s, ?_⟩
  · unfold XmlCommentSafe
    rw [XmlCommentSafe_loop_eq s fuel [] hf]
    simp
  · unfold XmlCommentSafe
    rw [XmlCommentSafe_loop_eq _ fuel [] (by rw [replaceSecondDash_length]; exact hf),
      replaceSecondDash_of_no_dd _ (replaceSecondDash_no_dd s)]
    simp

/-- Witness of C22: the file name `a--b---c.jpg`. -/
theorem XmlCommentSafe_spec_witness :
    ∃ r : List Char, XmlCommentSafe 6 "a--b---c.jpg".toList = some r ∧
      ¬ ['-', '-'] <:+: r ∧
      r.length = "a--b---c.jpg".toList.length ∧
      (∀ i : ℕ, r[i]? ≠ "a--b---c.jpg".toList[i]? →
        ∃ j, i = j + 1 ∧ "a--b---c.jpg".toList[j]? = some '-' ∧
          "a--b---c.jpg".toList[i]? = some '-' ∧ r[i]? = some '?') ∧
      XmlCommentSafe 6 r = some r :=
  XmlCommentSafe_spec 6 "a--b---c.jpg".toList (by decide)

/-- The file name `a--b---c.jpg`, made safe: `a-?b-?-c.jpg`. -/
theorem XmlCommentSafe_example :
    XmlCommentSafe 6 "a--b---c.jpg".toList = some "a-?b-?-c.jpg".toList := by
  decide

/-! ## The correlation loop handles every photo -/

/-- When `CorrelatePhoto` returns a point exactly for the four results `CORR_OK`,
`CORR_INTERPOLATED`, `CORR_ROUND` and `CORR_EXIFWRITEFAIL`, one pass of the loop body
increments exactly one of the eight counters. -/
theorem countPhoto_one (st : Stats) (Result : Bool) (OptionsResult : CorrResult)
    (h : Result = decide (OptionsResult ∈
      [CorrResult.CORR_OK, CorrResult.CORR_INTERPOLATED, CorrResult.CORR_ROUND,
       CorrResult.CORR_EXIFWRITEFAIL])) :
    (∃ i, i < 8 ∧
      (countPhoto st Result OptionsResult).counters =
        st.counters.modify (fun c => c + 1) i) ∧
    (countPhoto st Result OptionsResult).total = st.total + 1 := by
  subst h
  cases OptionsResult
  · exact ⟨⟨0, by decide, rfl⟩, by simp [countPhoto, Stats.total]; omega⟩
  · exact ⟨⟨1, by decide, rfl⟩, by simp [countPhoto, Stats.total]; omega⟩
  · exact ⟨⟨2, by decide, rfl⟩, by simp [countPhoto, Stats.total]; omega⟩
  · exact ⟨⟨4, by decide, rfl⟩, by simp [countPhoto, Stats.total]; omega⟩
  · exact ⟨⟨3, by decide, rfl⟩, by simp [countPhoto, Stats.total]; omega⟩
  · exact ⟨⟨5, by decide, rfl⟩, by simp [countPhoto, Stats.total]; omega⟩
  · exact ⟨⟨6, by decide, rfl⟩, by simp [countPhoto, Stats.total]; omega⟩
  · exact ⟨⟨7, by decide, rfl⟩, by simp [countPhoto, Stats.total]; omega⟩

theorem correlateLoop_total (files : List PhotoFile) :
    ∀ (st : Stats) (done : List String),
      (∀ ph ∈ files, ph.Result = decide (ph.OptionsResult ∈
        [CorrResult.CORR_OK, CorrResult.CORR_INTERPOLATED, CorrResult.CORR_ROUND,
         CorrResult.CORR_EXIFWRITEFAIL])) →
      (correlateLoop files st done).1.total = st.total + files.length := by
  induction files with
  | nil => intro st done _; simp [correlateLoop]
  | cons ph rest ih =>
    intro st done hwf
    rw [correlateLoop, ih _ _ (fun q hq => hwf q (List.mem_cons_of_mem _ hq)),
      (countPhoto_one st ph.Result ph.OptionsResult (hwf ph (List.mem_cons_self _ _))).2]
    simp only [List.length_cons]
    omega

/-- C23: for every list of `n` photo files and every sequence of per-photo results (a
point being returned exactly for exact, interpolated, rounded and write-failed, and none
for not matched, too far, no date and already tagged), the correlation loop of `main`
passes all `n` files to `CorrelatePhoto`, in order, each photo increments exactly one of
the eight counters, and the counters sum to `n`. -/
theorem per_photo_isolation (files : List PhotoFile)
    (hwf : ∀ ph ∈ files, ph.Result = decide (ph.OptionsResult ∈
      [CorrResult.CORR_OK, CorrResult.CORR_INTERPOLATED, CorrResult.CORR_ROUND,
       CorrResult.CORR_EXIFWRITEFAIL])) :
    (correlateLoop files Stats.init []).2 = files.map (fun ph => ph.File) ∧
    (correlateLoop files Stats.init []).2.length = files.length ∧
    (∀ (st : Stats) (ph : PhotoFile), ph ∈ files →
      ∃ i, i < 8 ∧
        (countPhoto st ph.Result ph.OptionsResult).counters =
          st.counters.modify (fun c => c + 1) i) ∧
    (correlateLoop files Stats.init []).1.total = files.length := by
  have hp := correlateLoop_processed files Stats.init []
  rw [List.nil_append] at hp
  refine ⟨hp, by rw [hp, List.length_map], ?_, ?_⟩
  · intro st ph hph
    exact (countPhoto_one st ph.Result ph.OptionsResult (hwf ph hph)).1
  · rw [correlateLoop_total files Stats.init [] hwf]
    simp [Stats.total, Stats.init]

/-- Witness of C23: the two sample files, of which the second is too far from the
track. -/
theorem per_photo_isolation_witness :
    (correlateLoop samplePhotos Stats.init []).2 = samplePhotos.map (fun ph => ph.File) ∧
    (correlateLoop samplePhotos Stats.init []).2.length = samplePhotos.length ∧
    (∀ (st : Stats) (ph : PhotoFile), ph ∈ samplePhotos →
      ∃ i, i < 8 ∧
        (countPhoto st ph.Result ph.OptionsResult).counters =
          st.counters.modify (fun c => c + 1) i) ∧
    (correlateLoop samplePhotos Stats.init []).1.total = samplePhotos.length :=
  per_photo_isolation samplePhotos (by decide)

/-- A run of the loop on eight files, one of each result, among them a write failure in
second place: all eight are processed and every counter is 1. -/
theorem per_photo_isolation_example :
    correlateLoop
      [⟨"1.jpg", 1, 1, 1, true, CorrResult.CORR_OK⟩,
       ⟨"2.jpg", 1, 1, 1, true, CorrResult.CORR_EXIFWRITEFAIL⟩,
       ⟨"3.jpg", 1, 1, 1, false, CorrResult.CORR_NOEXIFINPUT⟩,
       ⟨"4.jpg", 1, 1, 1, true, CorrResult.CORR_INTERPOLATED⟩,
       ⟨"5.jpg", 1, 1, 1, false, CorrResult.CORR_TOOFAR⟩,
       ⟨"6.jpg", 1, 1, 1, true, CorrResult.CORR_ROUND⟩,
       ⟨"7.jpg", 1, 1, 1, false, CorrResult.CORR_GPSDATAEXISTS⟩,
       ⟨"8.jpg", 1, 1, 1, false, CorrResult.CORR_NOMATCH⟩] Stats.init [] =
      (⟨1, 1, 1, 1, 1, 1, 1, 1⟩,
       ["1.jpg", "2.jpg", "3.jpg", "4.jpg", "5.jpg", "6.jpg", "7.jpg", "8.jpg"]) := by
  decide

/-! ## Ranges of the modern encoding, termination of the reduction loop -/

/-- C28: for every `Number` and every integer `Decimals`, `ConvertToLatLongRational`
emits `0 ≤ Min ≤ 59` and `0 ≤ Sec < 60 * M` with
`M = 10 ^ clamp (Decimals - 3, 0, 9) ≥ 1`, so that the seconds value `Sec / M` is below
60 and the denominator is never zero. -/
theorem ConvertToLatLongRational_ranges (Number : ℚ) (Decimals : ℤ) :
    0 ≤ (ConvertToLatLongRational Number Decimals).min.num ∧
    (ConvertToLatLongRational Number Decimals).min.num ≤ 59 ∧
    0 ≤ (ConvertToLatLongRational Number Decimals).sec.num ∧
    (ConvertToLatLongRational Number Decimals).sec.num <
      60 * (ConvertToLatLongRational Number Decimals).sec.den ∧
    (ConvertToLatLongRational Number Decimals).sec.den =
      (10 : ℤ) ^ (max 0 (min (Decimals - 3) 9)).toNat ∧
    1 ≤ (ConvertToLatLongRational Number Decimals).sec.den ∧
    (ConvertToLatLongRational Number Decimals).sec.den ≠ 0 ∧
    ((ConvertToLatLongRational Number Decimals).sec.num : ℚ) /
      ((ConvertToLatLongRational Number Decimals).sec.den : ℚ) < 60 := by
  obtain ⟨-, hmin0, hsec0, -, -, hden⟩ := ConvertToLatLongRational_nonneg Number Decimals
  have hf0 : (0 : ℚ) ≤ |Number| - ((⌊|Number|⌋ : ℤ) : ℚ) := sub_nonneg.2 (Int.floor_le _)
  have hf1 : |Number| - ((⌊|Number|⌋ : ℤ) : ℚ) < 1 := by
    have := Int.lt_floor_add_one |Number|
    linarith
  have hg1 := Int.lt_floor_add_one ((|Number| - ((⌊|Number|⌋ : ℤ) : ℚ)) * 60)
  have hM : (0 : ℚ) < (10 : ℚ) ^ (max 0 (min (Decimals - 3) 9)).toNat := by positivity
  have hmin59 : (ConvertToLatLongRational Number Decimals).min.num ≤ 59 := by
    rw [ConvertToLatLongRational_eq]
    have hlt : ⌊(|Number| - ((⌊|Number|⌋ : ℤ) : ℚ)) * 60⌋ < 60 := by
      rw [Int.floor_lt]
      push_cast
      linarith
    show ⌊(|Number| - ((⌊|Number|⌋ : ℤ) : ℚ)) * 60⌋ ≤ 59
    omega
  have hsec : (ConvertToLatLongRational Number Decimals).sec.num <
      60 * (ConvertToLatLongRational Number Decimals).sec.den := by
    rw [ConvertToLatLongRational_eq]
    show ⌊((|Number| - ((⌊|Number|⌋ : ℤ) : ℚ)) * 60 -
        ((⌊(|Number| - ((⌊|Number|⌋ : ℤ) : ℚ)) * 60⌋ : ℤ) : ℚ)) * 60 *
          (10 : ℚ) ^ (max 0 (min (Decimals - 3) 9)).toNat⌋ <
        60 * (10 : ℤ) ^ (max 0 (min (Decimals - 3) 9)).toNat
    rw [Int.floor_lt]
    push_cast
    have hg : (|Number| - ((⌊|Number|⌋ : ℤ) : ℚ)) * 60 -
        ((⌊(|Number| - ((⌊|Number|⌋ : ℤ) : ℚ)) * 60⌋ : ℤ) : ℚ) < 1 := by linarith
    nlinarith
  have hdeneq : (ConvertToLatLongRational Number Decimals).sec.den =
      (10 : ℤ) ^ (max 0 (min (Decimals - 3) 9)).toNat := by
    rw [ConvertToLatLongRational_eq]
  have hdenq : (0 : ℚ) < ((ConvertToLatLongRational Number Decimals).sec.den : ℚ) := by
    exact_mod_cast hden
  refine ⟨hmin0, hmin59, hsec0, hsec, hdeneq, by omega, by omega, ?_⟩
  rw [div_lt_iff₀ hdenq]
  exact_mod_cast hsec

theorem halveLoop_mono (n : ℕ) : ∀ (f g : Fraction), halveLoop n f = some g →
    ∀ m, n ≤ m → halveLoop m f = some g := by
  induction n with
  | zero =>
    intro f g h m _
    cases hs : halveStep f with
    | none =>
      rw [halveLoop, hs] at h
      rw [halveLoop_of_break hs m]
      exact h
    | some f2 =>
      rw [halveLoop, hs] at h
      simp at h
  | succ n ih =>
    intro f g h m hm
    obtain ⟨k, rfl⟩ : ∃ k, m = k + 1 := ⟨m - 1, by omega⟩
    cases hs : halveStep f with
    | none =>
      rw [halveLoop, hs] at h
      rw [halveLoop_of_break hs (k + 1)]
      exact h
    | some f2 =>
      rw [halveLoop, hs] at h
      rw [halveLoop, hs]
      exact ih f2 g h k (by omega)

/-- Allowing the loop more halvings than it needs does not change what
`ConvertToRational` prints. -/
theorem ConvertToRational_mono (n : ℕ) (Number : ℚ) (Decimals : ℤ) (r : Rational)
    (h : ConvertToRational n Number Decimals = some r) (m : ℕ) (hm : n ≤ m) :
    ConvertToRational m Number Decimals = some r := by
  unfold ConvertToRational at h ⊢
  simp only at h ⊢
  cases hl : halveLoop n (simpleReduce
      { NumTemp := trunc Number * pow10 Decimals +
          trunc ((Number - trunc Number) * pow10 Decimals),
        DenTemp := pow10 Decimals }) with
  | none => rw [hl] at h; simp at h
  | some g =>
    rw [hl] at h
    rw [halveLoop_mono n _ g hl m hm]
    exact h

/-- C29: for every `Number ≥ 0` and every integer `Decimals ≥ 0`, the `while (1)` loop of
`ConvertToRational` exits after at most `Decimals` halvings: the function returns when
the loop is allowed `Decimals` of them, and gives the same result when allowed more;
with a zero numerator (`Number = 0`) it returns `0/1` without any halving. -/
theorem ConvertToRational_terminates (Number : ℚ) (Decimals : ℤ) (hN : 0 ≤ Number)
    (hD : 0 ≤ Decimals) :
    (∃ r : Rational, ConvertToRational Decimals.toNat Number Decimals = some r ∧
      ∀ fuel : ℕ, Decimals.toNat ≤ fuel → ConvertToRational fuel Number Decimals = some r) ∧
    ConvertToRational 0 0 Decimals = some ⟨0, 1⟩ := by
  constructor
  · obtain ⟨r, hr, -, -⟩ :=
      ConvertToRational_returns Number hN Decimals Decimals.toNat (le_refl _)
    exact ⟨r, hr, fun fuel hf => ConvertToRational_mono _ Number Decimals r hr fuel hf⟩
  · obtain ⟨d, rfl⟩ := Int.eq_ofNat_of_zero_le hD
    have h := ConvertToRational_of_dvd 0 (le_refl 0) d 0 (by simp)
    rw [h]
    simp

/-- Witness of C29: `Number = 25.12345`, `Decimals = 4`. -/
theorem ConvertToRational_terminates_witness :
    (∃ r : Rational, ConvertToRational (4 : ℤ).toNat (2512345 / 100000) 4 = some r ∧
      ∀ fuel : ℕ, (4 : ℤ).toNat ≤ fuel →
        ConvertToRational fuel (2512345 / 100000) 4 = some r) ∧
    ConvertToRational 0 0 4 = some ⟨0, 1⟩ :=
  ConvertToRational_terminates (2512345 / 100000) 4 (by norm_num) (by norm_num)

/-! ## The terminating entry of the track array -/

/-- Storing a track keeps the array one entry longer than `NumTracks`, with an all-zero
last entry. -/
theorem addTrack_sentinel (vars : MainVars) (trk : GPSTrack)
    (hlen : vars.Track.length = vars.NumTracks + 1) :
    (addTrack vars trk).NumTracks = vars.NumTracks + 1 ∧
    (addTrack vars trk).Track.length = (addTrack vars trk).NumTracks + 1 ∧
    (addTrack vars trk).Track[(addTrack vars trk).NumTracks]? = some GPSTrack.zero ∧
    (addTrack vars trk).Track[vars.NumTracks]? = some trk := by
  have h1 : ((vars.Track.set vars.NumTracks trk).take (vars.NumTracks + 1)).length =
      vars.NumTracks + 1 := by
    rw [List.length_take, List.length_set, hlen]
    simp
  refine ⟨rfl, ?_, ?_, ?_⟩
  · show ((vars.Track.set vars.NumTracks trk).take (vars.NumTracks + 1) ++
      [GPSTrack.zero]).length = vars.NumTracks + 1 + 1
    rw [List.length_append, h1]
    rfl
  · show ((vars.Track.set vars.NumTracks trk).take (vars.NumTracks + 1) ++
      [GPSTrack.zero])[vars.NumTracks + 1]? = some GPSTrack.zero
    rw [List.getElem?_append_right (by omega), h1]
    simp
  · show ((vars.Track.set vars.NumTracks trk).take (vars.NumTracks + 1) ++
      [GPSTrack.zero])[vars.NumTracks]? = some trk
    rw [List.getElem?_append_left (by omega), List.getElem?_take,
      if_pos (Nat.lt_succ_self _)]
    simp [List.getElem?_set, hlen]

/-- One option keeps the array one entry longer than `NumTracks` with an all-zero last
entry, and increments `NumTracks` exactly when it is `-g` or `-l`. -/
theorem main_switch_sentinel (rd : Readers) (vars vars2 : MainVars) (c : Opt)
    (h : main_switch rd vars c = Except.ok vars2)
    (hlen : vars.Track.length = vars.NumTracks + 1)
    (hzero : vars.Track[vars.NumTracks]? = some GPSTrack.zero) :
    vars2.NumTracks = vars.NumTracks + (if c.isTrack then 1 else 0) ∧
    vars2.Track.length = vars2.NumTracks + 1 ∧
    vars2.Track[vars2.NumTracks]? = some GPSTrack.zero := by
  cases c with
  | g optarg =>
    simp only [main_switch] at h
    cases hr : rd.ReadGPX optarg with
    | none => rw [hr] at h; simp at h
    | some trk =>
      rw [hr] at h
      simp only [Except.ok.injEq] at h
      subst h
      obtain ⟨a, b, c, -⟩ := addTrack_sentinel vars trk hlen
      exact ⟨by simp [Opt.isTrack, a], b, c⟩
  | l optarg =>
    simp only [main_switch] at h
    cases hp : rd.ParseLatLong optarg with
    | none => rw [hp] at h; simp at h
    | some LatLong =>
      rw [hp] at h
      simp only at h
      cases hm : rd.MakeTrackFromLatLong LatLong with
      | none => rw [hm] at h; simp at h
      | some trk =>
        rw [hm] at h
        simp only [Except.ok.injEq] at h
        subst h
        obtain ⟨a, b, c, -⟩ := addTrack_sentinel vars trk hlen
        exact ⟨by simp [Opt.isTrack, a], b, c⟩
  | h => simp [main_switch] at h
  | V => simp [main_switch] at h
  | unrecognised => simp [main_switch] at h
  | _ =>
    simp only [main_switch, Except.ok.injEq] at h
    subst h
    exact ⟨by simp [Opt.isTrack], hlen, hzero⟩

theorem main_options_sentinel (rd : Readers) (options : List Opt) :
    ∀ (vars vars2 : MainVars), main_options rd vars options = Except.ok vars2 →
      vars.Track.length = vars.NumTracks + 1 →
      vars.Track[vars.NumTracks]? = some GPSTrack.zero →
      vars2.NumTracks = vars.NumTracks + options.countP Opt.isTrack ∧
      vars2.Track.length = vars2.NumTracks + 1 ∧
      vars2.Track[vars2.NumTracks]? = some GPSTrack.zero := by
  induction options with
  | nil =>
    intro vars vars2 h hlen hzero
    simp only [main_options, Except.ok.injEq] at h
    subst h
    exact ⟨by simp, hlen, hzero⟩
  | cons c rest ih =>
    intro vars vars2 h hlen hzero
    rw [main_options] at h
    cases hs : main_switch rd vars c with
    | error status => rw [hs] at h; simp at h
    | ok v1 =>
      rw [hs] at h
      obtain ⟨a1, b1, c1⟩ := main_switch_sentinel rd vars v1 c hs hlen hzero
      obtain ⟨a2, b2, c2⟩ := ih v1 vars2 h b1 c1
      refine ⟨?_, b2, c2⟩
      rw [a2, a1, List.countP_cons]
      by_cases hc : c.isTrack = true
      · simp [hc]; omega
      · simp [hc]

theorem main_cleanup_eq (k : ℕ) : main_cleanup k = (List.range k).reverse := by
  induction k with
  | zero => rfl
  | succ k ih => rw [main_cleanup, ih, List.range_succ, List.reverse_append]; rfl

/-- C27: after any options that are read without an `exit`, of which `k` are `-g` or
`-l`, `NumTracks = k`, the array `Track` holds `k + 1` entries and entry `NumTracks` is
all-zero; the final cleanup passes exactly the entries `k - 1` down to `0` to
`FreeTrack`, and never the terminating entry `k`. -/
theorem track_array_sentinel (rd : Readers) (options : List Opt) (vars : MainVars)
    (hopt : main_options rd MainVars.init options = Except.ok vars) :
    vars.NumTracks = options.countP Opt.isTrack ∧
    vars.Track.length = vars.NumTracks + 1 ∧
    vars.Track[vars.NumTracks]? = some GPSTrack.zero ∧
    main_cleanup vars.NumTracks = (List.range vars.NumTracks).reverse ∧
    vars.NumTracks ∉ main_cleanup vars.NumTracks := by
  obtain ⟨h1, h2, h3⟩ := main_options_sentinel rd options MainVars.init vars hopt rfl rfl
  refine ⟨?_, h2, h3, main_cleanup_eq _, ?_⟩
  · rw [h1]
    simp [MainVars.init]
  · rw [main_cleanup_eq]
    simp

/-- Witness of C27: the command line `-g a.gpx -v -g b.gpx` with the sample readers. -/
theorem track_array_sentinel_witness :
    sampleVars.NumTracks = [Opt.g "a.gpx", Opt.v, Opt.g "b.gpx"].countP Opt.isTrack ∧
    sampleVars.Track.length = sampleVars.NumTracks + 1 ∧
    sampleVars.Track[sampleVars.NumTracks]? = some GPSTrack.zero ∧
    main_cleanup sampleVars.NumTracks = (List.range sampleVars.NumTracks).reverse ∧
    sampleVars.NumTracks ∉ main_cleanup sampleVars.NumTracks :=
  track_array_sentinel sampleReaders [Opt.g "a.gpx", Opt.v, Opt.g "b.gpx"] sampleVars rfl

/-- The cleanup after three tracks: entries 2, 1 and 0 are freed, in that order. -/
theorem main_cleanup_example : main_cleanup 3 = [2, 1, 0] := by
  decide


/-! ## `FixDatestamp` -/

/-- The length of a text is 0 exactly when the text is empty. -/
theorem string_length_eq_zero (s : String) : s.length = 0 ↔ s = "" := by
  constructor
  · intro h
    apply String.ext
    exact List.length_eq_zero.mp h
  · rintro rfl
    rfl

/-- `ReadGPSTimestamp` returns a text exactly when the file opens and has a capture
date; the text is that date. -/
theorem ReadGPSTimestamp_OriginalDateStamp (env : WriteEnv) (tags : GPSMetadata) :
    (ReadGPSTimestamp env tags).OriginalDateStamp =
      if env.opens = true ∧ tags.DateTimeOriginal ≠ "" then some tags.DateTimeOriginal
      else none := by
  have hlen := string_length_eq_zero tags.DateTimeOriginal
  unfold ReadGPSTimestamp
  cases hopen : env.opens
  · simp
  · by_cases hd : tags.DateTimeOriginal = ""
    · simp [hd]
    · have hd0 : tags.DateTimeOriginal.length ≠ 0 := fun h => hd (hlen.mp h)
      simp only [Bool.true_eq_false, if_false, hd0, true_and, ne_eq, hd, not_false_eq_true,
        if_true]
      split_ifs <;> rfl

/-- `ReadGPSTimestamp` leaves `*IncludesGPS` at 1 exactly when the file opens, has a
capture date, has a `GPSVersionID` and has three values in each of the two stamps. -/
theorem ReadGPSTimestamp_IncludesGPS (env : WriteEnv) (tags : GPSMetadata) :
    (ReadGPSTimestamp env tags).IncludesGPS ≠ 0 ↔
      (env.opens = true ∧ tags.DateTimeOriginal ≠ "") ∧
        (tags.GPSVersionID ≠ "" ∧ 3 ≤ tags.GPSTimeStamp.length ∧
          3 ≤ tags.GPSDateStamp.length) := by
  have hlen := string_length_eq_zero
  unfold ReadGPSTimestamp
  cases hopen : env.opens
  · simp
  · by_cases hd : tags.DateTimeOriginal = ""
    · simp [hd]
    · have hd0 : tags.DateTimeOriginal.length ≠ 0 := fun h => hd ((hlen _).mp h)
      by_cases hv : tags.GPSVersionID = ""
      · simp [hd0, hv]
      · have hv0 : tags.GPSVersionID.length ≠ 0 := fun h => hv ((hlen _).mp h)
        by_cases ht : tags.GPSTimeStamp.length < 3
        · simp [hd0, hv0, ht]
        · by_cases hs : tags.GPSDateStamp.length < 3
          · simp [hd0, hv0, ht, hs]
          · simp only [Bool.true_eq_false, if_false, hd0, hv0, ht, hs]
            simp only [ne_eq, one_ne_zero, not_false_eq_true, hd, hv, true_and, true_iff]
            omega


/-- With a capture date, a `GPSVersionID` and three values in each stamp,
`ReadGPSTimestamp` returns the date, sets `*IncludesGPS` to 1 and prints the stamps. -/
theorem ReadGPSTimestamp_of_GPS (env : WriteEnv) (tags : GPSMetadata)
    (hopen : env.opens = true) (hd : tags.DateTimeOriginal ≠ "")
    (hv : tags.GPSVersionID ≠ "") (ht : 3 ≤ tags.GPSTimeStamp.length)
    (hs : 3 ≤ tags.GPSDateStamp.length) :
    ReadGPSTimestamp env tags =
      { OriginalDateStamp := some tags.DateTimeOriginal, IncludesGPS := 1,
        DateStamp := printPadded 4 (firstOf tags.GPSDateStamp 0) ++ ":" ++
          printPadded 2 (firstOf tags.GPSDateStamp 1) ++ ":" ++
          printPadded 2 (firstOf tags.GPSDateStamp 2),
        TimeStamp := printPadded 2 (firstOf tags.GPSTimeStamp 0) ++ ":" ++
          printPadded 2 (firstOf tags.GPSTimeStamp 1) ++ ":" ++
          printPadded 2 (firstOf tags.GPSTimeStamp 2) } := by
  have hd0 : tags.DateTimeOriginal.length ≠ 0 :=
    fun h => hd ((string_length_eq_zero _).mp h)
  have hv0 : tags.GPSVersionID.length ≠ 0 := fun h => hv ((string_length_eq_zero _).mp h)
  have ht0 : ¬ tags.GPSTimeStamp.length < 3 := by omega
  have hs0 : ¬ tags.GPSDateStamp.length < 3 := by omega
  unfold ReadGPSTimestamp
  simp only [hopen, Bool.true_eq_false, if_false, hd0, hv0, ht0, hs0]

/-- The run of `FixDatestamp` on a file that opens. -/
theorem FixDatestamp_eq (env : WriteEnv) (zone : ℤ)
    (ConvertToUnixTime : String → ℤ → ℤ → ℤ) (File : FileState) (tags : GPSMetadata)
    (AdjustmentHours AdjustmentMinutes NoWriteExif : ℤ) :
    FixDatestamp env zone ConvertToUnixTime File tags AdjustmentHours AdjustmentMinutes
        NoWriteExif =
      if env.opens = true ∧ tags.DateTimeOriginal ≠ "" then
        if tags.GPSVersionID ≠ "" ∧ 3 ≤ tags.GPSTimeStamp.length ∧
            3 ≤ tags.GPSDateStamp.length then
          if ConvertToUnixTime tags.DateTimeOriginal AdjustmentHours AdjustmentMinutes ≠
              ConvertToUnixTime
                (printPadded 4 (firstOf tags.GPSDateStamp 0) ++ ":" ++
                  printPadded 2 (firstOf tags.GPSDateStamp 1) ++ ":" ++
                  printPadded 2 (firstOf tags.GPSDateStamp 2) ++ " " ++
                  (printPadded 2 (firstOf tags.GPSTimeStamp 0) ++ ":" ++
                    printPadded 2 (firstOf tags.GPSTimeStamp 1) ++ ":" ++
                    printPadded 2 (firstOf tags.GPSTimeStamp 2))) 0 0 then
            if NoWriteExif = 0 then
              { rc := 1,
                File := (WriteFixedDatestamp env zone File
                  (ConvertToUnixTime tags.DateTimeOriginal AdjustmentHours
                    AdjustmentMinutes)).2,
                invoked := true, message := FixMessage.WrongTimestamp }
            else { rc := 1, File := File, invoked := false,
                   message := FixMessage.WrongTimestamp }
          else { rc := 1, File := File, invoked := false,
                 message := FixMessage.TimestampIsOK }
        else { rc := 0, File := File, invoked := false, message := FixMessage.NoGPSData }
      else { rc := 0, File := File, invoked := false, message := FixMessage.NoExifData } := by
  by_cases hD : env.opens = true ∧ tags.DateTimeOriginal ≠ ""
  · by_cases hG : tags.GPSVersionID ≠ "" ∧ 3 ≤ tags.GPSTimeStamp.length ∧
        3 ≤ tags.GPSDateStamp.length
    · rw [if_pos hD, if_pos hG]
      unfold FixDatestamp
      rw [ReadGPSTimestamp_of_GPS env tags hD.1 hD.2 hG.1 hG.2.1 hG.2.2]
      have hw : (WriteFixedDatestamp env zone File
          (ConvertToUnixTime tags.DateTimeOriginal AdjustmentHours AdjustmentMinutes)).1 = 1 := by
        unfold WriteFixedDatestamp
        simp [hD.1]
      simp only [one_ne_zero, if_false, hw]
    · rw [if_pos hD, if_neg hG]
      have h0 : (ReadGPSTimestamp env tags).IncludesGPS = 0 := by
        by_contra h
        exact hG ((ReadGPSTimestamp_IncludesGPS env tags).mp h).2
      have h1 := ReadGPSTimestamp_OriginalDateStamp env tags
      rw [if_pos hD] at h1
      unfold FixDatestamp
      simp only [h1, h0, if_true]
  · rw [if_neg hD]
    have h1 := ReadGPSTimestamp_OriginalDateStamp env tags
    rw [if_neg hD] at h1
    unfold FixDatestamp
    simp only [h1]


/-- Counterexample to C26 as stated: a photo with a capture date, with a GPS time stamp
and a GPS date stamp of three values each but without `GPSVersionID`, whose capture time
converted with the adjustment of one hour differs from the recorded GPS time, with the
no-write flag clear. `WriteFixedDatestamp` is not called: `FixDatestamp` prints
`No GPS data`, leaves the file alone and returns 0. -/
theorem FixDatestamp_counterexample :
    (sampleFixTags "").DateTimeOriginal ≠ "" ∧
    (sampleFixTags "").GPSTimeStamp.length = 3 ∧
    (sampleFixTags "").GPSDateStamp.length = 3 ∧
    sampleConvertToUnixTime (sampleFixTags "").DateTimeOriginal 1 0 ≠
      sampleConvertToUnixTime "2005:02:01 10:00:00" 0 0 ∧
    FixDatestamp sampleWriteEnv 0 sampleConvertToUnixTime sampleFixFile (sampleFixTags "")
        1 0 0 =
      { rc := 0, File := sampleFixFile, invoked := false,
        message := FixMessage.NoGPSData } := by
  decide

/-- C26 (amended): `WriteFixedDatestamp` is invoked if and only if the file opens and has
an EXIF capture date, has a `GPSVersionID` tag and GPS time and date stamps of at least
three values each, the capture time converted with the given adjustment differs from the
recorded GPS time, and the no-write flag is clear. `FixDatestamp` returns 0, without
touching the file, when the capture date or the GPS data is missing; with no-write set a
wrong timestamp is reported while the file is left unchanged and 1 is returned. -/
theorem FixDatestamp_spec (env : WriteEnv) (zone : ℤ)
    (ConvertToUnixTime : String → ℤ → ℤ → ℤ) (File : FileState) (tags : GPSMetadata)
    (AdjustmentHours AdjustmentMinutes NoWriteExif : ℤ) :
    ((FixDatestamp env zone ConvertToUnixTime File tags AdjustmentHours AdjustmentMinutes
        NoWriteExif).invoked = true ↔
      (env.opens = true ∧ tags.DateTimeOriginal ≠ "") ∧
      (tags.GPSVersionID ≠ "" ∧ 3 ≤ tags.GPSTimeStamp.length ∧
        3 ≤ tags.GPSDateStamp.length) ∧
      ConvertToUnixTime tags.DateTimeOriginal AdjustmentHours AdjustmentMinutes ≠
        ConvertToUnixTime ((ReadGPSTimestamp env tags).DateStamp ++ " " ++
          (ReadGPSTimestamp env tags).TimeStamp) 0 0 ∧
      NoWriteExif = 0) ∧
    (¬ ((env.opens = true ∧ tags.DateTimeOriginal ≠ "") ∧
        (tags.GPSVersionID ≠ "" ∧ 3 ≤ tags.GPSTimeStamp.length ∧
          3 ≤ tags.GPSDateStamp.length)) →
      (FixDatestamp env zone ConvertToUnixTime File tags AdjustmentHours AdjustmentMinutes
        NoWriteExif).rc = 0 ∧
      (FixDatestamp env zone ConvertToUnixTime File tags AdjustmentHours AdjustmentMinutes
        NoWriteExif).File = File) ∧
    ((env.opens = true ∧ tags.DateTimeOriginal ≠ "") →
      (tags.GPSVersionID ≠ "" ∧ 3 ≤ tags.GPSTimeStamp.length ∧
        3 ≤ tags.GPSDateStamp.length) →
      ConvertToUnixTime tags.DateTimeOriginal AdjustmentHours AdjustmentMinutes ≠
        ConvertToUnixTime ((ReadGPSTimestamp env tags).DateStamp ++ " " ++
          (ReadGPSTimestamp env tags).TimeStamp) 0 0 →
      NoWriteExif ≠ 0 →
      (FixDatestamp env zone ConvertToUnixTime File tags AdjustmentHours AdjustmentMinutes
        NoWriteExif).message = FixMessage.WrongTimestamp ∧
      (FixDatestamp env zone ConvertToUnixTime File tags AdjustmentHours AdjustmentMinutes
        NoWriteExif).File = File ∧
      (FixDatestamp env zone ConvertToUnixTime File tags AdjustmentHours AdjustmentMinutes
        NoWriteExif).rc = 1) := by
  rw [FixDatestamp_eq]
  by_cases hD : env.opens = true ∧ tags.DateTimeOriginal ≠ ""
  · by_cases hG : tags.GPSVersionID ≠ "" ∧ 3 ≤ tags.GPSTimeStamp.length ∧
        3 ≤ tags.GPSDateStamp.length
    · rw [ReadGPSTimestamp_of_GPS env tags hD.1 hD.2 hG.1 hG.2.1 hG.2.2]
      rw [if_pos hD, if_pos hG]
      refine ⟨?_, fun h => absurd ⟨hD, hG⟩ h, ?_⟩
      · constructor
        · intro h
          refine ⟨hD, hG, ?_⟩
          split_ifs at h with hT hN
          exact ⟨hT, hN⟩
        · rintro ⟨_, _, hT, hN⟩
          rw [if_pos hT, if_pos hN]
      · intro _ _ hT hN
        rw [if_pos hT, if_neg hN]
        exact ⟨rfl, rfl, rfl⟩
    · rw [if_pos hD, if_neg hG]
      refine ⟨?_, fun _ => ⟨rfl, rfl⟩, fun _ h => absurd h hG⟩
      constructor
      · intro h
        simp at h
      · rintro ⟨_, h, _⟩
        exact absurd h hG
  · rw [if_neg hD]
    refine ⟨?_, fun _ => ⟨rfl, rfl⟩, fun h => absurd h hD⟩
    constructor
    · intro h
      simp at h
    · rintro ⟨h, _⟩
      exact absurd h hD

/-- Witness of C26: the sample photo with a `GPSVersionID`, the adjustment of one hour and
the no-write flag clear; `WriteFixedDatestamp` is invoked. -/
theorem FixDatestamp_spec_witness :
    (FixDatestamp sampleWriteEnv 0 sampleConvertToUnixTime sampleFixFile
      (sampleFixTags "2 2 0 0") 1 0 0).invoked = true :=
  (FixDatestamp_spec sampleWriteEnv 0 sampleConvertToUnixTime sampleFixFile
    (sampleFixTags "2 2 0 0") 1 0 0).1.mpr
    ⟨⟨rfl, by decide⟩, ⟨by decide, by decide, by decide⟩, by decide, rfl⟩

/-- The sample photo with a `GPSVersionID`: with the no-write flag clear the two stamps are
rewritten from the capture time and the modification time is put back; with the flag set
the file is left alone. -/
theorem FixDatestamp_example :
    FixDatestamp sampleWriteEnv 0 sampleConvertToUnixTime sampleFixFile
        (sampleFixTags "2 2 0 0") 1 0 0 =
      { rc := 1,
        File := { st_mtime := 100, st_atime := 600,
                  exifData := [{ key := "Exif.GPSInfo.GPSDateStamp", value := "2005/1 2/1 1/1" },
                               { key := "Exif.GPSInfo.GPSTimeStamp", value := "9/1 0/1 0/1" }] },
        invoked := true, message := FixMessage.WrongTimestamp } ∧
    FixDatestamp sampleWriteEnv 0 sampleConvertToUnixTime sampleFixFile
        (sampleFixTags "2 2 0 0") 1 0 1 =
      { rc := 1, File := sampleFixFile, invoked := false,
        message := FixMessage.WrongTimestamp } := by
  decide


/-! ## The matcher -/

/-- The scan passes every point before `time` and stops at the pair around `time`. -/
theorem findBracket_scan_between (time : ℤ) (prevPoint nextPoint : TrackPoint)
    (post : List TrackPoint) (hp : prevPoint.time < time) (hn : time < nextPoint.time) :
    ∀ (pre : List TrackPoint) (p : TrackPoint), (∀ q ∈ pre, q.time < time) →
      findBracket_scan time p (pre ++ prevPoint :: nextPoint :: post) =
        Bracket.between prevPoint nextPoint := by
  intro pre
  induction pre with
  | nil =>
    intro p _
    simp only [List.nil_append, findBracket_scan]
    rw [if_neg (by omega), if_neg (by omega), if_neg (by omega), if_pos hn]
  | cons q pre ih =>
    intro p hq
    have hq1 : q.time < time := hq q (List.mem_cons_self _ _)
    simp only [List.cons_append, findBracket_scan]
    rw [if_neg (by omega), if_neg (by omega)]
    exact ih q (fun r hr => hq r (List.mem_cons_of_mem _ hr))

/-- In a time-ordered store, `findBracket` answers with the consecutive pair that
surrounds `time`. -/
theorem findBracket_between (pre post : List TrackPoint) (prevPoint nextPoint : TrackPoint)
    (time : ℤ) (hord : TimeOrdered (pre ++ prevPoint :: nextPoint :: post))
    (hp : prevPoint.time < time) (hn : time < nextPoint.time) :
    findBracket (pre ++ prevPoint :: nextPoint :: post) time =
      Bracket.between prevPoint nextPoint := by
  have hpre : ∀ q ∈ pre, q.time < time := by
    intro q hq
    have h := (List.pairwise_append.mp hord).2.2 q hq prevPoint (List.mem_cons_self _ _)
    omega
  cases pre with
  | nil =>
    simp only [List.nil_append, findBracket]
    rw [if_neg (by omega), if_neg (by omega)]
    simp only [findBracket_scan]
    rw [if_neg (by omega), if_pos hn]
  | cons q pre =>
    have hq1 : q.time < time := hpre q (List.mem_cons_self _ _)
    simp only [List.cons_append, findBracket]
    rw [if_neg (by omega), if_neg (by omega)]
    exact findBracket_scan_between time prevPoint nextPoint post hp hn pre q
      (fun r hr => hpre r (List.mem_cons_of_mem _ hr))

/-- Past the last point the scan answers after-all with the last point. -/
theorem findBracket_scan_afterAll (time : ℤ) :
    ∀ (rest : List TrackPoint) (p : TrackPoint), (∀ q ∈ rest, q.time < time) →
      findBracket_scan time p rest =
        Bracket.afterAll ((p :: rest).getLast (List.cons_ne_nil _ _)) := by
  intro rest
  induction rest with
  | nil =>
    intro p _
    rfl
  | cons q rest ih =>
    intro p hq
    have hq1 : q.time < time := hq q (List.mem_cons_self _ _)
    simp only [findBracket_scan]
    rw [if_neg (by omega), if_neg (by omega), ih q (fun r hr => hq r (List.mem_cons_of_mem _ hr))]
    rw [List.getLast_cons (List.cons_ne_nil _ _)]

/-- In a time-ordered store no point is earlier than the first. -/
theorem TimeOrdered_head_le (store : List TrackPoint) (hne : store ≠ [])
    (hord : TimeOrdered store) : ∀ q ∈ store, (store.head hne).time ≤ q.time := by
  cases store with
  | nil => exact absurd rfl hne
  | cons first rest =>
    intro q hq
    rcases List.mem_cons.mp hq with h | h
    · rw [h]
      exact le_refl _
    · exact (List.pairwise_cons.mp hord).1 q h

/-- In a time-ordered store no point is later than the last. -/
theorem TimeOrdered_le_getLast (store : List TrackPoint) (hne : store ≠ [])
    (hord : TimeOrdered store) : ∀ q ∈ store, q.time ≤ (store.getLast hne).time := by
  intro q hq
  have hsplit : store = store.dropLast ++ [store.getLast hne] :=
    (List.dropLast_append_getLast hne).symm
  have hord2 : TimeOrdered (store.dropLast ++ [store.getLast hne]) := by
    rw [← hsplit]
    exact hord
  rw [hsplit] at hq
  rcases List.mem_append.mp hq with h | h
  · exact (List.pairwise_append.mp hord2).2.2 q h _ (List.mem_singleton_self _)
  · rw [List.mem_singleton.mp h]

/-- Before the first point `findBracket` answers before-all. -/
theorem findBracket_beforeAll (store : List TrackPoint) (hne : store ≠ []) (time : ℤ)
    (h : time < (store.head hne).time) :
    findBracket store time = Bracket.beforeAll (store.head hne) := by
  cases store with
  | nil => exact absurd rfl hne
  | cons first rest =>
    simp only [List.head_cons] at h
    simp only [findBracket, List.head_cons]
    rw [if_pos h]

/-- After the last point of a time-ordered store `findBracket` answers after-all. -/
theorem findBracket_afterAll (store : List TrackPoint) (hne : store ≠ [])
    (hord : TimeOrdered store) (time : ℤ) (h : (store.getLast hne).time < time) :
    findBracket store time = Bracket.afterAll (store.getLast hne) := by
  have hall : ∀ q ∈ store, q.time < time := fun q hq =>
    lt_of_le_of_lt (TimeOrdered_le_getLast store hne hord q hq) h
  cases store with
  | nil => exact absurd rfl hne
  | cons first rest =>
    have h1 : first.time < time := hall first (List.mem_cons_self _ _)
    simp only [findBracket]
    rw [if_neg (by omega), if_neg (by omega)]
    exact findBracket_scan_afterAll time rest first
      (fun r hr => hall r (List.mem_cons_of_mem _ hr))

/-- C24: in a time-ordered store, for consecutive points `prevPoint`, `nextPoint` of the
same segment and a time strictly between their timestamps, with interpolation enabled,
the outcome is `Interpolated`, and latitude, longitude and altitude (where both points
carry one) are `prev.value + ((t - prev.time) / (next.time - prev.time)) *
(next.value - prev.value)`. -/
theorem Matcher_interpolation (options : CorrelationOptions) (pre post : List TrackPoint)
    (prevPoint nextPoint : TrackPoint) (t : ℤ)
    (hord : TimeOrdered (pre ++ prevPoint :: nextPoint :: post))
    (hseg : nextPoint.segmentStart = false) (hp : prevPoint.time < t)
    (hn : t < nextPoint.time) (hint : options.interpolate = true) :
    ∃ fix : GeoFix,
      Matcher options (pre ++ prevPoint :: nextPoint :: post) t =
        (CorrelationOutcome.Interpolated, some fix) ∧
      fix.lat = prevPoint.lat +
        (((t : ℚ) - prevPoint.time) / ((nextPoint.time : ℚ) - prevPoint.time)) *
          (nextPoint.lat - prevPoint.lat) ∧
      fix.long = prevPoint.long +
        (((t : ℚ) - prevPoint.time) / ((nextPoint.time : ℚ) - prevPoint.time)) *
          (nextPoint.long - prevPoint.long) ∧
      (∀ a b : ℚ, prevPoint.alt = some a → nextPoint.alt = some b →
        fix.alt = some (a +
          (((t : ℚ) - prevPoint.time) / ((nextPoint.time : ℚ) - prevPoint.time)) * (b - a))) ∧
      ((prevPoint.alt = none ∨ nextPoint.alt = none) → fix.alt = none) := by
  refine ⟨interpolate prevPoint nextPoint t, ?_, ?_, ?_, ?_, ?_⟩
  · unfold Matcher
    rw [findBracket_between pre post prevPoint nextPoint t hord hp hn]
    simp [hint, hseg]
  · simp [interpolate, blend]
  · simp [interpolate, blend]
  · intro a b ha hb
    simp [interpolate, blend, ha, hb]
  · rintro (h | h)
    · simp [interpolate, h]
    · cases hpa : prevPoint.alt <;> simp [interpolate, h, hpa]

/-- Witness of C24: `prev = (t=0, lat=10)`, `next = (t=100, lat=20)`, query `t = 25`: the
outcome is `Interpolated` with latitude 12.5. -/
theorem Matcher_interpolation_witness :
    ∃ fix : GeoFix,
      Matcher sampleOptions sampleStore 25 = (CorrelationOutcome.Interpolated, some fix) ∧
      fix.lat = 25 / 2 ∧ fix.long = 35 ∧ fix.alt = some 225 := by
  obtain ⟨fix, hm, hlat, hlong, halt, _⟩ := Matcher_interpolation sampleOptions [] []
    { lat := 10, long := 30, alt := some 200, time := 0, segmentStart := true }
    { lat := 20, long := 50, alt := some 300, time := 100, segmentStart := false } 25
    (by decide) rfl (by decide) (by decide) rfl
  refine ⟨fix, hm, ?_, ?_, ?_⟩
  · rw [hlat]
    norm_num
  · rw [hlong]
    norm_num
  · rw [halt 200 300 rfl rfl]
    norm_num

/-- C25: for a time-ordered store with data and a query time outside its overall time
span, the nearest point is the endpoint on that side; when the distance to it is less
than `FeatherTime` the outcome is `Rounded` and the fix is that endpoint, and when it is
more than `FeatherTime` the outcome is `TooFar` and there is no fix. -/
theorem Matcher_feather (options : CorrelationOptions) (store : List TrackPoint)
    (t : ℤ) (hne : store ≠ []) (hord : TimeOrdered store)
    (hout : t < (store.head hne).time ∨ (store.getLast hne).time < t) :
    (∀ q ∈ store,
      |t - (if t < (store.head hne).time then store.head hne else store.getLast hne).time| ≤
        |t - q.time|) ∧
    (|t - (if t < (store.head hne).time then store.head hne else store.getLast hne).time| <
        options.FeatherTime →
      Matcher options store t =
        (CorrelationOutcome.Rounded, some (GeoFix.ofPoint
          (if t < (store.head hne).time then store.head hne else store.getLast hne)))) ∧
    (options.FeatherTime <
        |t - (if t < (store.head hne).time then store.head hne else store.getLast hne).time| →
      Matcher options store t = (CorrelationOutcome.TooFar, none)) := by
  by_cases hb : t < (store.head hne).time
  · simp only [if_pos hb]
    have hfb := findBracket_beforeAll store hne t hb
    refine ⟨?_, ?_, ?_⟩
    · intro q hq
      have h1 := TimeOrdered_head_le store hne hord q hq
      rw [abs_of_neg (by omega), abs_of_neg (by omega)]
      omega
    · intro h
      unfold Matcher
      rw [hfb]
      simp only [featherTest]
      rw [if_neg (by omega)]
    · intro h
      unfold Matcher
      rw [hfb]
      simp only [featherTest]
      rw [if_pos h]
  · have ha : (store.getLast hne).time < t := by
      rcases hout with h | h
      · exact absurd h hb
      · exact h
    simp only [if_neg hb]
    have hfa := findBracket_afterAll store hne hord t ha
    refine ⟨?_, ?_, ?_⟩
    · intro q hq
      have h1 := TimeOrdered_le_getLast store hne hord q hq
      rw [abs_of_pos (by omega), abs_of_pos (by omega)]
      omega
    · intro h
      unfold Matcher
      rw [hfa]
      simp only [featherTest]
      rw [if_neg (by omega)]
    · intro h
      unfold Matcher
      rw [hfa]
      simp only [featherTest]
      rw [if_pos h]

/-- Witness of C25: last point at `t = 1000`, `FeatherTime = 60`: `t = 1050` is `Rounded`
to the last point and `t = 1100` is `TooFar`. -/
theorem Matcher_feather_witness :
    Matcher sampleOptions sampleStoreLate 1050 =
      (CorrelationOutcome.Rounded,
        some { lat := 20, long := 50, alt := none, time := 1000 }) ∧
    Matcher sampleOptions sampleStoreLate 1100 = (CorrelationOutcome.TooFar, none) :=
  ⟨(Matcher_feather sampleOptions sampleStoreLate 1050 (List.cons_ne_nil _ _) (by decide)
      (Or.inr (by decide))).2.1 (by decide),
   (Matcher_feather sampleOptions sampleStoreLate 1100 (List.cons_ne_nil _ _) (by decide)
      (Or.inr (by decide))).2.2 (by decide)⟩


/-! ## The encoders on IEEE doubles -/

/-- Rounding to the nearest integer moves a number by at most one half. -/
theorem roundHalfEven_error (q : ℚ) : |q - (roundHalfEven q : ℚ)| ≤ 1 / 2 := by
  have hlo := Int.floor_le q
  have hhi := Int.lt_floor_add_one q
  unfold roundHalfEven
  rw [abs_le]
  split_ifs <;> push_cast <;> constructor <;> linarith

/-- The value of `roundDouble q` is within half a unit in the last place of `q`. -/
theorem roundDouble_error (q : ℚ) :
    |q - roundDouble q| ≤ (2 : ℚ) ^ ulpExponent q / 2 := by
  have hp : (0 : ℚ) < (2 : ℚ) ^ ulpExponent q := zpow_pos (by norm_num) _
  have h := roundHalfEven_error (q / (2 : ℚ) ^ ulpExponent q)
  have heq : q - roundDouble q =
      (q / (2 : ℚ) ^ ulpExponent q -
        (roundHalfEven (q / (2 : ℚ) ^ ulpExponent q) : ℚ)) * (2 : ℚ) ^ ulpExponent q := by
    unfold roundDouble
    field_simp
    ring
  rw [heq, abs_mul, abs_of_pos hp]
  calc |q / (2 : ℚ) ^ ulpExponent q -
        (roundHalfEven (q / (2 : ℚ) ^ ulpExponent q) : ℚ)| * (2 : ℚ) ^ ulpExponent q
      ≤ 1 / 2 * (2 : ℚ) ^ ulpExponent q := mul_le_mul_of_nonneg_right h hp.le
    _ = (2 : ℚ) ^ ulpExponent q / 2 := by ring


/-- The halving count is the binary logarithm, rounded down. -/
theorem log2Floor_spec : ∀ (fuel n : ℕ), n ≤ fuel → 0 < n →
    2 ^ log2Floor fuel n ≤ n ∧ n < 2 ^ (log2Floor fuel n + 1) := by
  intro fuel
  induction fuel with
  | zero =>
    intro n h1 h2
    omega
  | succ fuel ih =>
    intro n h1 h2
    unfold log2Floor
    by_cases hn : n < 2
    · rw [if_pos hn]
      have : n = 1 := by omega
      subst this
      norm_num
    · rw [if_neg hn]
      obtain ⟨ha, hb⟩ := ih (n / 2) (by omega) (by omega)
      rw [pow_succ] at hb ⊢
      rw [pow_succ]
      constructor <;> omega

/-- The magnitude of a rational number is the quotient of the magnitude of its numerator
by its denominator. -/
theorem abs_eq_natAbs_div (q : ℚ) : |q| = (q.num.natAbs : ℚ) / (q.den : ℚ) := by
  have hd : (0 : ℚ) < (q.den : ℚ) := by exact_mod_cast q.den_pos
  conv_lhs => rw [← Rat.num_div_den q]
  rw [abs_div, abs_of_pos hd, Nat.cast_natAbs, Int.cast_abs]

/-- The binary exponent brackets the magnitude: `2 ^ e ≤ |q| < 2 ^ (e + 1)`. -/
theorem exponentOf_spec (q : ℚ) (hq : q ≠ 0) :
    (2 : ℚ) ^ exponentOf q ≤ |q| ∧ |q| < (2 : ℚ) ^ (exponentOf q + 1) := by
  have hd : 0 < q.den := q.den_pos
  have hdq : (0 : ℚ) < (q.den : ℚ) := by exact_mod_cast hd
  have hn : 0 < q.num.natAbs := Int.natAbs_pos.2 (Rat.num_ne_zero.2 hq)
  rw [abs_eq_natAbs_div]
  unfold exponentOf
  by_cases h : q.den ≤ q.num.natAbs
  · rw [if_pos h]
    have hm : 0 < q.num.natAbs / q.den := Nat.div_pos h hd
    obtain ⟨ha, hb⟩ := log2Floor_spec _ _ (le_refl _) hm
    generalize log2Floor (q.num.natAbs / q.den) (q.num.natAbs / q.den) = k at ha hb
    have h1 : 2 ^ k * q.den ≤ q.num.natAbs :=
      le_trans (Nat.mul_le_mul_right _ ha) (Nat.div_mul_le_self _ _)
    have h2 : q.num.natAbs < 2 ^ (k + 1) * q.den := by
      exact Nat.lt_mul_of_div_lt hb hd
    constructor
    · rw [le_div_iff₀ hdq, zpow_natCast]
      exact_mod_cast h1
    · rw [div_lt_iff₀ hdq]
      have : ((k : ℤ) + 1) = ((k + 1 : ℕ) : ℤ) := by push_cast; rfl
      rw [this, zpow_natCast]
      exact_mod_cast h2
  · rw [if_neg h]
    have hlt : q.num.natAbs < q.den := Nat.lt_of_not_le h
    have hm : 0 < (q.den - 1) / q.num.natAbs := Nat.div_pos (by omega) hn
    obtain ⟨ha, hb⟩ := log2Floor_spec _ _ (le_refl _) hm
    generalize log2Floor ((q.den - 1) / q.num.natAbs) ((q.den - 1) / q.num.natAbs) = k
      at ha hb
    have h1 : q.num.natAbs * 2 ^ k < q.den := by
      have : 2 ^ k * q.num.natAbs ≤ q.den - 1 :=
        le_trans (Nat.mul_le_mul_right _ ha) (Nat.div_mul_le_self _ _)
      rw [Nat.mul_comm] at this
      omega
    have h2 : q.den ≤ q.num.natAbs * 2 ^ (k + 1) := by
      have := Nat.lt_mul_of_div_lt hb hn
      rw [Nat.mul_comm] at this
      omega
    have hpk : (0 : ℚ) < (2 : ℚ) ^ k := by positivity
    have hpk1 : (0 : ℚ) < (2 : ℚ) ^ (k + 1) := by positivity
    have e1 : (2 : ℚ) ^ (Int.negSucc k) = 1 / (2 : ℚ) ^ (k + 1) := by
      rw [zpow_negSucc, one_div]
    have e2 : (2 : ℚ) ^ (Int.negSucc k + 1) = 1 / (2 : ℚ) ^ k := by
      have : Int.negSucc k + 1 = -(k : ℤ) := by
        rw [Int.negSucc_eq]
        ring
      rw [this, zpow_neg, zpow_natCast, one_div]
    rw [e1, e2]
    constructor
    · rw [div_le_div_iff₀ hpk1 hdq]
      have : ((q.den : ℕ) : ℚ) ≤ ((q.num.natAbs * 2 ^ (k + 1) : ℕ) : ℚ) := by
        exact_mod_cast h2
      push_cast at this
      linarith
    · rw [div_lt_div_iff₀ hdq hpk]
      have : ((q.num.natAbs * 2 ^ k : ℕ) : ℚ) < ((q.den : ℕ) : ℚ) := by
        exact_mod_cast h1
      push_cast at this
      linarith

/-- The value of `roundDouble q` is a `double`: an integer of at most 53 bits times a
power of two that is not below `2 ^ (-1074)`; and when `|q|` is at least `2 ^ (-1022)` the
power of two is the one for 53 significant bits of `q`. -/
theorem roundDouble_isDouble (q : ℚ) :
    (∃ m : ℤ, roundDouble q = (m : ℚ) * (2 : ℚ) ^ ulpExponent q ∧ |m| ≤ 2 ^ 53) ∧
    -1074 ≤ ulpExponent q ∧
    ((2 : ℚ) ^ (-1022 : ℤ) ≤ |q| →
      (2 : ℚ) ^ (ulpExponent q + 52) ≤ |q| ∧ |q| < (2 : ℚ) ^ (ulpExponent q + 53)) := by
  have hp : (0 : ℚ) < (2 : ℚ) ^ ulpExponent q := zpow_pos (by norm_num) _
  have hupper : |q| < (2 : ℚ) ^ (ulpExponent q + 53) := by
    have hle : exponentOf q + 1 ≤ ulpExponent q + 53 := by
      have : exponentOf q - 52 ≤ ulpExponent q := le_max_left _ _
      omega
    have hpow : (2 : ℚ) ^ (exponentOf q + 1) ≤ (2 : ℚ) ^ (ulpExponent q + 53) :=
      zpow_le_zpow_right₀ (by norm_num) hle
    by_cases hq : q = 0
    · rw [hq, abs_zero]
      exact zpow_pos (by norm_num) _
    · exact lt_of_lt_of_le (exponentOf_spec q hq).2 hpow
  refine ⟨⟨roundHalfEven (q / (2 : ℚ) ^ ulpExponent q), rfl, ?_⟩, le_max_right _ _, ?_⟩
  · have hsplit : (2 : ℚ) ^ (ulpExponent q + 53) = (2 : ℚ) ^ ulpExponent q * 2 ^ 53 := by
      rw [zpow_add₀ (by norm_num)]
      norm_num
    have hq : |q / (2 : ℚ) ^ ulpExponent q| < 2 ^ 53 := by
      rw [abs_div, abs_of_pos hp, div_lt_iff₀ hp]
      calc |q| < (2 : ℚ) ^ (ulpExponent q + 53) := hupper
        _ = 2 ^ 53 * (2 : ℚ) ^ ulpExponent q := by rw [hsplit]; ring
    have herr := roundHalfEven_error (q / (2 : ℚ) ^ ulpExponent q)
    have hm : |((roundHalfEven (q / (2 : ℚ) ^ ulpExponent q) : ℤ) : ℚ)| < 2 ^ 53 + 1 := by
      have h1 := abs_sub_abs_le_abs_sub
        ((roundHalfEven (q / (2 : ℚ) ^ ulpExponent q) : ℤ) : ℚ) (q / (2 : ℚ) ^ ulpExponent q)
      rw [abs_sub_comm] at h1
      linarith
    have hm2 : |roundHalfEven (q / (2 : ℚ) ^ ulpExponent q)| < 2 ^ 53 + 1 := by
      have : ((|roundHalfEven (q / (2 : ℚ) ^ ulpExponent q)| : ℤ) : ℚ) <
          ((2 ^ 53 + 1 : ℤ) : ℚ) := by
        rw [Int.cast_abs]
        calc |((roundHalfEven (q / (2 : ℚ) ^ ulpExponent q) : ℤ) : ℚ)| < 2 ^ 53 + 1 := hm
          _ = ((2 ^ 53 + 1 : ℤ) : ℚ) := by norm_num
      exact_mod_cast this
    omega
  · intro hnorm
    refine ⟨?_, hupper⟩
    have hq : q ≠ 0 := by
      rintro rfl
      rw [abs_zero] at hnorm
      exact absurd hnorm (not_le.2 (zpow_pos (by norm_num) _))
    obtain ⟨hlo, hhi⟩ := exponentOf_spec q hq
    have hexp : -1022 ≤ exponentOf q := by
      by_contra hcon
      have h1 : exponentOf q + 1 ≤ -1022 := by omega
      have h2 : (2 : ℚ) ^ (exponentOf q + 1) ≤ (2 : ℚ) ^ (-1022 : ℤ) :=
        zpow_le_zpow_right₀ (by norm_num) h1
      linarith
    have hulp : ulpExponent q = exponentOf q - 52 := by
      unfold ulpExponent
      exact max_eq_left (by omega)
    rw [hulp]
    have : exponentOf q - 52 + 52 = exponentOf q := by ring
    rw [this]
    exact hlo


/-- C12, where it fails: for every coordinate `x` whose seconds part is at least 3 and
every `Decimals ≥ 12`, the encoder treats `x` and `-x` alike, and the number that
`ConvertToLatLongRational` converts to the `int Sec` is at least `2 ^ 31`, more than an
`int` holds: the numerator that is printed is then not the non-negative number computed
(the conversion is undefined in C; on x86-64 it gives `INT_MIN`). -/
theorem encoders_sign_int_overflow (x : ℚ) (Decimals : ℤ) (hD : 12 ≤ Decimals)
    (hs : 3 ≤ ((|x| - ((⌊|x|⌋ : ℤ) : ℚ)) * 60 -
      ((⌊(|x| - ((⌊|x|⌋ : ℤ) : ℚ)) * 60⌋ : ℤ) : ℚ)) * 60) :
    ConvertToLatLongRational x Decimals = ConvertToLatLongRational (-x) Decimals ∧
    (ConvertToLatLongRational (-x) Decimals).sec.den = 10 ^ 9 ∧
    INT_MAX_plus_one ≤ (ConvertToLatLongRational x Decimals).sec.num ∧
    INT_MAX_plus_one ≤ (ConvertToLatLongRational (-x) Decimals).sec.num := by
  have hexp : (max 0 (min (Decimals - 3) 9)).toNat = 9 := by
    have h1 : min (Decimals - 3) 9 = 9 := min_eq_right (by omega)
    rw [h1]
    rfl
  have hsym : ConvertToLatLongRational x Decimals = ConvertToLatLongRational (-x) Decimals := by
    rw [ConvertToLatLongRational_eq, ConvertToLatLongRational_eq, abs_neg]
  have hnum : INT_MAX_plus_one ≤ (ConvertToLatLongRational x Decimals).sec.num := by
    rw [ConvertToLatLongRational_eq]
    show INT_MAX_plus_one ≤ ⌊_⌋
    rw [hexp, Int.le_floor]
    have hI : ((INT_MAX_plus_one : ℤ) : ℚ) ≤ 3 * 10 ^ 9 := by
      norm_num [INT_MAX_plus_one]
    calc ((INT_MAX_plus_one : ℤ) : ℚ) ≤ 3 * 10 ^ 9 := hI
      _ ≤ ((|x| - ((⌊|x|⌋ : ℤ) : ℚ)) * 60 -
            ((⌊(|x| - ((⌊|x|⌋ : ℤ) : ℚ)) * 60⌋ : ℤ) : ℚ)) * 60 * 10 ^ 9 :=
          mul_le_mul_of_nonneg_right hs (by norm_num)
  refine ⟨hsym, ?_, hnum, ?_⟩
  · rw [ConvertToLatLongRational_eq]
    show (10 : ℤ) ^ (max 0 (min (Decimals - 3) 9)).toNat = 10 ^ 9
    rw [hexp]
  · rw [← hsym]
    exact hnum

/-- Instance of the overflow of C12: the coordinates `0.01` and `-0.01` with
`Decimals = 12`, whose seconds part is 36; the number converted to `int Sec` is
`36000000000`. -/
theorem encoders_sign_int_overflow_witness :
    ConvertToLatLongRational (1 / 100) 12 = ConvertToLatLongRational (-(1 / 100)) 12 ∧
    (ConvertToLatLongRational (-(1 / 100)) 12).sec.den = 10 ^ 9 ∧
    INT_MAX_plus_one ≤ (ConvertToLatLongRational (1 / 100) 12).sec.num ∧
    INT_MAX_plus_one ≤ (ConvertToLatLongRational (-(1 / 100)) 12).sec.num :=
  encoders_sign_int_overflow (1 / 100) 12 (by norm_num) (by
    rw [abs_of_nonneg (by norm_num : (0 : ℚ) ≤ 1 / 100)]
    norm_num)


/-! ## The hemisphere letters and the value read back -/

/-- Rounding to a `double` keeps a number that is not negative from becoming negative. -/
theorem roundDouble_nonneg {q : ℚ} (hq : 0 ≤ q) : 0 ≤ roundDouble q := by
  have hp : (0 : ℚ) < (2 : ℚ) ^ ulpExponent q := zpow_pos (by norm_num) _
  have hdiv : 0 ≤ q / (2 : ℚ) ^ ulpExponent q := div_nonneg hq hp.le
  have hfl : 0 ≤ ⌊q / (2 : ℚ) ^ ulpExponent q⌋ := Int.floor_nonneg.2 hdiv
  have hr : 0 ≤ roundHalfEven (q / (2 : ℚ) ^ ulpExponent q) := by
    unfold roundHalfEven
    split_ifs <;> omega
  unfold roundDouble
  exact mul_nonneg (by exact_mod_cast hr) hp.le

/-- The magnitude that the reader computes from fractions that are not negative is not
negative, on exact numbers and on doubles. -/
theorem ReadExifData_magnitude_nonneg (v : DegMinSec) (h1 : 0 ≤ v.deg.num)
    (h2 : 0 < v.deg.den) (h3 : 0 ≤ v.min.num) (h4 : 0 < v.min.den) (h5 : 0 ≤ v.sec.num)
    (h6 : 0 < v.sec.den) :
    0 ≤ ReadExifData_magnitude v ∧ 0 ≤ ReadExifData_magnitude_double v := by
  have q1 : (0 : ℚ) ≤ (v.deg.num : ℚ) / (v.deg.den : ℚ) :=
    div_nonneg (by exact_mod_cast h1) (by exact_mod_cast h2.le)
  have q2 : (0 : ℚ) ≤ (v.min.num : ℚ) / (v.min.den : ℚ) :=
    div_nonneg (by exact_mod_cast h3) (by exact_mod_cast h4.le)
  have q3 : (0 : ℚ) ≤ (v.sec.num : ℚ) / (v.sec.den : ℚ) :=
    div_nonneg (by exact_mod_cast h5) (by exact_mod_cast h6.le)
  constructor
  · unfold ReadExifData_magnitude
    have t2 := div_nonneg q2 (by norm_num : (0 : ℚ) ≤ 60)
    have t3 := div_nonneg q3 (by norm_num : (0 : ℚ) ≤ 3600)
    show 0 ≤ (v.deg.num : ℚ) / (v.deg.den : ℚ) + (v.min.num : ℚ) / (v.min.den : ℚ) / 60 +
      (v.sec.num : ℚ) / (v.sec.den : ℚ) / 3600
    linarith
  · unfold ReadExifData_magnitude_double
    have r1 := roundDouble_nonneg q1
    have r2 := roundDouble_nonneg (div_nonneg (roundDouble_nonneg q2)
      (by norm_num : (0 : ℚ) ≤ 60))
    have r3 := roundDouble_nonneg (div_nonneg (roundDouble_nonneg q3)
      (by norm_num : (0 : ℚ) ≤ 3600))
    exact roundDouble_nonneg (add_nonneg (roundDouble_nonneg (add_nonneg r1 r2)) r3)

/-- A magnitude that is not negative, negated exactly when `x < 0`, is never of the sign
opposite to `x`. -/
theorem mul_signed_nonneg (x m : ℚ) (hm : 0 ≤ m) : 0 ≤ x * (if x < 0 then -m else m) := by
  by_cases hx : x < 0
  · rw [if_pos hx]
    nlinarith
  · rw [if_neg hx]
    exact mul_nonneg (not_lt.1 hx) hm

/-- C13: `WriteGPSData` writes latitude reference `"S"` exactly when `Lat < 0` (else
`"N"`) and longitude reference `"W"` exactly when `Long < 0` (else `"E"`); `ReadExifData`
computes `deg + min/60 + sec/3600` from the three fractions of a tag and negates it
exactly on `"S"` / `"W"` (on exact numbers, and with every operation rounded on doubles);
hence the value read back is `sign x` times `deg + min/60 + sec/3600` of the written
triple and is never of the opposite sign to `x`. The sign does not depend on how the
triple was computed: with the letter written for `x`, any triple of fractions that are not
negative is read back with a sign that is not opposite to that of `x`, on exact numbers
and on doubles. -/
theorem hemisphere_round_trip (fuel : ℕ) (Point : GPSPoint) (DegMinSecs : ℤ) (hf : 3 ≤ fuel) :
    ∃ t : GPSTags, WriteGPSData fuel Point DegMinSecs = some t ∧
      ((t.GPSLatitudeRef = "S" ↔ Point.Lat < 0) ∧
        (t.GPSLatitudeRef = "N" ↔ ¬ Point.Lat < 0)) ∧
      ((t.GPSLongitudeRef = "W" ↔ Point.Long < 0) ∧
        (t.GPSLongitudeRef = "E" ↔ ¬ Point.Long < 0)) ∧
      (∀ (v : DegMinSec) (ref : String),
        ReadExifData_Lat v ref =
          (if ref = "S" then
            -((v.deg.num : ℚ) / (v.deg.den : ℚ) +
            ((v.min.num : ℚ) / (v.min.den : ℚ)) / 60 +
            ((v.sec.num : ℚ) / (v.sec.den : ℚ)) / 3600)
          else
            ((v.deg.num : ℚ) / (v.deg.den : ℚ) +
            ((v.min.num : ℚ) / (v.min.den : ℚ)) / 60 +
            ((v.sec.num : ℚ) / (v.sec.den : ℚ)) / 3600)) ∧
        ReadExifData_Long v ref =
          (if ref = "W" then
            -((v.deg.num : ℚ) / (v.deg.den : ℚ) +
            ((v.min.num : ℚ) / (v.min.den : ℚ)) / 60 +
            ((v.sec.num : ℚ) / (v.sec.den : ℚ)) / 3600)
          else
            ((v.deg.num : ℚ) / (v.deg.den : ℚ) +
            ((v.min.num : ℚ) / (v.min.den : ℚ)) / 60 +
            ((v.sec.num : ℚ) / (v.sec.den : ℚ)) / 3600))) ∧
      (ReadExifData_Lat t.GPSLatitude t.GPSLatitudeRef =
          ((SignType.sign Point.Lat : SignType) : ℚ) *
            ((t.GPSLatitude.deg.num : ℚ) / (t.GPSLatitude.deg.den : ℚ) +
            ((t.GPSLatitude.min.num : ℚ) / (t.GPSLatitude.min.den : ℚ)) / 60 +
            ((t.GPSLatitude.sec.num : ℚ) / (t.GPSLatitude.sec.den : ℚ)) / 3600) ∧
        0 ≤ Point.Lat * ReadExifData_Lat t.GPSLatitude t.GPSLatitudeRef) ∧
      (ReadExifData_Long t.GPSLongitude t.GPSLongitudeRef =
          ((SignType.sign Point.Long : SignType) : ℚ) *
            ((t.GPSLongitude.deg.num : ℚ) / (t.GPSLongitude.deg.den : ℚ) +
            ((t.GPSLongitude.min.num : ℚ) / (t.GPSLongitude.min.den : ℚ)) / 60 +
            ((t.GPSLongitude.sec.num : ℚ) / (t.GPSLongitude.sec.den : ℚ)) / 3600) ∧
        0 ≤ Point.Long * ReadExifData_Long t.GPSLongitude t.GPSLongitudeRef) ∧
      (∀ (v : DegMinSec) (ref : String),
        ReadExifData_Lat_double v ref =
          (if ref = "S" then
            -roundDouble
            (roundDouble
              (roundDouble ((v.deg.num : ℚ) / (v.deg.den : ℚ)) +
                roundDouble (roundDouble ((v.min.num : ℚ) / (v.min.den : ℚ)) / 60)) +
              roundDouble (roundDouble ((v.sec.num : ℚ) / (v.sec.den : ℚ)) / 3600))
          else
            roundDouble
            (roundDouble
              (roundDouble ((v.deg.num : ℚ) / (v.deg.den : ℚ)) +
                roundDouble (roundDouble ((v.min.num : ℚ) / (v.min.den : ℚ)) / 60)) +
              roundDouble (roundDouble ((v.sec.num : ℚ) / (v.sec.den : ℚ)) / 3600))) ∧
        ReadExifData_Long_double v ref =
          (if ref = "W" then
            -roundDouble
            (roundDouble
              (roundDouble ((v.deg.num : ℚ) / (v.deg.den : ℚ)) +
                roundDouble (roundDouble ((v.min.num : ℚ) / (v.min.den : ℚ)) / 60)) +
              roundDouble (roundDouble ((v.sec.num : ℚ) / (v.sec.den : ℚ)) / 3600))
          else
            roundDouble
            (roundDouble
              (roundDouble ((v.deg.num : ℚ) / (v.deg.den : ℚ)) +
                roundDouble (roundDouble ((v.min.num : ℚ) / (v.min.den : ℚ)) / 60)) +
              roundDouble (roundDouble ((v.sec.num : ℚ) / (v.sec.den : ℚ)) / 3600)))) ∧
      (∀ v : DegMinSec, 0 ≤ v.deg.num → 0 < v.deg.den → 0 ≤ v.min.num → 0 < v.min.den →
        0 ≤ v.sec.num → 0 < v.sec.den →
        0 ≤ Point.Lat * ReadExifData_Lat v t.GPSLatitudeRef ∧
        0 ≤ Point.Lat * ReadExifData_Lat_double v t.GPSLatitudeRef ∧
        0 ≤ Point.Long * ReadExifData_Long v t.GPSLongitudeRef ∧
        0 ≤ Point.Long * ReadExifData_Long_double v t.GPSLongitudeRef) := by
  obtain ⟨t, ht, hlat, hlong, hread, hLat, hLong⟩ :=
    WriteGPSData_read_back fuel Point DegMinSecs hf
  refine ⟨t, ht, hlat, hlong, hread, hLat, hLong, fun v ref => ⟨rfl, rfl⟩, ?_⟩
  intro v h1 h2 h3 h4 h5 h6
  obtain ⟨hm, hmd⟩ := ReadExifData_magnitude_nonneg v h1 h2 h3 h4 h5 h6
  have hN : ¬ Point.Lat < 0 → t.GPSLatitudeRef ≠ "S" := fun h hS => h (hlat.1.1 hS)
  have hE : ¬ Point.Long < 0 → t.GPSLongitudeRef ≠ "W" := fun h hW => h (hlong.1.1 hW)
  have e1 : ReadExifData_Lat v t.GPSLatitudeRef =
      (if Point.Lat < 0 then -ReadExifData_magnitude v else ReadExifData_magnitude v) := by
    unfold ReadExifData_Lat
    by_cases h : Point.Lat < 0
    · simp [h, hlat.1.2 h]
    · simp [h, hN h]
  have e2 : ReadExifData_Lat_double v t.GPSLatitudeRef =
      (if Point.Lat < 0 then -ReadExifData_magnitude_double v
       else ReadExifData_magnitude_double v) := by
    unfold ReadExifData_Lat_double
    by_cases h : Point.Lat < 0
    · simp [h, hlat.1.2 h]
    · simp [h, hN h]
  have e3 : ReadExifData_Long v t.GPSLongitudeRef =
      (if Point.Long < 0 then -ReadExifData_magnitude v else ReadExifData_magnitude v) := by
    unfold ReadExifData_Long
    by_cases h : Point.Long < 0
    · simp [h, hlong.1.2 h]
    · simp [h, hE h]
  have e4 : ReadExifData_Long_double v t.GPSLongitudeRef =
      (if Point.Long < 0 then -ReadExifData_magnitude_double v
       else ReadExifData_magnitude_double v) := by
    unfold ReadExifData_Long_double
    by_cases h : Point.Long < 0
    · simp [h, hlong.1.2 h]
    · simp [h, hE h]
  rw [e1, e2, e3, e4]
  exact ⟨mul_signed_nonneg _ _ hm, mul_signed_nonneg _ _ hmd, mul_signed_nonneg _ _ hm,
    mul_signed_nonneg _ _ hmd⟩

/-- Witness of C13: the point of the debugging `main` in `exif-gps.cpp`
(`Lat = -41.1234567`, `Long = 115.12345`, `Elev = 25.12345`), taken with seven, five
and five decimals. -/
theorem hemisphere_round_trip_witness :
    ∃ t : GPSTags, WriteGPSData 3 
      { Lat := -411234567 / 10000000, LatDecimals := 7,
        Long := 11512345 / 100000, LongDecimals := 5,
        Elev := 2512345 / 100000, ElevDecimals := 5, Time := 123456 } 1 = some t ∧
      ((t.GPSLatitudeRef = "S" ↔ (-411234567 / 10000000 : ℚ) < 0) ∧
        (t.GPSLatitudeRef = "N" ↔ ¬ (-411234567 / 10000000 : ℚ) < 0)) ∧
      ((t.GPSLongitudeRef = "W" ↔ (11512345 / 100000 : ℚ) < 0) ∧
        (t.GPSLongitudeRef = "E" ↔ ¬ (11512345 / 100000 : ℚ) < 0)) ∧
      (∀ (v : DegMinSec) (ref : String),
        ReadExifData_Lat v ref =
          (if ref = "S" then
            -((v.deg.num : ℚ) / (v.deg.den : ℚ) +
            ((v.min.num : ℚ) / (v.min.den : ℚ)) / 60 +
            ((v.sec.num : ℚ) / (v.sec.den : ℚ)) / 3600)
          else
            ((v.deg.num : ℚ) / (v.deg.den : ℚ) +
            ((v.min.num : ℚ) / (v.min.den : ℚ)) / 60 +
            ((v.sec.num : ℚ) / (v.sec.den : ℚ)) / 3600)) ∧
        ReadExifData_Long v ref =
          (if ref = "W" then
            -((v.deg.num : ℚ) / (v.deg.den : ℚ) +
            ((v.min.num : ℚ) / (v.min.den : ℚ)) / 60 +
            ((v.sec.num : ℚ) / (v.sec.den : ℚ)) / 3600)
          else
            ((v.deg.num : ℚ) / (v.deg.den : ℚ) +
            ((v.min.num : ℚ) / (v.min.den : ℚ)) / 60 +
            ((v.sec.num : ℚ) / (v.sec.den : ℚ)) / 3600))) ∧
      (ReadExifData_Lat t.GPSLatitude t.GPSLatitudeRef =
          ((SignType.sign (-411234567 / 10000000 : ℚ) : SignType) : ℚ) *
            ((t.GPSLatitude.deg.num : ℚ) / (t.GPSLatitude.deg.den : ℚ) +
            ((t.GPSLatitude.min.num : ℚ) / (t.GPSLatitude.min.den : ℚ)) / 60 +
            ((t.GPSLatitude.sec.num : ℚ) / (t.GPSLatitude.sec.den : ℚ)) / 3600) ∧
        0 ≤ (-411234567 / 10000000 : ℚ) * ReadExifData_Lat t.GPSLatitude t.GPSLatitudeRef) ∧
      (ReadExifData_Long t.GPSLongitude t.GPSLongitudeRef =
          ((SignType.sign (11512345 / 100000 : ℚ) : SignType) : ℚ) *
            ((t.GPSLongitude.deg.num : ℚ) / (t.GPSLongitude.deg.den : ℚ) +
            ((t.GPSLongitude.min.num : ℚ) / (t.GPSLongitude.min.den : ℚ)) / 60 +
            ((t.GPSLongitude.sec.num : ℚ) / (t.GPSLongitude.sec.den : ℚ)) / 3600) ∧
        0 ≤ (11512345 / 100000 : ℚ) * ReadExifData_Long t.GPSLongitude t.GPSLongitudeRef) ∧
      (∀ (v : DegMinSec) (ref : String),
        ReadExifData_Lat_double v ref =
          (if ref = "S" then
            -roundDouble
            (roundDouble
              (roundDouble ((v.deg.num : ℚ) / (v.deg.den : ℚ)) +
                roundDouble (roundDouble ((v.min.num : ℚ) / (v.min.den : ℚ)) / 60)) +
              roundDouble (roundDouble ((v.sec.num : ℚ) / (v.sec.den : ℚ)) / 3600))
          else
            roundDouble
            (roundDouble
              (roundDouble ((v.deg.num : ℚ) / (v.deg.den : ℚ)) +
                roundDouble (roundDouble ((v.min.num : ℚ) / (v.min.den : ℚ)) / 60)) +
              roundDouble (roundDouble ((v.sec.num : ℚ) / (v.sec.den : ℚ)) / 3600))) ∧
        ReadExifData_Long_double v ref =
          (if ref = "W" then
            -roundDouble
            (roundDouble
              (roundDouble ((v.deg.num : ℚ) / (v.deg.den : ℚ)) +
                roundDouble (roundDouble ((v.min.num : ℚ) / (v.min.den : ℚ)) / 60)) +
              roundDouble (roundDouble ((v.sec.num : ℚ) / (v.sec.den : ℚ)) / 3600))
          else
            roundDouble
            (roundDouble
              (roundDouble ((v.deg.num : ℚ) / (v.deg.den : ℚ)) +
                roundDouble (roundDouble ((v.min.num : ℚ) / (v.min.den : ℚ)) / 60)) +
              roundDouble (roundDouble ((v.sec.num : ℚ) / (v.sec.den : ℚ)) / 3600)))) ∧
      (∀ v : DegMinSec, 0 ≤ v.deg.num → 0 < v.deg.den → 0 ≤ v.min.num → 0 < v.min.den →
        0 ≤ v.sec.num → 0 < v.sec.den →
        0 ≤ (-411234567 / 10000000 : ℚ) * ReadExifData_Lat v t.GPSLatitudeRef ∧
        0 ≤ (-411234567 / 10000000 : ℚ) * ReadExifData_Lat_double v t.GPSLatitudeRef ∧
        0 ≤ (11512345 / 100000 : ℚ) * ReadExifData_Long v t.GPSLongitudeRef ∧
        0 ≤ (11512345 / 100000 : ℚ) * ReadExifData_Long_double v t.GPSLongitudeRef) :=
  hemisphere_round_trip 3
    { Lat := -411234567 / 10000000, LatDecimals := 7,
      Long := 11512345 / 100000, LongDecimals := 5,
      Elev := 2512345 / 100000, ElevDecimals := 5, Time := 123456 } 1 (le_refl 3)

/-- The witness of C13 in numbers: the latitude `-41.1234567` is written as
`"S"`, `41/1 7/1 244441/10000` and read back as `-(41 + 7/60 + 24.4441/3600)`; the
longitude `115.12345` is written as `"E"`, `115/1 7/1 2442/100` and read back as
`115 + 7/60 + 24.42/3600`. On doubles the reader returns the doubles nearest to these,
with the same signs. -/
theorem hemisphere_round_trip_example :
    (WriteGPSData 3
        { Lat := -411234567 / 10000000, LatDecimals := 7,
          Long := 11512345 / 100000, LongDecimals := 5,
          Elev := 2512345 / 100000, ElevDecimals := 5, Time := 123456 } 1).map
      (fun t => (t.GPSLatitudeRef, t.GPSLatitude, t.GPSLongitudeRef, t.GPSLongitude,
        ReadExifData_Lat t.GPSLatitude t.GPSLatitudeRef,
        ReadExifData_Long t.GPSLongitude t.GPSLongitudeRef)) =
      some ("S", { deg := ⟨41, 1⟩, min := ⟨7, 1⟩, sec := ⟨244441, 10000⟩ },
            "E", { deg := ⟨115, 1⟩, min := ⟨7, 1⟩, sec := ⟨2442, 100⟩ },
            -(41 + 7 / 60 + (244441 / 10000) / 3600),
            115 + 7 / 60 + (2442 / 100) / 3600) ∧
    ReadExifData_Lat_double { deg := ⟨41, 1⟩, min := ⟨7, 1⟩, sec := ⟨244441, 10000⟩ } "S" =
      -(2893806003832605 / 2 ^ 46) ∧
    ReadExifData_Lat_double { deg := ⟨41, 1⟩, min := ⟨7, 1⟩, sec := ⟨244441, 10000⟩ } "S" =
      roundDouble (-(41 + 7 / 60 + (244441 / 10000) / 3600)) := by
  refine ⟨by decide!, by decide!, by decide!⟩

end GpsCorrelate
